import Mathlib

/-!
# minissh: version exchange, connection set-up and password authentication

A shallow embedding of `src/session.c` (`send_id_str`, `receive_id_str`,
`ssh_connect`) and `src/auth.c` (`ssh_request_auth`, `ssh_get_password`,
`ssh_userauth_password`).

Conventions of the embedding.

* A C `char`/`uint8_t` is a `Nat`; a C string is the `List Nat` of its bytes
  without the terminating NUL; C `int`s are `Int`.
* The session structure holds the fields of `struct ssh_session_struct` the
  functions above touch.  Everything the functions reach outside of it (the
  socket, the packet layer, the terminal, the error slot of `ssh_set_error`,
  the function-local `static int cnt` of `ssh_userauth_password`, libc) is
  gathered in `Env`.
* Every function is a state transformer
  `ssh_session_struct → Env → Int × ssh_session_struct × Env`,
  the `Int` being the C return code.  The one exception is
  `ssh_userauth_password`, which stores through a pointer it never assigns:
  its result is a `userauth_outcome`, a return or the death of the process.
-/

namespace MiniSSH

/-! ## Constants of the absent headers -/

/-- Modelled from the spec: return code of `libssh.h` (absent), success. -/
def SSH_OK : Int := 0
/-- Modelled from the spec: return code of `libssh.h` (absent), failure. -/
def SSH_ERROR : Int := -1
/-- Modelled from the spec: return code of `libssh.h` (absent), used by
`ssh_userauth_password` for the exhausted retry bound. -/
def SSH_AGAIN : Int := -2

/-- Modelled from the spec: the error kinds of `error.h` (absent) that the
sources pass to `ssh_set_error`. -/
inductive ssh_error_types_e where
  | SSH_NO_ERROR
  | SSH_REQUEST_DENIED
  | SSH_FATAL
  deriving DecidableEq, Repr

open ssh_error_types_e

/-- Bytes of a string literal. -/
def bytes (s : String) : List Nat := s.toList.map Char.toNat

/-- Carriage return, `#define CR 0xd`. -/
def CR : Nat := 0xd
/-- Line feed, `#define LF 0xa`. -/
def LF : Nat := 0xa
/-- Space, `#define SP 0x20`. -/
def SP : Nat := 0x20
/-- The dash, `#define UND 0x2d`. -/
def UND : Nat := 0x2d

/-! ## Session and environment -/

/-- The fields of `session->opts` used by the modelled functions. -/
structure ssh_options_struct where
  /-- the field `char *host`, `none` is `NULL` -/
  host : Option (List Nat)
  /-- the field `char *username` (filled in by `ssh_new`) -/
  username : List Nat
  /-- the field `uint16_t port` -/
  port : Nat

/-- The fields of `struct ssh_session_struct` used by the modelled functions. -/
structure ssh_session_struct where
  opts : ssh_options_struct
  /-- the field `char *client_id_str`, `none` is `NULL` -/
  client_id_str : Option (List Nat)
  /-- the field `char *server_id_str`, `none` is `NULL` -/
  server_id_str : Option (List Nat)
  protoversion : Int
  /-- payload being assembled for the next packet -/
  out_buffer : List Nat
  /-- unread payload of the last received packet -/
  in_buffer : List Nat

/-- The world outside the session structure. -/
structure Env where
  /-- bytes the server has still to deliver on the raw socket -/
  socket_rx : List Nat
  /-- bytes written to the raw socket so far -/
  socket_tx : List Nat
  /-- set by `ssh_socket_close` -/
  socket_closed : Bool
  /-- return code of the k-th `ssh_socket_write` -/
  socket_write_rc : Nat → Int
  /-- number of `ssh_socket_write` calls so far -/
  n_write : Nat
  /-- outcomes of the coming `ssh_packet_receive` calls: return code and payload -/
  packets_rx : List (Int × List Nat)
  /-- payloads handed to the packet layer by successful `ssh_packet_send` calls -/
  packets_tx : List (List Nat)
  /-- return code of the k-th `ssh_buffer_pack` -/
  pack_rc : Nat → Int
  /-- number of `ssh_buffer_pack` calls so far -/
  n_pack : Nat
  /-- return code of the k-th `ssh_packet_send` -/
  send_rc : Nat → Int
  /-- number of `ssh_packet_send` calls so far -/
  n_send : Nat
  /-- characters still to be typed at the terminal -/
  stdin : List Nat
  /-- bytes printed to standard output -/
  stdout : List Nat
  /-- the slot written by `ssh_set_error` -/
  error : Option (ssh_error_types_e × String)
  /-- the `static int cnt` of `ssh_userauth_password` -/
  cnt : Int
  /-- libc: `(int) atof(s)` -/
  atof_int : List Nat → Int

/-- Modelled from the spec: `ssh_set_error` of `error.h` (absent) records the
most recent error kind and message. -/
def ssh_set_error (env : Env) (kind : ssh_error_types_e) (msg : String) : Env :=
  { env with error := some (kind, msg) }

/-! ## `receive_id_str` -/

/-- Read of `buffer[k]`. -/
def rd (buffer : List Nat) (k : Nat) : Nat := buffer.getD k 0

/-- Modelled from the spec: `ssh_socket_read(session->socket, &buffer[i], 1)` of
the absent socket layer; it stores the next byte of the stream in `buffer[i]`,
and leaves `buffer[i]` as it is when the peer has closed the connection.  Its
return value is not looked at by `receive_id_str`. -/
def ssh_socket_read (env : Env) (buffer : List Nat) (i : Nat) : List Nat × Env :=
  match env.socket_rx with
  | [] => (buffer, env)
  | c :: rest => (buffer.set i c, { env with socket_rx := rest })

/-- The backward walk
`for (str = &buffer[i-1]; str != buffer; str = str - 1)
   if (str != buffer + 1) if (str[-2] == CR && str[-1] == LF) break;`
on offsets into `buffer`: the argument is the offset `str` starts from, the
result the offset it stops at. -/
def find_start (buffer : List Nat) : Nat → Nat
  | 0 => 0
  | p + 1 =>
    if p + 1 ≠ 1 ∧ rd buffer (p + 1 - 2) = CR ∧ rd buffer (p + 1 - 1) = LF then p + 1
    else find_start buffer p

/-- Local variables of the scan of an identification line. -/
structure scan_state where
  sum_UND : Int
  sum_SP : Int
  pos_UND_1 : Int
  pos_UND_2 : Int
  bad : Bool
  deriving DecidableEq, Repr

/-- The initial values `sum_UND = 0, sum_SP = 0, pos_UND_1 = -1, pos_UND_2 = -1, bad = false`. -/
def scan_init : scan_state := ⟨0, 0, -1, -1, false⟩

/-- Body of `for (int j = 0; j < len && !bad; j++)`; `str j` is `str[j]`. -/
def scan_body (str : Nat → Nat) (len j : Nat) (st : scan_state) : scan_state :=
  let st1 :=
    if str j = UND then
      let sa :=
        if j = 0 ∨ j = len - 1 ∨ str (j - 1) = UND ∨ str (j + 1) = SP then
          { st with bad := true }
        else st
      if sa.sum_SP = 0 then
        let sb := { sa with sum_UND := sa.sum_UND + 1 }
        if sb.sum_UND > 2 then { sb with bad := true }
        else if sb.pos_UND_1 = -1 then { sb with pos_UND_1 := (j : Int) }
        else { sb with pos_UND_2 := (j : Int) }
      else sa
    else st
  if str j = SP then
    let sc := if st1.sum_UND ≠ 2 then { st1 with bad := true } else st1
    { sc with sum_SP := 1 }
  else st1

/-- The loop `for (int j = 0; j < len && !bad; j++)`, from index `j` on; the
first argument bounds the number of iterations left (`len - j` is enough). -/
def scan_loop (str : Nat → Nat) (len : Nat) : Nat → Nat → scan_state → scan_state
  | 0, _, st => st
  | n + 1, j, st =>
    if j < len ∧ st.bad = false then scan_loop str len n (j + 1) (scan_body str len j st)
    else st

/-- The C string that starts at `buffer[start]`: the bytes up to the first NUL. -/
def cstring (buffer : List Nat) (start : Nat) : List Nat :=
  (buffer.drop start).takeWhile (fun c => decide (c ≠ 0))

/-- Body of the outer loop of `receive_id_str` after the byte `buffer[i]` has
been read: `none` is `continue`, `some r` is `return` with the state `r`. -/
def receive_id_str_body (session : ssh_session_struct) (env : Env) (buffer : List Nat)
    (i : Nat) : Option (Int × ssh_session_struct × Env) :=
  if i = 0 ∨ rd buffer i ≠ LF ∨ rd buffer (i - 1) ≠ CR then none
  else
    let str := find_start buffer (i - 1)
    let len := i - str + 1
    if len ≤ 3 ∨ len + 1 > 255 then none
    else if rd buffer str ≠ 83 ∨ rd buffer (str + 1) ≠ 83 ∨ rd buffer (str + 2) ≠ 72
        ∨ rd buffer (str + 3) ≠ UND then none
    else
      let st := scan_loop (fun j => rd buffer (str + j)) len len 0 scan_init
      let bad := st.bad || decide (st.sum_UND ≠ 2)
      let buffer1 := buffer.set (str + (len - 2)) 0
      if bad then
        some (SSH_ERROR, session, ssh_set_error env SSH_FATAL "bad ssh version string")
      else
        let server_id_str := cstring buffer1 str
        let buffer2 := buffer1.set (str + st.pos_UND_2.toNat) 0
        let protoversion := env.atof_int (cstring buffer2 (str + (st.pos_UND_1 + 1).toNat))
        some (SSH_OK,
              { session with server_id_str := some server_id_str, protoversion := protoversion },
              env)

/-- The loop `for (int i = 0; i < 256; ++i)` of `receive_id_str` from index `i`
on, the first argument being the number `256 - i` of iterations left; falling
out of the loop is `return SSH_ERROR`. -/
def receive_id_str_loop (session : ssh_session_struct) :
    Nat → Nat → List Nat → Env → Int × ssh_session_struct × Env
  | 0, _, _, env => (SSH_ERROR, session, env)
  | n + 1, i, buffer, env =>
    let r := ssh_socket_read env buffer i
    match receive_id_str_body session r.2 r.1 i with
    | some res => res
    | none => receive_id_str_loop session n (i + 1) r.1 r.2

/-- The function `int receive_id_str(ssh_session session)`, with `char buffer[256]`
all zero at the start. -/
def receive_id_str (session : ssh_session_struct) (env : Env) :
    Int × ssh_session_struct × Env :=
  receive_id_str_loop session 256 0 (List.replicate 256 0) env

/-! ## The buffer and packet layers (absent from the sources) -/

/-- Message numbers of `libssh.h` (absent), RFC 4253 and RFC 4252. -/
def SSH_MSG_SERVICE_REQUEST : Nat := 5
/-- Message number, RFC 4253. -/
def SSH_MSG_SERVICE_ACCEPT : Nat := 6
/-- Message number, RFC 4252. -/
def SSH_MSG_USERAUTH_REQUEST : Nat := 50
/-- Modelled from the spec: `USERAUTH_FAILURE (51)`. -/
def SSH_MSG_USERAUTH_FAILURE : Nat := 51
/-- Modelled from the spec: `USERAUTH_SUCCESS (52)`. -/
def SSH_MSG_USERAUTH_SUCCESS : Nat := 52
/-- Modelled from the spec: `USERAUTH_BANNER (53)`. -/
def SSH_MSG_USERAUTH_BANNER : Nat := 53
/-- Modelled from the spec: `USERAUTH_PASSWD_CHANGEREQ (60)`. -/
def SSH_MSG_USERAUTH_PASSWD_CHANGEREQ : Nat := 60

/-- An argument of `ssh_buffer_pack`: `b` is format code `b` (one byte), `s`
is format code `s` (a C string). -/
inductive pack_arg where
  | b (v : Nat)
  | s (v : List Nat)

/-- Modelled from the spec: big-endian u32 (§4.1). -/
def u32_bytes (n : Nat) : List Nat :=
  [n / 16777216 % 256, n / 65536 % 256, n / 256 % 256, n % 256]

/-- Modelled from the spec: wire layout of the format codes (§4.1): `b` is one
byte, `s` is a u32 length followed by the bytes. -/
def pack_bytes : List pack_arg → List Nat
  | [] => []
  | pack_arg.b v :: rest => v :: pack_bytes rest
  | pack_arg.s v :: rest => u32_bytes v.length ++ v ++ pack_bytes rest

/-- Modelled from the spec: `ssh_buffer_pack` of the absent `buffer.c` appends
the packed arguments to the out-buffer; its return code is the environment's
(`SSH_ERROR` stands for a failed allocation, which appends nothing). -/
def ssh_buffer_pack (session : ssh_session_struct) (env : Env) (args : List pack_arg) :
    Int × ssh_session_struct × Env :=
  let rc := env.pack_rc env.n_pack
  let env1 := { env with n_pack := env.n_pack + 1 }
  if rc = SSH_OK then
    (rc, { session with out_buffer := session.out_buffer ++ pack_bytes args }, env1)
  else (rc, session, env1)

/-- Modelled from the spec: `ssh_packet_send` of the absent `packet.c` (§4.4)
hands the payload in the out-buffer to the packet layer and empties the
out-buffer; its return code is the environment's, and a failed send transmits
nothing. -/
def ssh_packet_send (session : ssh_session_struct) (env : Env) :
    Int × ssh_session_struct × Env :=
  let rc := env.send_rc env.n_send
  let env1 := { env with n_send := env.n_send + 1 }
  if rc = SSH_OK then
    (rc, { session with out_buffer := [] },
      { env1 with packets_tx := env1.packets_tx ++ [session.out_buffer] })
  else (rc, session, env1)

/-- Modelled from the spec: `ssh_packet_receive` of the absent `packet.c` (§4.4)
places the payload of the next packet into the in-buffer; with no packet left
the connection is closed and the call fails. -/
def ssh_packet_receive (session : ssh_session_struct) (env : Env) :
    Int × ssh_session_struct × Env :=
  match env.packets_rx with
  | [] => (SSH_ERROR, session, env)
  | (rc, payload) :: rest =>
    if rc = SSH_OK then
      (rc, { session with in_buffer := payload }, { env with packets_rx := rest })
    else (rc, session, { env with packets_rx := rest })

/-- Modelled from the spec: `ssh_buffer_get_u8` of the absent `buffer.c`
consumes one byte of the in-buffer into `*data`; on an empty buffer `*data`
keeps the value `old` it had. -/
def ssh_buffer_get_u8 (session : ssh_session_struct) (old : Nat) : Nat × ssh_session_struct :=
  match session.in_buffer with
  | [] => (old, session)
  | c :: rest => (c, { session with in_buffer := rest })

/-- Modelled from the spec: consuming one `s` field (§4.1): a big-endian u32
length `L` of at most 256 KiB, then `L` bytes, failing when fewer than `L`
bytes remain. -/
def unpack_string : List Nat → Option (List Nat × List Nat)
  | a :: b :: c :: d :: rest =>
    let L := a * 16777216 + b * 65536 + c * 256 + d
    if L ≤ 262144 ∧ L ≤ rest.length then some (rest.take L, rest.drop L) else none
  | _ => none

/-- Modelled from the spec: `ssh_buffer_unpack(buffer, "ss", ..)` on the bytes
of the buffer; `none` is a return code other than `SSH_OK`. -/
def ssh_buffer_unpack_ss (buf : List Nat) : Option (List Nat × List Nat × List Nat) :=
  match unpack_string buf with
  | none => none
  | some (s1, rest1) =>
    match unpack_string rest1 with
    | none => none
    | some (s2, rest2) => some (s1, s2, rest2)

/-- Modelled from the spec: `ssh_buffer_unpack(buffer, "bs", ..)` on the bytes
of the buffer; `none` is a return code other than `SSH_OK`. -/
def ssh_buffer_unpack_bs (buf : List Nat) : Option (Nat × List Nat × List Nat) :=
  match buf with
  | [] => none
  | t :: rest =>
    match unpack_string rest with
    | none => none
    | some (s1, rest1) => some (t, s1, rest1)

/-- The effect of `fprintf(stdout, ..)`. -/
def print (env : Env) (text : List Nat) : Env := { env with stdout := env.stdout ++ text }

/-! ## `auth.c` -/

/-- The function `int ssh_request_auth(ssh_session session)`. -/
def ssh_request_auth (session : ssh_session_struct) (env : Env) :
    Int × ssh_session_struct × Env :=
  let r1 := ssh_buffer_pack session env
    [pack_arg.b SSH_MSG_SERVICE_REQUEST, pack_arg.s (bytes "ssh-userauth")]
  let r2 := ssh_packet_send r1.2.1 r1.2.2
  let rc := Int.lor r1.1 r2.1
  if rc ≠ SSH_OK then (rc, r2.2.1, r2.2.2)
  else
    let r3 := ssh_packet_receive r2.2.1 r2.2.2
    if r3.1 ≠ SSH_OK then r3
    else
      match ssh_buffer_unpack_bs r3.2.1.in_buffer with
      | none => (SSH_ERROR, r3.2.1, r3.2.2)
      | some (type, service, rest) =>
        let session1 := { r3.2.1 with in_buffer := rest }
        if type ≠ SSH_MSG_SERVICE_ACCEPT
            ∨ service.takeWhile (fun c => decide (c ≠ 0)) ≠ bytes "ssh-userauth" then
          (SSH_ERROR, session1, r3.2.2)
        else (SSH_OK, session1, r3.2.2)

/-- The libc call `getchar()`: the next character typed, `EOF` (-1) when there is none. -/
def getchar (env : Env) : Int × Env :=
  match env.stdin with
  | [] => (-1, env)
  | c :: rest => ((c : Int), { env with stdin := rest })

/-- The loop
`while ((c = getchar()) != '\n' && c != EOF && i < max_len) password[i++] = c;`
of `ssh_get_password`, `c` being a `uint8_t` (so `c != EOF` always holds); the
first argument is `max_len - i`, the second the characters stored so far. -/
def ssh_get_password_loop : Nat → List Nat → Env → List Nat × Env
  | 0, password, env => (password, (getchar env).2)
  | n + 1, password, env =>
    let g := getchar env
    let c := (g.1 % 256).toNat
    if c ≠ 10 then ssh_get_password_loop n (password ++ [c]) g.2
    else (password, g.2)

/-- The function `void ssh_get_password(char *password)`, returning the password read
(`max_len = 100`); the terminal settings are not modelled. -/
def ssh_get_password (env : Env) : List Nat × Env :=
  ssh_get_password_loop 100 [] (print env (bytes "password: "))

/-- The label `error:` of `ssh_userauth_password`. -/
def userauth_error (session : ssh_session_struct) (env : Env) :
    Int × ssh_session_struct × Env :=
  (SSH_ERROR, { session with out_buffer := [] }, env)

/-- The request packed by `ssh_userauth_password`, format `"bsssbs"`. -/
def userauth_request (session : ssh_session_struct) (password : List Nat) : List pack_arg :=
  [pack_arg.b SSH_MSG_USERAUTH_REQUEST, pack_arg.s session.opts.username,
   pack_arg.s (bytes "ssh-connection"), pack_arg.s (bytes "password"),
   pack_arg.b 0, pack_arg.s password]

/-- The call `ssh_get_password(retry_password)` when the pointer does not
hold the address of writable memory: the prompt is printed, one character is
read, and the first store through the pointer (`password[i++] = c`, or
`password[i] = 0` when that character is a newline) kills the process.  The
result is the world at that moment. -/
def ssh_get_password_fault (env : Env) : Env :=
  (getchar (print env (bytes "password: "))).2

/-- How a call of `ssh_userauth_password` ends: it returns (return code,
session, world), or the process is killed by the store through the pointer
`retry_password`, in which case nothing is returned and only the world at that
moment is left. -/
inductive userauth_outcome where
  | returned (r : Int × ssh_session_struct × Env)
  | killed (env : Env)

/-- The return code, when there is one. -/
def userauth_outcome.rc : userauth_outcome → Option Int
  | userauth_outcome.returned r => some r.1
  | userauth_outcome.killed _ => none

/-- The session at the return, when there is one. -/
def userauth_outcome.session : userauth_outcome → Option ssh_session_struct
  | userauth_outcome.returned r => some r.2.1
  | userauth_outcome.killed _ => none

/-- The world at the end of the call. -/
def userauth_outcome.env : userauth_outcome → Env
  | userauth_outcome.returned r => r.2.2
  | userauth_outcome.killed env => env

/-- The loop `while (rc != SSH_ERROR) { .. }` of `ssh_userauth_password`
followed by the label `error:`.  The first numeric argument bounds the number
of iterations; every iteration takes one entry of `packets_rx`, so that
`packets_rx.length + 1` is enough.  `type` is the local `uint8_t type`.

The local `char* retry_password` is declared and never assigned before it is
handed to `ssh_get_password`, which stores through it.  `retry_password_valid`
says whether the value the pointer happens to hold is the address of memory
that can take the password, memory outside of everything modelled here: then
the prompt reads the terminal, what was typed is stored there and never read
again by the source; otherwise the store kills the process.

The static `cnt` is an unbounded `Int`: its overflow is out of reach of the
statements below. -/
def ssh_userauth_password_loop (password : List Nat) (retry_password_valid : Bool) :
    Nat → Int → Nat → ssh_session_struct → Env → userauth_outcome
  | 0, _, _, session, env => userauth_outcome.returned (userauth_error session env)
  | n + 1, rc, type, session, env =>
    if rc = SSH_ERROR then userauth_outcome.returned (userauth_error session env)
    else
      let r := ssh_packet_receive session env
      if r.1 ≠ SSH_OK then userauth_outcome.returned (userauth_error r.2.1 r.2.2)
      else
        let g := ssh_buffer_get_u8 r.2.1 type
        let type1 := g.1
        let session1 := g.2
        let env1 := r.2.2
        if type1 = SSH_MSG_USERAUTH_BANNER then
          match ssh_buffer_unpack_ss session1.in_buffer with
          | some (banner_msg, _, rest) =>
            -- no `break` or `continue`: control falls through to the next case
            userauth_outcome.returned
              (SSH_OK, { session1 with in_buffer := rest }, print env1 banner_msg)
          | none => userauth_outcome.returned (userauth_error session1 env1)
        else if type1 = SSH_MSG_USERAUTH_SUCCESS then
          userauth_outcome.returned (SSH_OK, session1, env1)
        else if type1 = SSH_MSG_USERAUTH_PASSWD_CHANGEREQ
            ∨ type1 = SSH_MSG_USERAUTH_FAILURE then
          let env2 := { env1 with cnt := env1.cnt + 1 }
          let env3 := print env2
            (bytes "Wrong passwd, tried " ++ bytes (toString env2.cnt) ++ bytes " time(s)\n")
          if env3.cnt = 3 then
            userauth_outcome.returned
              (SSH_AGAIN, session1,
                ssh_set_error env3 SSH_FATAL "Try too many times, connection failed!\n")
          else if retry_password_valid = false then
            userauth_outcome.killed (ssh_get_password_fault env3)
          else
            let p := ssh_get_password env3
            let r1 := ssh_buffer_pack session1 p.2 (userauth_request session1 password)
            if r1.1 ≠ SSH_OK then userauth_outcome.returned (userauth_error r1.2.1 r1.2.2)
            else
              let r2 := ssh_packet_send r1.2.1 r1.2.2
              if r2.1 ≠ SSH_OK then userauth_outcome.returned (userauth_error r2.2.1 r2.2.2)
              else
                ssh_userauth_password_loop password retry_password_valid n r2.1 type1
                  r2.2.1 r2.2.2
        else
          userauth_outcome.returned
            (userauth_error session1
              (ssh_set_error env1 SSH_FATAL "Unexpected server behavior!\n"))

/-- The function `int ssh_userauth_password(ssh_session session, const char *password)`;
`type0` is the value the uninitialised local `type` happens to hold, and
`retry_password_valid` tells what the unassigned local `retry_password` holds
(see `ssh_userauth_password_loop`). -/
def ssh_userauth_password (session : ssh_session_struct) (env : Env) (password : List Nat)
    (type0 : Nat) (retry_password_valid : Bool) : userauth_outcome :=
  let r1 := ssh_buffer_pack session env (userauth_request session password)
  if r1.1 ≠ SSH_OK then userauth_outcome.returned (userauth_error r1.2.1 r1.2.2)
  else
    let r2 := ssh_packet_send r1.2.1 r1.2.2
    if r2.1 ≠ SSH_OK then userauth_outcome.returned (userauth_error r2.2.1 r2.2.2)
    else
      ssh_userauth_password_loop password retry_password_valid
        (r2.2.2.packets_rx.length + 1) r2.1 type0 r2.2.1 r2.2.2

/-! ## `send_id_str` and `ssh_connect` -/

/-- The constant `#define CLIENT_ID_STR "SSH-2.0-minissh_0.1.0"`. -/
def CLIENT_ID_STR : List Nat := bytes "SSH-2.0-minissh_0.1.0"

/-- Modelled from the spec: `ssh_socket_write` of the absent socket layer; its
return code is the environment's and a successful write delivers the bytes. -/
def ssh_socket_write (env : Env) (data : List Nat) : Int × Env :=
  let rc := env.socket_write_rc env.n_write
  let env1 := { env with n_write := env.n_write + 1 }
  if rc = SSH_OK then (rc, { env1 with socket_tx := env1.socket_tx ++ data })
  else (rc, env1)

/-- The function `int send_id_str(ssh_session session)`. -/
def send_id_str (session : ssh_session_struct) (env : Env) :
    Int × ssh_session_struct × Env :=
  let session1 := { session with client_id_str := some CLIENT_ID_STR }
  let w := ssh_socket_write env (CLIENT_ID_STR ++ [CR, LF])
  (w.1, session1, w.2)

/-- The steps of `ssh_connect` that live in absent files (`socket.c`, `kex.c`,
`dh.c`): arbitrary state transformers. -/
structure ext_steps where
  ssh_socket_connect : ssh_session_struct → Env → Int × ssh_session_struct × Env
  ssh_set_client_kex : ssh_session_struct → Env → Int × ssh_session_struct × Env
  ssh_send_kex : ssh_session_struct → Env → Int × ssh_session_struct × Env
  ssh_receive_kex : ssh_session_struct → Env → Int × ssh_session_struct × Env
  ssh_select_kex : ssh_session_struct → Env → Int × ssh_session_struct × Env
  ssh_dh_handshake : ssh_session_struct → Env → Int × ssh_session_struct × Env

/-- Names of the calls `ssh_connect` makes, for its call trace. -/
inductive connect_call where
  | socket_connect | send_id | receive_id | set_client_kex | send_kex | receive_kex
  | select_kex | dh_handshake | request_auth | socket_close
  deriving DecidableEq, Repr

open connect_call

/-- Result of `ssh_connect`: return code, session, environment, calls made. -/
structure connect_result where
  rc : Int
  session : Option ssh_session_struct
  env : Env
  calls : List connect_call

/-- The label `error:` of `ssh_connect`. -/
def connect_error (session : ssh_session_struct) (env : Env) (calls : List connect_call) :
    connect_result :=
  { rc := SSH_ERROR, session := some session,
    env := ssh_set_error { env with socket_closed := true } SSH_REQUEST_DENIED
      "ssh connection failed",
    calls := calls ++ [socket_close] }

/-- The function `int ssh_connect(ssh_session session)`; `none` is the `NULL` session. -/
def ssh_connect (x : ext_steps) (session : Option ssh_session_struct) (env : Env) :
    connect_result :=
  match session with
  | none => { rc := SSH_ERROR, session := none, env := env, calls := [] }
  | some s =>
    if s.opts.host = none then connect_error s env []
    else
      let r1 := x.ssh_socket_connect s env
      if r1.1 = SSH_ERROR then connect_error r1.2.1 r1.2.2 [socket_connect]
      else
        let r2 := send_id_str r1.2.1 r1.2.2
        if r2.1 = SSH_ERROR then connect_error r2.2.1 r2.2.2 [socket_connect, send_id]
        else
          let r3 := receive_id_str r2.2.1 r2.2.2
          if r3.1 = SSH_ERROR then
            connect_error r3.2.1 r3.2.2 [socket_connect, send_id, receive_id]
          else
            let r4 := x.ssh_set_client_kex r3.2.1 r3.2.2
            if r4.1 = SSH_ERROR then
              connect_error r4.2.1 r4.2.2 [socket_connect, send_id, receive_id, set_client_kex]
            else
              let r5 := x.ssh_send_kex r4.2.1 r4.2.2
              if r5.1 = SSH_ERROR then
                connect_error r5.2.1 r5.2.2
                  [socket_connect, send_id, receive_id, set_client_kex, send_kex]
              else
                let r6 := x.ssh_receive_kex r5.2.1 r5.2.2
                if r6.1 = SSH_ERROR then
                  connect_error r6.2.1 r6.2.2
                    [socket_connect, send_id, receive_id, set_client_kex, send_kex,
                     receive_kex]
                else
                  let r7 := x.ssh_select_kex r6.2.1 r6.2.2
                  if r7.1 = SSH_ERROR then
                    connect_error r7.2.1 r7.2.2
                      [socket_connect, send_id, receive_id, set_client_kex, send_kex,
                       receive_kex, select_kex]
                  else
                    let r8 := x.ssh_dh_handshake r7.2.1 r7.2.2
                    if r8.1 = SSH_ERROR then
                      connect_error r8.2.1 r8.2.2
                        [socket_connect, send_id, receive_id, set_client_kex, send_kex,
                         receive_kex, select_kex, dh_handshake]
                    else
                      let r9 := ssh_request_auth r8.2.1 r8.2.2
                      if r9.1 = SSH_ERROR then
                        connect_error r9.2.1 r9.2.2
                          [socket_connect, send_id, receive_id, set_client_kex, send_kex,
                           receive_kex, select_kex, dh_handshake, request_auth]
                      else
                        { rc := SSH_OK, session := some r9.2.1, env := r9.2.2,
                          calls := [socket_connect, send_id, receive_id, set_client_kex,
                            send_kex, receive_kex, select_kex, dh_handshake, request_auth] }

/-! ## Concrete environments for the examples -/

/-- Integer part of a leading run of decimal digits: what `(int) atof(s)` is on
short strings of the form `digits` or `digits.digits`. -/
def digits_value : List Nat → Int → Int
  | [], acc => acc
  | c :: cs, acc => if 48 ≤ c ∧ c ≤ 57 then digits_value cs (acc * 10 + ((c - 48 : Nat) : Int)) else acc

/-- An empty session: all pointers `NULL`, user name `user`. -/
def session0 : ssh_session_struct :=
  { opts := { host := none, username := bytes "user", port := 22 },
    client_id_str := none, server_id_str := none, protoversion := 0,
    out_buffer := [], in_buffer := [] }

/-- An environment in which every call of the absent layers succeeds, with
nothing on the wire and nothing typed yet. -/
def env0 : Env :=
  { socket_rx := [], socket_tx := [], socket_closed := false,
    socket_write_rc := fun _ => SSH_OK, n_write := 0,
    packets_rx := [], packets_tx := [],
    pack_rc := fun _ => SSH_OK, n_pack := 0,
    send_rc := fun _ => SSH_OK, n_send := 0,
    stdin := [], stdout := [], error := none, cnt := 0,
    atof_int := fun s => digits_value s 0 }

/-- The environment `env0` with the given bytes waiting on the socket. -/
def env_rx (s : List Nat) : Env := { env0 with socket_rx := s }

/-- Steps of the absent layers that succeed and change nothing. -/
def ext_ok : ext_steps :=
  { ssh_socket_connect := fun s e => (SSH_OK, s, e),
    ssh_set_client_kex := fun s e => (SSH_OK, s, e),
    ssh_send_kex := fun s e => (SSH_OK, s, e),
    ssh_receive_kex := fun s e => (SSH_OK, s, e),
    ssh_select_kex := fun s e => (SSH_OK, s, e),
    ssh_dh_handshake := fun s e => (SSH_OK, s, e) }

/-- A received packet: return code `SSH_OK` and the payload. -/
def pkt (payload : List Nat) : Int × List Nat := (SSH_OK, payload)

/-- The environment `env0` with the given packets to come. -/
def env_pk (ps : List (Int × List Nat)) : Env := { env0 with packets_rx := ps }

/-- Payload of a `USERAUTH_BANNER` with the text `Welcome` and an empty language tag. -/
def banner_welcome : List Nat :=
  pack_bytes [pack_arg.b SSH_MSG_USERAUTH_BANNER, pack_arg.s (bytes "Welcome\n"), pack_arg.s []]

/-! ## Vocabulary for the statements about `receive_id_str` -/

/-- The contents of `buffer` once the bytes `s[0..k-1]` of the stream `s` have
been read into the zero-initialised array of 256 bytes. -/
def bufAt (s : List Nat) (k : Nat) : List Nat :=
  (List.range 256).map (fun j => if j < k then s.getD j 0 else 0)

/-- Whether a CR is immediately followed by an LF somewhere in the list. -/
def has_crlf : List Nat → Bool
  | a :: b :: t => (a == CR && b == LF) || has_crlf (b :: t)
  | _ => false

/-- The lines with the given contents, each terminated by CR LF, one after
the other. -/
def concat_lines : List (List Nat) → List Nat
  | [] => []
  | c :: cs => c ++ [CR, LF] ++ concat_lines cs

/-- The stream `s` holds at offset `o` the line `c ++ [CR, LF]`: the line
starts the stream or follows a CR LF, and its first CR LF is its terminator. -/
structure LineAt (s : List Nat) (o : Nat) (c : List Nat) : Prop where
  before : o = 0 ∨ (2 ≤ o ∧ s.getD (o - 2) 0 = CR ∧ s.getD (o - 1) 0 = LF)
  content : ∀ j, j < c.length → s.getD (o + j) 0 = c.getD j 0
  cr : s.getD (o + c.length) 0 = CR
  lf : s.getD (o + c.length + 1) 0 = LF
  inner : ∀ j, j < c.length → ¬ (s.getD (o + j) 0 = CR ∧ s.getD (o + j + 1) 0 = LF)

/-- The number of dashes before the first space of a line. -/
def dashes_before_space (c : List Nat) : Nat :=
  (c.takeWhile (fun x => decide (x ≠ SP))).count UND

/-- The payload of a `USERAUTH_FAILURE` without a body. -/
def failure_pkt : Int × List Nat := pkt [SSH_MSG_USERAUTH_FAILURE]
/-- The payload of a `USERAUTH_SUCCESS`. -/
def success_pkt : Int × List Nat := pkt [SSH_MSG_USERAUTH_SUCCESS]

/-- The environment left behind by a call of `ssh_userauth_password` that the
server answered with three failures, the pointer `retry_password` happening to
be valid. -/
def env_after_exhaustion : Env :=
  (ssh_userauth_password session0 (env_pk [failure_pkt, failure_pkt, failure_pkt])
    (bytes "pw") 0 true).env

/-- The request for the user `user` of `session0` with the password `wrong`,
byte by byte: type 50, then the strings `user`, `ssh-connection`, `password`,
each after its length, the byte 0 and the string `wrong`. -/
def request_wrong : List Nat :=
  [50, 0, 0, 0, 4] ++ bytes "user" ++ [0, 0, 0, 14] ++ bytes "ssh-connection"
    ++ [0, 0, 0, 8] ++ bytes "password" ++ [0, 0, 0, 0, 5] ++ bytes "wrong"

/-- A `SERVICE_ACCEPT` whose service name has 16 bytes: `ssh-userauth`, a NUL
and `xyz`. -/
def service_accept_nul_pkt : Int × List Nat :=
  pkt ([6, 0, 0, 0, 16] ++ bytes "ssh-userauth" ++ [0] ++ bytes "xyz")

/-- What the scan knows after `j` characters of a line whose number of dashes
before the first space is not two: it has flagged the line, or it has met no
space yet and `sum_UND` counts the dashes met. -/
def scan_inv (L : List Nat) (j : Nat) (st : scan_state) : Prop :=
  st.bad = true ∨ (st.sum_SP = 0 ∧ (∀ k, k < j → L.getD k 0 ≠ SP)
    ∧ st.sum_UND = (((L.take j).count UND : Nat) : Int))

/-- A session with a host name. -/
def session_h : ssh_session_struct :=
  { session0 with opts := { session0.opts with host := some (bytes "example.org") } }

/-- The reply `SERVICE_ACCEPT` for `ssh-userauth`. -/
def service_accept_pkt : Int × List Nat :=
  pkt (pack_bytes [pack_arg.b SSH_MSG_SERVICE_ACCEPT, pack_arg.s (bytes "ssh-userauth")])

/-! ## `ssh_options_set` -/

/-- A well-typed call of `ssh_options_set`: the option `type` together with
what `value` points to.  `host`, `user` carry the C string behind `value`,
`port` the `int` behind it, `none` being `value == NULL`; `unknown n` is any
other member `n` of `enum ssh_options_e` (its `value` is not looked at). -/
inductive ssh_option_request where
  | host (value : Option (List Nat))
  | port (value : Option Int)
  | user (value : Option (List Nat))
  | unknown (type : Int)

/-- The character `@`. -/
def AT : Nat := 64

/-- The function `int ssh_options_set(ssh_session session, enum ssh_options_e
type, const void *value)`; `none` is the `NULL` session.  Allocation (`strdup`)
is taken to succeed, so that the returns on a `NULL` from `strdup` are left
out.  In the port case the source has the expression statement `SSH_ERROR;`
under `if (*x <= 0)`, which does nothing: both branches go on to the
assignment `port = *x & 0xffffU`. -/
def ssh_options_set (session : Option ssh_session_struct) (env : Env)
    (req : ssh_option_request) : Int × Option ssh_session_struct × Env :=
  match session with
  | none => (SSH_ERROR, none, env)
  | some s =>
    match req with
    | ssh_option_request.host none => (SSH_ERROR, some s, env)
    | ssh_option_request.host (some v) =>
      if v = [] then (SSH_ERROR, some s, env)
      else
        let q := v
        if AT ∈ q then
          -- `*p = 0`: `q` now ends where the first `@` was, `p + 1` is what follows it
          let before := q.takeWhile (fun c => decide (c ≠ AT))
          let after := q.drop (before.length + 1)
          (SSH_OK, some { s with opts := { s.opts with host := some after, username := before } },
            env)
        else (SSH_OK, some { s with opts := { s.opts with host := some q } }, env)
    | ssh_option_request.port none => (SSH_ERROR, some s, env)
    | ssh_option_request.port (some x) =>
      let s1 := if x ≤ 0 then s else s
      (SSH_OK,
        some { s1 with opts := { s1.opts with port := ((x % 4294967296) % 65536).toNat } }, env)
    | ssh_option_request.user none => (SSH_ERROR, some s, env)
    | ssh_option_request.user (some v) =>
      if v = [] then (SSH_ERROR, some s, env)
      else (SSH_OK, some { s with opts := { s.opts with username := v } }, env)
    | ssh_option_request.unknown type =>
      (SSH_ERROR, some s,
        ssh_set_error env SSH_REQUEST_DENIED ("unknown option " ++ toString type))

/-! ## `ssh_get_random` (`libcrypto.c`) -/

/-- The random generator of the crypto library (absent): whether the build
defines `HAVE_OPENSSL_RAND_PRIV_BYTES`, and the two generators, which take the
buffer and the length and give their return code (1 success, 0 error, -1 not
supported, in the words of the source) and the buffer they leave. -/
structure rand_lib where
  HAVE_OPENSSL_RAND_PRIV_BYTES : Bool
  RAND_bytes : List Nat → Int → Int × List Nat
  RAND_priv_bytes : List Nat → Int → Int × List Nat

/-- The C expression `!!v`. -/
def c_not_not (v : Int) : Int := if v ≠ 0 then 1 else 0

/-- The function `int ssh_get_random(void *where, int len, int strong)`,
returning its return code and the buffer. -/
def ssh_get_random (lib : rand_lib) (buf : List Nat) (len : Int) (strong : Int) :
    Int × List Nat :=
  if lib.HAVE_OPENSSL_RAND_PRIV_BYTES = true ∧ strong ≠ 0 then
    (c_not_not (lib.RAND_priv_bytes buf len).1, (lib.RAND_priv_bytes buf len).2)
  else (c_not_not (lib.RAND_bytes buf len).1, (lib.RAND_bytes buf len).2)

/-- A generator that reports the code `rc` and leaves the buffer alone. -/
def rand_const (rc : Int) : rand_lib :=
  { HAVE_OPENSSL_RAND_PRIV_BYTES := true,
    RAND_bytes := fun b _ => (rc, b),
    RAND_priv_bytes := fun b _ => (rc, b) }

/-! ## The order of the steps of `ssh_connect`, in the words of the specification -/

/-- The nine steps of `ssh_connect` in their order, each with its name. -/
def connect_steps (x : ext_steps) :
    List (connect_call × (ssh_session_struct → Env → Int × ssh_session_struct × Env)) :=
  [(socket_connect, x.ssh_socket_connect), (send_id, send_id_str),
   (receive_id, receive_id_str), (set_client_kex, x.ssh_set_client_kex),
   (send_kex, x.ssh_send_kex), (receive_kex, x.ssh_receive_kex),
   (select_kex, x.ssh_select_kex), (dh_handshake, x.ssh_dh_handshake),
   (request_auth, ssh_request_auth)]

/-- Running steps one after the other: the first step that returns `SSH_ERROR`
ends the run, no later step is executed, the socket is closed, the error of the
label `error:` is recorded and `SSH_ERROR` returned; when no step does, the
result is `SSH_OK`.  `done` lists the calls made so far. -/
def run_in_order :
    List (connect_call × (ssh_session_struct → Env → Int × ssh_session_struct × Env)) →
    ssh_session_struct → Env → List connect_call → connect_result
  | [], s, env, done => { rc := SSH_OK, session := some s, env := env, calls := done }
  | (name, f) :: rest, s, env, done =>
    if (f s env).1 = SSH_ERROR then
      { rc := SSH_ERROR, session := some (f s env).2.1,
        env := ssh_set_error { (f s env).2.2 with socket_closed := true } SSH_REQUEST_DENIED
          "ssh connection failed",
        calls := done ++ [name] ++ [socket_close] }
    else run_in_order rest (f s env).2.1 (f s env).2.2 (done ++ [name])

/-- The behaviour of `ssh_connect` on a session that is not `NULL`, in the
words of the specification: with the host unset no step is executed, the socket
is closed and `SSH_ERROR` returned; otherwise the steps run in their order. -/
def ssh_connect_in_order (x : ext_steps) (s : ssh_session_struct) (env : Env) :
    connect_result :=
  if s.opts.host = none then
    { rc := SSH_ERROR, session := some s,
      env := ssh_set_error { env with socket_closed := true } SSH_REQUEST_DENIED
        "ssh connection failed",
      calls := [socket_close] }
  else run_in_order (connect_steps x) s env []

/-- The names of the nine steps of `ssh_connect` in their order. -/
def connect_order : List connect_call :=
  [socket_connect, send_id, receive_id, set_client_kex, send_kex, receive_kex, select_kex,
   dh_handshake, request_auth]

/-- Whether some dash of the list is immediately followed by a dash or by a
space. -/
def has_bad_dash : List Nat → Bool
  | a :: b :: t => (a == UND && (b == UND || b == SP)) || has_bad_dash (b :: t)
  | _ => false

/-- The identification line of 255 bytes with its CR LF: `SSH-2.0-` and 245
letters `a`. -/
def line_255 : List Nat := bytes "SSH-2.0-" ++ List.replicate 245 97 ++ [CR, LF]

/-! ## Password authentication: lemmas -/

/-- The password prompt touches the terminal only. -/
theorem ssh_get_password_loop_env (n : Nat) (pw : List Nat) (env : Env) :
    ∃ sin, (ssh_get_password_loop n pw env).2 = { env with stdin := sin } := by
  induction n generalizing pw env with
  | zero =>
    unfold ssh_get_password_loop getchar
    cases h : env.stdin with
    | nil => exact ⟨[], by simp [h]; rw [← h]⟩
    | cons c rest => exact ⟨rest, by simp [h]⟩
  | succ n ih =>
    unfold ssh_get_password_loop getchar
    cases h : env.stdin with
    | nil =>
      simp only [h]
      split
      · obtain ⟨sin, hs⟩ := ih (pw ++ [((-1 : Int) % 256).toNat]) env
        exact ⟨sin, hs⟩
      · exact ⟨[], by rw [← h]⟩
    | cons c rest =>
      simp only [h]
      split
      · obtain ⟨sin, hs⟩ := ih (pw ++ [(((c : Nat) : Int) % 256).toNat]) { env with stdin := rest }
        exact ⟨sin, by rw [hs]⟩
      · exact ⟨rest, rfl⟩

/-- The password prompt touches the terminal only. -/
theorem ssh_get_password_env (env : Env) :
    ∃ sin sout, (ssh_get_password env).2 = { env with stdin := sin, stdout := sout } := by
  unfold ssh_get_password print
  obtain ⟨sin, hs⟩ := ssh_get_password_loop_env 100 []
    { env with stdout := env.stdout ++ bytes "password: " }
  exact ⟨sin, env.stdout ++ bytes "password: ", by rw [hs]⟩

/-! ## Version exchange: lemmas on the buffer and the outer loop -/

theorem rd_lt (b : List Nat) (k : Nat) (h : k < b.length) : rd b k = b[k] := by
  unfold rd
  simp [List.getD_eq_getElem?_getD, List.getElem?_eq_getElem h]

theorem rd_ge (b : List Nat) (k : Nat) (h : b.length ≤ k) : rd b k = 0 := by
  unfold rd
  simp [List.getD_eq_getElem?_getD, List.getElem?_eq_none h]

theorem rd_set (b : List Nat) (i v k : Nat) :
    rd (b.set i v) k = if k = i ∧ i < b.length then v else rd b k := by
  unfold rd
  simp only [List.getD_eq_getElem?_getD, List.getElem?_set]
  by_cases hk : i = k
  · subst hk
    by_cases hl : i < b.length
    · simp [hl]
    · simp [hl, List.getElem?_eq_none (Nat.le_of_not_lt hl)]
  · have hk2 : ¬ k = i := fun h => hk h.symm
    simp [hk, hk2]

theorem list_ext_rd (l1 l2 : List Nat) (hl : l1.length = l2.length)
    (h : ∀ j, j < l1.length → rd l1 j = rd l2 j) : l1 = l2 := by
  apply List.ext_getElem hl
  intro n h1 h2
  have := h n h1
  rw [rd_lt l1 n h1, rd_lt l2 n h2] at this
  exact this

theorem bufAt_length (s : List Nat) (k : Nat) : (bufAt s k).length = 256 := by
  simp [bufAt]

theorem rd_bufAt (s : List Nat) (k j : Nat) :
    rd (bufAt s k) j = if j < k ∧ j < 256 then s.getD j 0 else 0 := by
  by_cases hj : j < 256
  · rw [rd_lt _ _ (by rw [bufAt_length]; exact hj)]
    simp [bufAt, hj]
  · rw [rd_ge _ _ (by rw [bufAt_length]; omega)]
    simp [hj]

theorem rd_bufAt_lt (s : List Nat) (k j : Nat) (h1 : j < k) (h2 : j < 256) :
    rd (bufAt s k) j = s.getD j 0 := by
  rw [rd_bufAt]; simp [h1, h2]

theorem bufAt_zero (s : List Nat) : bufAt s 0 = List.replicate 256 0 := by
  apply list_ext_rd
  · rw [bufAt_length, List.length_replicate]
  · intro j hj
    rw [rd_bufAt]
    rw [bufAt_length] at hj
    rw [rd_lt _ _ (by rw [List.length_replicate]; exact hj)]
    simp only [Nat.not_lt_zero, false_and, if_false, List.getElem_replicate]

theorem ssh_socket_read_bufAt (s : List Nat) (env : Env) (i : Nat) (hi : i < 256) :
    ssh_socket_read { env with socket_rx := s.drop i } (bufAt s i) i
      = (bufAt s (i + 1), { env with socket_rx := s.drop (i + 1) }) := by
  unfold ssh_socket_read
  by_cases hs : i < s.length
  · have hd : s.drop i = s[i] :: s.drop (i + 1) := List.drop_eq_getElem_cons hs
    simp only [hd]
    congr 1
    apply list_ext_rd
    · simp [bufAt_length]
    · intro j _
      rw [rd_set, rd_bufAt, rd_bufAt, bufAt_length]
      by_cases hji : j = i
      · subst hji
        simp [hi, List.getD_eq_getElem?_getD, List.getElem?_eq_getElem hs]
      · have h1 : (j < i + 1) ↔ (j < i) := by omega
        simp [hji, h1]
  · have hd : s.drop i = [] := List.drop_eq_nil_of_le (by omega)
    have hd1 : s.drop (i + 1) = [] := List.drop_eq_nil_of_le (by omega)
    simp only [hd, hd1]
    congr 1
    apply list_ext_rd
    · simp [bufAt_length]
    · intro j _
      rw [rd_bufAt, rd_bufAt]
      by_cases hji : j = i
      · subst hji
        simp [List.getD_eq_getElem?_getD, List.getElem?_eq_none (Nat.le_of_not_lt hs)]
      · have h1 : (j < i + 1) ↔ (j < i) := by omega
        simp [h1]

theorem receive_id_str_loop_skip (session : ssh_session_struct) (s : List Nat) (env : Env) :
    ∀ (n i : Nat), i + n ≤ 256 →
      (∀ k, i ≤ k → k < i + n → ∀ e, receive_id_str_body session e (bufAt s (k + 1)) k = none) →
      ∀ m, receive_id_str_loop session (n + m) i (bufAt s i) { env with socket_rx := s.drop i }
        = receive_id_str_loop session m (i + n) (bufAt s (i + n))
            { env with socket_rx := s.drop (i + n) } := by
  intro n
  induction n with
  | zero => intro i _ _ m; simp
  | succ n ih =>
    intro i hi hskip m
    have hfuel : n + 1 + m = (n + m) + 1 := by omega
    rw [hfuel, receive_id_str_loop]
    simp only [ssh_socket_read_bufAt s env i (by omega)]
    rw [hskip i (Nat.le_refl i) (by omega)]
    simp only []
    have := ih (i + 1) (by omega) (fun k hk1 hk2 e => hskip k (by omega) (by omega) e) m
    rw [this]
    have e1 : i + 1 + n = i + (n + 1) := by omega
    rw [e1]

theorem env_rx_eq (env : Env) (s : List Nat) (h : env.socket_rx = s) :
    env = { env with socket_rx := s.drop 0 } := by
  cases env
  simp at h
  simp [h]

/-- If every iteration before index `e` continues, the outcome of
`receive_id_str` is the outcome of iteration `e`. -/
theorem receive_id_str_at (session : ssh_session_struct) (s : List Nat) (env : Env)
    (hs : env.socket_rx = s) (e : Nat) (he : e < 256)
    (hskip : ∀ k, k < e → ∀ e1, receive_id_str_body session e1 (bufAt s (k + 1)) k = none)
    (res : Int × ssh_session_struct × Env)
    (hres : receive_id_str_body session { env with socket_rx := s.drop (e + 1) }
      (bufAt s (e + 1)) e = some res) :
    receive_id_str session env = res := by
  unfold receive_id_str
  rw [← bufAt_zero s]
  rw [env_rx_eq env s hs]
  have h256 : 256 = e + ((255 - e) + 1) := by omega
  rw [h256]
  have := receive_id_str_loop_skip session s env e 0 (by omega)
    (fun k _ hk e1 => hskip k (by omega) e1) ((255 - e) + 1)
  rw [this]
  rw [receive_id_str_loop]
  simp only [Nat.zero_add]
  simp only [ssh_socket_read_bufAt s env e he]
  rw [hres]

/-- If every iteration continues, `receive_id_str` falls out of its loop. -/
theorem receive_id_str_none (session : ssh_session_struct) (s : List Nat) (env : Env)
    (hs : env.socket_rx = s)
    (hskip : ∀ k, k < 256 → ∀ e1, receive_id_str_body session e1 (bufAt s (k + 1)) k = none) :
    receive_id_str session env = (SSH_ERROR, session, { env with socket_rx := s.drop 256 }) := by
  unfold receive_id_str
  rw [← bufAt_zero s]
  rw [env_rx_eq env s hs]
  have := receive_id_str_loop_skip session s env 256 0 (by omega)
    (fun k _ hk e1 => hskip k (by omega) e1) 0
  simp only [Nat.add_zero, Nat.zero_add] at this
  rw [this]
  rw [receive_id_str_loop]

theorem has_crlf_false (l : List Nat) (h : has_crlf l = false) :
    ∀ j, ¬ (l.getD j 0 = CR ∧ l.getD (j + 1) 0 = LF) := by
  induction l with
  | nil => intro j; simp [CR]
  | cons a t ih =>
    cases t with
    | nil =>
      intro j
      cases j <;> simp [LF]
    | cons b t2 =>
      simp only [has_crlf, Bool.or_eq_false_iff, Bool.and_eq_false_imp, beq_iff_eq] at h
      intro j
      cases j with
      | zero =>
        simp only [List.getD_cons_zero, Nat.zero_add, List.getD_cons_succ]
        intro hc
        have := h.1 hc.1
        simp [hc.2] at this
      | succ j =>
        simp only [List.getD_cons_succ]
        have := ih h.2 j
        simpa using this

theorem getD_take (s : List Nat) (n j : Nat) (h : j < n) : (s.take n).getD j 0 = s.getD j 0 := by
  simp [List.getD_eq_getElem?_getD, List.getElem?_take, h]

/-- C7: if no CR is immediately followed by an LF within the first 256 bytes of
the stream, `receive_id_str` returns `SSH_ERROR`, leaves the session
(`server_id_str` included) untouched and records no error. -/
theorem receive_id_str_no_crlf (session : ssh_session_struct) (env : Env)
    (h : has_crlf (env.socket_rx.take 256) = false) :
    (receive_id_str session env).1 = SSH_ERROR
    ∧ (receive_id_str session env).2.1 = session
    ∧ (receive_id_str session env).2.2.error = env.error := by
  have hskip : ∀ k, k < 256 → ∀ e1,
      receive_id_str_body session e1 (bufAt env.socket_rx (k + 1)) k = none := by
    intro k hk e1
    unfold receive_id_str_body
    rw [if_pos]
    by_cases hk0 : k = 0
    · exact Or.inl hk0
    · right
      rw [rd_bufAt_lt _ _ _ (by omega) hk, rd_bufAt_lt _ _ _ (by omega) (by omega)]
      have := has_crlf_false _ h (k - 1)
      rw [getD_take _ _ _ (by omega), getD_take _ _ _ (by omega)] at this
      have e : k - 1 + 1 = k := by omega
      rw [e] at this
      by_contra hc
      push_neg at hc
      exact this ⟨hc.2, hc.1⟩
  rw [receive_id_str_none session env.socket_rx env rfl hskip]
  exact ⟨rfl, rfl, rfl⟩

set_option maxRecDepth 100000 in
/-- Witness of C7: the line `SSH-2.0-foo` ended by a bare LF. -/
theorem receive_id_str_no_crlf_witness :
    (receive_id_str session0 (env_rx (bytes "SSH-2.0-foo\n"))).1 = SSH_ERROR
    ∧ (receive_id_str session0 (env_rx (bytes "SSH-2.0-foo\n"))).2.1 = session0
    ∧ (receive_id_str session0 (env_rx (bytes "SSH-2.0-foo\n"))).2.2.error = none :=
  receive_id_str_no_crlf session0 (env_rx (bytes "SSH-2.0-foo\n")) (by decide)

theorem find_start_eq (b : List Nat) (o : Nat)
    (hb : o = 0 ∨ (2 ≤ o ∧ rd b (o - 2) = CR ∧ rd b (o - 1) = LF)) :
    ∀ p, o ≤ p →
      (∀ r, o < r → r ≤ p → ¬ (r ≠ 1 ∧ rd b (r - 2) = CR ∧ rd b (r - 1) = LF)) →
      find_start b p = o := by
  intro p
  induction p with
  | zero =>
    intro ho _
    have : o = 0 := by omega
    subst this
    rfl
  | succ p ih =>
    intro ho hno
    unfold find_start
    by_cases hop : o = p + 1
    · rcases hb with h0 | ⟨h2, hcr, hlf⟩
      · omega
      · rw [if_pos]
        · exact hop.symm
        · rw [← hop]
          exact ⟨by omega, hcr, hlf⟩
    · rw [if_neg (hno (p + 1) (by omega) (Nat.le_refl _))]
      exact ih (by omega) (fun r h1 h2 => hno r h1 (by omega))

theorem scan_body_congr (f g : Nat → Nat) (len j : Nat) (st : scan_state) (hj : j < len)
    (h : ∀ k, k < len → f k = g k) : scan_body f len j st = scan_body g len j st := by
  have h0 : f j = g j := h j hj
  have hc : (j = 0 ∨ j = len - 1 ∨ f (j - 1) = UND ∨ f (j + 1) = SP)
      ↔ (j = 0 ∨ j = len - 1 ∨ g (j - 1) = UND ∨ g (j + 1) = SP) := by
    by_cases a : j = 0
    · simp [a]
    · by_cases b : j = len - 1
      · simp [b]
      · rw [h (j - 1) (by omega), h (j + 1) (by omega)]
  unfold scan_body
  simp only [h0, hc]

theorem scan_loop_congr (f g : Nat → Nat) (len : Nat) (h : ∀ k, k < len → f k = g k) :
    ∀ n j st, scan_loop f len n j st = scan_loop g len n j st := by
  intro n
  induction n with
  | zero => intro j st; rfl
  | succ n ih =>
    intro j st
    unfold scan_loop
    by_cases hc : j < len ∧ st.bad = false
    · rw [if_pos hc, if_pos hc, scan_body_congr f g len j st hc.1 h, ih]
    · rw [if_neg hc, if_neg hc]

theorem getD_line_cr (c : List Nat) : (c ++ [CR, LF]).getD c.length 0 = CR := by
  induction c with
  | nil => rfl
  | cons a t ih => simpa using ih

theorem getD_line_lf (c : List Nat) : (c ++ [CR, LF]).getD (c.length + 1) 0 = LF := by
  induction c with
  | nil => rfl
  | cons a t ih => simpa using ih

theorem lineAt_getD {s : List Nat} {o : Nat} {c : List Nat} (hl : LineAt s o c) (j : Nat)
    (hj : j < c.length + 2) : s.getD (o + j) 0 = (c ++ [CR, LF]).getD j 0 := by
  by_cases h1 : j < c.length
  · rw [hl.content j h1]
    simp [List.getD_eq_getElem?_getD, List.getElem?_append_left h1]
  · by_cases h2 : j = c.length
    · subst h2
      rw [hl.cr, getD_line_cr]
    · have h3 : j = c.length + 1 := by omega
      subst h3
      rw [← Nat.add_assoc, hl.lf, getD_line_lf]

theorem body_skip_inside (session : ssh_session_struct) (s : List Nat) (o : Nat) (c : List Nat)
    (hl : LineAt s o c) (k : Nat) (hk1 : o ≤ k) (hk2 : k < o + c.length + 1) (hk : k < 256)
    (e1 : Env) : receive_id_str_body session e1 (bufAt s (k + 1)) k = none := by
  unfold receive_id_str_body
  rw [if_pos]
  by_cases hk0 : k = 0
  · exact Or.inl hk0
  · right
    rw [rd_bufAt_lt _ _ _ (by omega) hk, rd_bufAt_lt _ _ _ (by omega) (by omega)]
    by_cases hko : k = o
    · right
      rcases hl.before with h0 | ⟨_, _, hlf⟩
      · omega
      · rw [hko, hlf]; decide
    · have := hl.inner (k - 1 - o) (by omega)
      have e1 : o + (k - 1 - o) = k - 1 := by omega
      have e2 : k - 1 + 1 = k := by omega
      rw [e1, e2] at this
      by_contra hc
      push_neg at hc
      exact this ⟨hc.2, hc.1⟩

theorem find_start_line (s : List Nat) (o : Nat) (c : List Nat) (hl : LineAt s o c)
    (he : o + c.length + 1 < 256) :
    find_start (bufAt s (o + c.length + 2)) (o + c.length) = o := by
  apply find_start_eq
  · rcases hl.before with h0 | ⟨h2, hcr, hlf⟩
    · exact Or.inl h0
    · right
      rw [rd_bufAt_lt _ _ _ (by omega) (by omega), rd_bufAt_lt _ _ _ (by omega) (by omega)]
      exact ⟨h2, hcr, hlf⟩
  · omega
  · intro r hr1 hr2 ⟨hne, hcr, hlf⟩
    rw [rd_bufAt_lt _ _ _ (by omega) (by omega)] at hcr
    rw [rd_bufAt_lt _ _ _ (by omega) (by omega)] at hlf
    by_cases hro : r = o + 1
    · rcases hl.before with h0 | ⟨_, _, hlf0⟩
      · omega
      · have e : r - 2 = o - 1 := by omega
        rw [e, hlf0] at hcr
        revert hcr; decide
    · have := hl.inner (r - 2 - o) (by omega)
      have e1 : o + (r - 2 - o) = r - 2 := by omega
      have e2 : r - 2 + 1 = r - 1 := by omega
      rw [e1, e2] at this
      exact this ⟨hcr, hlf⟩

/-- The outcome of the iteration that reads the LF ending the line at offset `o`. -/
theorem body_at_line_end (session : ssh_session_struct) (env : Env) (s : List Nat) (o : Nat)
    (c : List Nat) (hl : LineAt s o c) (he : o + c.length + 1 < 256) :
    receive_id_str_body session env (bufAt s (o + c.length + 2)) (o + c.length + 1)
      = if c.length + 2 ≤ 3 ∨ c.length + 2 + 1 > 255 then none
        else if (c ++ [CR, LF]).getD 0 0 ≠ 83 ∨ (c ++ [CR, LF]).getD 1 0 ≠ 83
            ∨ (c ++ [CR, LF]).getD 2 0 ≠ 72 ∨ (c ++ [CR, LF]).getD 3 0 ≠ UND then none
        else
          if ((scan_loop (fun j => (c ++ [CR, LF]).getD j 0) (c.length + 2) (c.length + 2) 0
                scan_init).bad
              || decide ((scan_loop (fun j => (c ++ [CR, LF]).getD j 0) (c.length + 2)
                (c.length + 2) 0 scan_init).sum_UND ≠ 2)) = true then
            some (SSH_ERROR, session, ssh_set_error env SSH_FATAL "bad ssh version string")
          else
            some (SSH_OK,
              { session with
                server_id_str := some
                  (cstring ((bufAt s (o + c.length + 2)).set (o + c.length) 0) o),
                protoversion := env.atof_int
                  (cstring
                    (((bufAt s (o + c.length + 2)).set (o + c.length) 0).set
                      (o + (scan_loop (fun j => (c ++ [CR, LF]).getD j 0) (c.length + 2)
                        (c.length + 2) 0 scan_init).pos_UND_2.toNat) 0)
                    (o + ((scan_loop (fun j => (c ++ [CR, LF]).getD j 0) (c.length + 2)
                        (c.length + 2) 0 scan_init).pos_UND_1 + 1).toNat)) },
              env) := by
  have hrd : ∀ j, j < c.length + 2 →
      rd (bufAt s (o + c.length + 2)) (o + j) = (c ++ [CR, LF]).getD j 0 := by
    intro j hj
    rw [rd_bufAt_lt _ _ _ (by omega) (by omega)]
    exact lineAt_getD hl j hj
  have hscan : ∀ n j st,
      scan_loop (fun j => rd (bufAt s (o + c.length + 2)) (o + j)) (c.length + 2) n j st
        = scan_loop (fun j => (c ++ [CR, LF]).getD j 0) (c.length + 2) n j st :=
    scan_loop_congr _ _ _ hrd
  have hlf : rd (bufAt s (o + c.length + 2)) (o + c.length + 1) = LF := by
    have := hrd (c.length + 1) (by omega)
    rw [← Nat.add_assoc] at this
    rw [this, getD_line_lf]
  have hcr : rd (bufAt s (o + c.length + 2)) (o + c.length + 1 - 1) = CR := by
    have := hrd c.length (by omega)
    rw [Nat.add_sub_cancel, this, getD_line_cr]
  unfold receive_id_str_body
  have hc1 : ¬ (o + c.length + 1 = 0 ∨ rd (bufAt s (o + c.length + 2)) (o + c.length + 1) ≠ LF
      ∨ rd (bufAt s (o + c.length + 2)) (o + c.length + 1 - 1) ≠ CR) := by
    rw [hlf, hcr]; simp
  rw [if_neg hc1]
  simp only [Nat.add_sub_cancel, find_start_line s o c hl he]
  have hlen : o + c.length + 1 - o + 1 = c.length + 2 := by omega
  simp only [hlen, hscan]
  have h0 : rd (bufAt s (o + c.length + 2)) o = (c ++ [CR, LF]).getD 0 0 := by
    have := hrd 0 (by omega)
    simpa using this
  rw [h0]
  by_cases hshort : c.length + 2 ≤ 3 ∨ c.length + 2 + 1 > 255
  · rw [if_pos hshort, if_pos hshort]
  · rw [if_neg hshort, if_neg hshort]
    rw [hrd 1 (by omega), hrd 2 (by omega), hrd 3 (by omega)]
    have e2 : c.length + 2 - 2 = c.length := by omega
    simp only [e2]

theorem bytes_SSH : bytes "SSH-" = [83, 83, 72, 45] := by decide

theorem not_SSH_check (c : List Nat) (h : ¬ (bytes "SSH-" <+: c)) :
    (c ++ [CR, LF]).getD 0 0 ≠ 83 ∨ (c ++ [CR, LF]).getD 1 0 ≠ 83
      ∨ (c ++ [CR, LF]).getD 2 0 ≠ 72 ∨ (c ++ [CR, LF]).getD 3 0 ≠ UND := by
  rw [bytes_SSH] at h
  match c, h with
  | [], _ => simp [CR]
  | [_], _ => simp [CR]
  | [_, _], _ => simp [CR]
  | [_, _, _], _ => simp [CR, UND]
  | a :: b :: d :: e :: t, h =>
    simp only [List.cons_append, List.getD_cons_zero, List.getD_cons_succ, UND]
    by_contra hc
    push_neg at hc
    apply h
    rw [hc.1, hc.2.1, hc.2.2.1, hc.2.2.2]
    exact ⟨t, rfl⟩

theorem body_skip_line_end (session : ssh_session_struct) (env : Env) (s : List Nat) (o : Nat)
    (c : List Nat) (hl : LineAt s o c) (he : o + c.length + 1 < 256)
    (h : ¬ (bytes "SSH-" <+: c)) :
    receive_id_str_body session env (bufAt s (o + c.length + 2)) (o + c.length + 1) = none := by
  rw [body_at_line_end session env s o c hl he]
  by_cases hshort : c.length + 2 ≤ 3 ∨ c.length + 2 + 1 > 255
  · rw [if_pos hshort]
  · rw [if_neg hshort, if_pos (not_SSH_check c h)]

theorem getD_append_lt (a b : List Nat) (j : Nat) (h : j < a.length) :
    (a ++ b).getD j 0 = a.getD j 0 := by
  simp [List.getD_eq_getElem?_getD, List.getElem?_append_left h]

theorem getD_append_ge (a b : List Nat) (j : Nat) :
    (a ++ b).getD (a.length + j) 0 = b.getD j 0 := by
  simp [List.getD_eq_getElem?_getD, List.getElem?_append_right]

/-- A line that follows the start of the stream or a CR LF. -/
theorem lineAt_of_append (done c tail : List Nat)
    (hdone : done = [] ∨ ∃ d, done = d ++ [CR, LF])
    (hc : has_crlf (c ++ [CR]) = false) :
    LineAt (done ++ (c ++ [CR, LF] ++ tail)) done.length c := by
  have hget : ∀ j, j < c.length + 2 →
      (done ++ (c ++ [CR, LF] ++ tail)).getD (done.length + j) 0 = (c ++ [CR, LF]).getD j 0 := by
    intro j hj
    rw [getD_append_ge, getD_append_lt _ _ _ (by simp; omega)]
  have hcr1 : ∀ j, j < c.length + 1 → (c ++ [CR, LF]).getD j 0 = (c ++ [CR]).getD j 0 := by
    intro j hj
    have : c ++ [CR, LF] = (c ++ [CR]) ++ [LF] := by simp
    rw [this, getD_append_lt _ _ _ (by simp; omega)]
  constructor
  · rcases hdone with h | ⟨d, hd⟩
    · left; simp [h]
    · right
      subst hd
      refine ⟨by simp, ?_, ?_⟩
      · have e : (d ++ [CR, LF]).length - 2 = d.length + 0 := by simp
        rw [e, getD_append_lt _ _ _ (by simp), getD_append_ge]
        rfl
      · have e : (d ++ [CR, LF]).length - 1 = d.length + 1 := by simp
        rw [e, getD_append_lt _ _ _ (by simp), getD_append_ge]
        rfl
  · intro j hj
    rw [hget j (by omega), getD_append_lt _ _ _ hj]
  · rw [hget _ (by omega), getD_line_cr]
  · rw [Nat.add_assoc, hget _ (by omega), getD_line_lf]
  · intro j hj
    rw [Nat.add_assoc, hget j (by omega), hget (j + 1) (by omega)]
    by_cases hj2 : j + 1 < c.length + 1
    · rw [hcr1 j (by omega), hcr1 (j + 1) hj2]
      exact has_crlf_false _ hc j
    · omega

theorem lines_skip (session : ssh_session_struct) (tail : List Nat) :
    ∀ (lines : List (List Nat)) (done : List Nat),
      (done = [] ∨ ∃ d, done = d ++ [CR, LF]) →
      (∀ c ∈ lines, has_crlf (c ++ [CR]) = false ∧ ¬ (bytes "SSH-" <+: c)) →
      done.length + (concat_lines lines).length ≤ 256 →
      ∀ k, done.length ≤ k → k < done.length + (concat_lines lines).length → ∀ e1,
        receive_id_str_body session e1 (bufAt (done ++ (concat_lines lines ++ tail)) (k + 1)) k
          = none := by
  intro lines
  induction lines with
  | nil =>
    intro done _ _ _ k hk1 hk2 _
    simp [concat_lines] at hk2
    omega
  | cons c cs ih =>
    intro done hdone hlines hlen k hk1 hk2 e1
    have hc := hlines c (List.mem_cons_self _ _)
    have hlenc : (concat_lines (c :: cs)).length = c.length + 2 + (concat_lines cs).length := by
      simp [concat_lines]; omega
    rw [hlenc] at hk2 hlen
    have hs : done ++ (concat_lines (c :: cs) ++ tail)
        = done ++ (c ++ [CR, LF] ++ (concat_lines cs ++ tail)) := by
      simp [concat_lines]
    have hl : LineAt (done ++ (concat_lines (c :: cs) ++ tail)) done.length c := by
      rw [hs]
      exact lineAt_of_append done c _ hdone hc.1
    by_cases h1 : k < done.length + c.length + 1
    · exact body_skip_inside session _ _ _ hl k hk1 h1 (by omega) e1
    · by_cases h2 : k = done.length + c.length + 1
      · subst h2
        exact body_skip_line_end session e1 _ _ _ hl (by omega) hc.2
      · have hs2 : done ++ (concat_lines (c :: cs) ++ tail)
            = (done ++ (c ++ [CR, LF])) ++ (concat_lines cs ++ tail) := by
          simp [concat_lines]
        rw [hs2]
        apply ih (done ++ (c ++ [CR, LF])) (Or.inr ⟨done ++ c, by simp⟩)
          (fun c1 hc1 => hlines c1 (List.mem_cons_of_mem _ hc1))
        · simp; omega
        · simp; omega
        · simp; omega

theorem scan_body_plain (f : Nat → Nat) (len j : Nat) (st : scan_state)
    (h1 : f j ≠ UND) (h2 : f j ≠ SP) : scan_body f len j st = st := by
  unfold scan_body
  simp only [if_neg h1, if_neg h2]

theorem scan_loop_plain (f : Nat → Nat) (len : Nat) :
    ∀ (d j : Nat) (st : scan_state),
      (∀ k, j ≤ k → k < j + d → f k ≠ UND ∧ f k ≠ SP) → j + d ≤ len → st.bad = false →
      ∀ m, scan_loop f len (d + m) j st = scan_loop f len m (j + d) st := by
  intro d
  induction d with
  | zero => intro j st _ _ _ m; simp
  | succ d ih =>
    intro j st hp hlen hbad m
    have e : d + 1 + m = (d + m) + 1 := by omega
    rw [e, scan_loop, if_pos ⟨by omega, hbad⟩]
    have hj := hp j (Nat.le_refl _) (by omega)
    rw [scan_body_plain f len j st hj.1 hj.2]
    rw [ih (j + 1) st (fun k h1 h2 => hp k (by omega) (by omega)) (by omega) hbad m]
    have e2 : j + 1 + d = j + (d + 1) := by omega
    rw [e2]

theorem scan_body_first_dash (f : Nat → Nat) (len j : Nat)
    (hj : f j = UND) (h0 : j ≠ 0) (hl : j ≠ len - 1) (hp : f (j - 1) ≠ UND)
    (hn : f (j + 1) ≠ SP) :
    scan_body f len j scan_init = ⟨1, 0, (j : Int), -1, false⟩ := by
  have hc : ¬ (j = 0 ∨ j = len - 1 ∨ f (j - 1) = UND ∨ f (j + 1) = SP) := by
    simp [h0, hl, hp, hn]
  have hsp : f j ≠ SP := by rw [hj]; decide
  unfold scan_body
  simp only [if_pos hj, if_neg hc, if_neg hsp, scan_init]
  simp

theorem scan_body_second_dash (f : Nat → Nat) (len j : Nat) (p1 : Nat)
    (hj : f j = UND) (h0 : j ≠ 0) (hl : j ≠ len - 1) (hp : f (j - 1) ≠ UND)
    (hn : f (j + 1) ≠ SP) :
    scan_body f len j ⟨1, 0, (p1 : Int), -1, false⟩ = ⟨2, 0, (p1 : Int), (j : Int), false⟩ := by
  have hc : ¬ (j = 0 ∨ j = len - 1 ∨ f (j - 1) = UND ∨ f (j + 1) = SP) := by
    simp [h0, hl, hp, hn]
  have hsp : f j ≠ SP := by rw [hj]; decide
  have hp1 : ¬ ((p1 : Int) = -1) := by omega
  unfold scan_body
  simp only [if_pos hj, if_neg hc, if_neg hsp]
  simp [hp1]

theorem scan_body_no_dash (f : Nat → Nat) (len j : Nat) (st : scan_state)
    (h1 : f j ≠ UND) (hs : st.sum_UND = 2) :
    (scan_body f len j st).bad = st.bad ∧ (scan_body f len j st).sum_UND = 2
      ∧ (scan_body f len j st).pos_UND_1 = st.pos_UND_1
      ∧ (scan_body f len j st).pos_UND_2 = st.pos_UND_2 := by
  unfold scan_body
  simp only [if_neg h1]
  by_cases h2 : f j = SP
  · simp [h2, hs]
  · simp [h2, hs]

theorem scan_loop_tail (f : Nat → Nat) (len : Nat) :
    ∀ (n j : Nat) (st : scan_state),
      (∀ k, j ≤ k → k < len → f k ≠ UND) → st.sum_UND = 2 → st.bad = false →
      (scan_loop f len n j st).bad = false ∧ (scan_loop f len n j st).sum_UND = 2
        ∧ (scan_loop f len n j st).pos_UND_1 = st.pos_UND_1
        ∧ (scan_loop f len n j st).pos_UND_2 = st.pos_UND_2 := by
  intro n
  induction n with
  | zero => intro j st _ hs hb; exact ⟨hb, hs, rfl, rfl⟩
  | succ n ih =>
    intro j st hp hs hb
    unfold scan_loop
    by_cases hc : j < len ∧ st.bad = false
    · rw [if_pos hc]
      have hb1 := scan_body_no_dash f len j st (hp j (Nat.le_refl _) hc.1) hs
      have := ih (j + 1) (scan_body f len j st) (fun k h1 h2 => hp k (by omega) h2) hb1.2.1
        (by rw [hb1.1]; exact hb)
      rw [hb1.2.2.1, hb1.2.2.2] at this
      exact this
    · rw [if_neg hc]
      exact ⟨hb, hs, rfl, rfl⟩

theorem getD_mem_of_lt (l : List Nat) (i : Nat) (h : i < l.length) : l.getD i 0 ∈ l := by
  simp [List.getD_eq_getElem?_getD, List.getElem?_eq_getElem h]

/-- The scan of a line `SSH-` proto `-` software rest, `rest` free of dashes. -/
theorem scan_well_formed (proto sw R : List Nat)
    (hp0 : proto ≠ []) (hp : ∀ x ∈ proto, x ≠ UND ∧ x ≠ SP)
    (hs0 : sw ≠ []) (hs : ∀ x ∈ sw, x ≠ UND ∧ x ≠ SP)
    (hR0 : R ≠ []) (hR : ∀ x ∈ R, x ≠ UND) (n : Nat)
    (hn : n = ([83, 83, 72, 45] ++ (proto ++ (UND :: (sw ++ R)))).length) :
    (scan_loop (fun j => ([83, 83, 72, 45] ++ (proto ++ (UND :: (sw ++ R)))).getD j 0)
        n n 0 scan_init).bad = false
    ∧ (scan_loop (fun j => ([83, 83, 72, 45] ++ (proto ++ (UND :: (sw ++ R)))).getD j 0)
        n n 0 scan_init).sum_UND = 2
    ∧ (scan_loop (fun j => ([83, 83, 72, 45] ++ (proto ++ (UND :: (sw ++ R)))).getD j 0)
        n n 0 scan_init).pos_UND_1 = 3
    ∧ (scan_loop (fun j => ([83, 83, 72, 45] ++ (proto ++ (UND :: (sw ++ R)))).getD j 0)
        n n 0 scan_init).pos_UND_2 = ((4 + proto.length : Nat) : Int) := by
  generalize hf : (fun j => ([83, 83, 72, 45] ++ (proto ++ (UND :: (sw ++ R)))).getD j 0) = f
  have hlenp : 0 < proto.length := List.length_pos.mpr hp0
  have hlens : 0 < sw.length := List.length_pos.mpr hs0
  have hlenR : 0 < R.length := List.length_pos.mpr hR0
  have hnv : n = 4 + proto.length + 1 + sw.length + R.length := by
    rw [hn]; simp; omega
  have f0 : f 0 = 83 := by rw [← hf]; rfl
  have f1 : f 1 = 83 := by rw [← hf]; rfl
  have f2 : f 2 = 72 := by rw [← hf]; rfl
  have f3 : f 3 = UND := by rw [← hf]; rfl
  have fp : ∀ i, i < proto.length → f (4 + i) = proto.getD i 0 := by
    intro i hi
    rw [← hf]
    show ([83, 83, 72, 45] ++ (proto ++ (UND :: (sw ++ R)))).getD
      (([83, 83, 72, 45] : List Nat).length + i) 0 = _
    rw [getD_append_ge, getD_append_lt _ _ _ hi]
  have fd : f (4 + proto.length) = UND := by
    rw [← hf]
    show ([83, 83, 72, 45] ++ (proto ++ (UND :: (sw ++ R)))).getD
      (([83, 83, 72, 45] : List Nat).length + proto.length) 0 = _
    rw [getD_append_ge]
    have := getD_append_ge proto (UND :: (sw ++ R)) 0
    rw [Nat.add_zero] at this
    rw [this]
    rfl
  have fr : ∀ i, f (4 + proto.length + 1 + i) = (sw ++ R).getD i 0 := by
    intro i
    rw [← hf]
    show ([83, 83, 72, 45] ++ (proto ++ (UND :: (sw ++ R)))).getD _ 0 = _
    have e : 4 + proto.length + 1 + i = ([83, 83, 72, 45] : List Nat).length
        + (proto.length + (i + 1)) := by simp; omega
    rw [e, getD_append_ge, getD_append_ge]
    rfl
  have fs : ∀ i, i < sw.length → f (4 + proto.length + 1 + i) = sw.getD i 0 := by
    intro i hi
    rw [fr, getD_append_lt _ _ _ hi]
  have fR : ∀ i, f (4 + proto.length + 1 + sw.length + i) = R.getD i 0 := by
    intro i
    rw [Nat.add_assoc (4 + proto.length + 1), fr, getD_append_ge]
  have hpi : ∀ i, i < proto.length → proto.getD i 0 ≠ UND ∧ proto.getD i 0 ≠ SP :=
    fun i hi => hp _ (getD_mem_of_lt proto i hi)
  have hsi : ∀ i, i < sw.length → sw.getD i 0 ≠ UND ∧ sw.getD i 0 ≠ SP :=
    fun i hi => hs _ (getD_mem_of_lt sw i hi)
  -- the three letters
  have e0 : n = 3 + (n - 3) := by omega
  have s0 : scan_loop f n n 0 scan_init = scan_loop f n (n - 3) 3 scan_init := by
    have := scan_loop_plain f n 3 0 scan_init
      (by
        intro k _ hk
        have : k = 0 ∨ k = 1 ∨ k = 2 := by omega
        rcases this with h | h | h <;> subst h
        · rw [f0]; decide
        · rw [f1]; decide
        · rw [f2]; decide)
      (by omega) rfl (n - 3)
    rw [← e0] at this
    simpa using this
  -- the first dash
  have e1 : n - 3 = (n - 4) + 1 := by omega
  have s1 : scan_loop f n (n - 3) 3 scan_init
      = scan_loop f n (n - 4) 4 ⟨1, 0, ((3 : Nat) : Int), -1, false⟩ := by
    rw [e1, scan_loop, if_pos ⟨by omega, rfl⟩]
    rw [scan_body_first_dash f n 3 f3 (by omega) (by omega) (by rw [f2]; decide)
      (by
        have := fp 0 hlenp
        rw [Nat.add_zero] at this
        rw [this]
        exact (hpi 0 hlenp).2)]
  -- the protocol version
  have e2 : n - 4 = proto.length + (n - 4 - proto.length) := by omega
  have s2 : scan_loop f n (n - 4) 4 ⟨1, 0, ((3 : Nat) : Int), -1, false⟩
      = scan_loop f n (n - 4 - proto.length) (4 + proto.length)
          ⟨1, 0, ((3 : Nat) : Int), -1, false⟩ := by
    have := scan_loop_plain f n proto.length 4 ⟨1, 0, ((3 : Nat) : Int), -1, false⟩
      (by
        intro k hk1 hk2
        have e : k = 4 + (k - 4) := by omega
        rw [e, fp _ (by omega)]
        exact hpi _ (by omega))
      (by omega) rfl (n - 4 - proto.length)
    rw [← e2] at this
    exact this
  -- the second dash
  have e3 : n - 4 - proto.length = (n - 5 - proto.length) + 1 := by omega
  have s3 : scan_loop f n (n - 4 - proto.length) (4 + proto.length)
        ⟨1, 0, ((3 : Nat) : Int), -1, false⟩
      = scan_loop f n (n - 5 - proto.length) (4 + proto.length + 1)
          ⟨2, 0, ((3 : Nat) : Int), ((4 + proto.length : Nat) : Int), false⟩ := by
    rw [e3, scan_loop, if_pos ⟨by omega, rfl⟩]
    rw [scan_body_second_dash f n (4 + proto.length) 3 fd (by omega) (by omega)
      (by
        have e : 4 + proto.length - 1 = 4 + (proto.length - 1) := by omega
        rw [e, fp _ (by omega)]
        exact (hpi _ (by omega)).1)
      (by
        have := fs 0 hlens
        rw [Nat.add_zero] at this
        rw [this]
        exact (hsi 0 hlens).2)]
  -- the software version and the rest
  have s4 := scan_loop_tail f n (n - 5 - proto.length) (4 + proto.length + 1)
    ⟨2, 0, ((3 : Nat) : Int), ((4 + proto.length : Nat) : Int), false⟩
    (by
      intro k hk1 hk2
      by_cases hks : k < 4 + proto.length + 1 + sw.length
      · have e : k = 4 + proto.length + 1 + (k - (4 + proto.length + 1)) := by omega
        rw [e, fs _ (by omega)]
        exact (hsi _ (by omega)).1
      · have e : k = 4 + proto.length + 1 + sw.length
            + (k - (4 + proto.length + 1 + sw.length)) := by omega
        rw [e, fR]
        exact hR _ (getD_mem_of_lt R _ (by omega)))
    rfl rfl
  rw [s0, s1, s2, s3]
  exact ⟨s4.1, s4.2.1, s4.2.2.1, s4.2.2.2⟩

theorem cstring_eq (w : List Nat) : ∀ (b : List Nat) (start : Nat),
    (∀ j, j < w.length → rd b (start + j) = w.getD j 0) → (∀ x ∈ w, x ≠ 0) →
    rd b (start + w.length) = 0 → cstring b start = w := by
  induction w with
  | nil =>
    intro b start _ _ h0
    unfold cstring
    by_cases hs : start < b.length
    · rw [List.drop_eq_getElem_cons hs]
      simp only [List.length_nil, Nat.add_zero] at h0
      rw [rd_lt b start hs] at h0
      simp [h0]
    · rw [List.drop_eq_nil_of_le (by omega)]
      rfl
  | cons x w ih =>
    intro b start hw hx h0
    have hx0 : x ≠ 0 := hx x (List.mem_cons_self _ _)
    have hb0 : rd b start = x := by
      have := hw 0 (by simp)
      simpa using this
    have hs : start < b.length := by
      by_contra hc
      rw [rd_ge b start (by omega)] at hb0
      exact hx0 hb0.symm
    have hrec : cstring b (start + 1) = w := by
      apply ih
      · intro j hj
        have := hw (j + 1) (by simp; omega)
        rw [Nat.add_assoc, Nat.add_comm 1 j]
        simpa using this
      · intro y hy
        exact hx y (List.mem_cons_of_mem _ hy)
      · have e : start + 1 + w.length = start + (x :: w).length := by simp; omega
        rw [e]; exact h0
    unfold cstring at hrec ⊢
    rw [List.drop_eq_getElem_cons hs]
    rw [rd_lt b start hs] at hb0
    rw [hb0, List.takeWhile_cons, hrec]
    simp [hx0]

theorem concat_lines_end (lines : List (List Nat)) :
    concat_lines lines = [] ∨ ∃ d, concat_lines lines = d ++ [CR, LF] := by
  induction lines with
  | nil => left; rfl
  | cons c cs ih =>
    right
    rcases ih with h | ⟨d, hd⟩
    · exact ⟨c, by simp [concat_lines, h]⟩
    · exact ⟨c ++ [CR, LF] ++ d, by simp [concat_lines, hd]⟩

theorem no_lf_no_crlf (l : List Nat) (h : ∀ x ∈ l, x ≠ LF) : has_crlf l = false := by
  induction l with
  | nil => rfl
  | cons a t ih =>
    cases t with
    | nil => rfl
    | cons b t2 =>
      have hb : b ≠ LF := h b (by simp)
      simp only [has_crlf, Bool.or_eq_false_iff, Bool.and_eq_false_imp, beq_iff_eq]
      refine ⟨fun _ => by simpa using hb, ih (fun x hx => h x (List.mem_cons_of_mem _ hx))⟩

/-- The iterations before the end of a line that follows lines without the
`SSH-` mark all continue. -/
theorem skip_to_line_end (session : ssh_session_struct) (lines : List (List Nat))
    (c tail : List Nat)
    (hlines : ∀ c1 ∈ lines, has_crlf (c1 ++ [CR]) = false ∧ ¬ (bytes "SSH-" <+: c1))
    (hc : has_crlf (c ++ [CR]) = false)
    (hlen : (concat_lines lines).length + c.length + 2 ≤ 256) :
    LineAt (concat_lines lines ++ (c ++ [CR, LF] ++ tail)) (concat_lines lines).length c
    ∧ ∀ k, k < (concat_lines lines).length + c.length + 1 → ∀ e1,
        receive_id_str_body session e1
          (bufAt (concat_lines lines ++ (c ++ [CR, LF] ++ tail)) (k + 1)) k = none := by
  have hl := lineAt_of_append (concat_lines lines) c tail (concat_lines_end lines) hc
  refine ⟨hl, ?_⟩
  intro k hk e1
  by_cases hk1 : k < (concat_lines lines).length
  · have := lines_skip session (c ++ [CR, LF] ++ tail) lines [] (Or.inl rfl) hlines
      (by simp; omega) k (by simp) (by simpa using hk1) e1
    simpa using this
  · exact body_skip_inside session _ _ _ hl k (by omega) hk (by omega) e1

theorem drop_line (done c tail : List Nat) :
    (done ++ (c ++ [CR, LF] ++ tail)).drop (done.length + c.length + 1 + 1) = tail := by
  have e : done ++ (c ++ [CR, LF] ++ tail) = (done ++ c ++ [CR, LF]) ++ tail := by simp
  have e2 : done.length + c.length + 1 + 1 = (done ++ c ++ [CR, LF]).length := by simp; omega
  rw [e, e2, List.drop_left]

/-- Acceptance of a well-formed identification line after lines without the
`SSH-` mark, all within the 256 bytes read. -/
theorem receive_id_str_accepts (session : ssh_session_struct) (env : Env)
    (lines : List (List Nat)) (proto sw cm tail : List Nat)
    (hlines : ∀ c1 ∈ lines, has_crlf (c1 ++ [CR]) = false ∧ ¬ (bytes "SSH-" <+: c1))
    (hp0 : proto ≠ []) (hp : ∀ x ∈ proto, x ≠ UND ∧ x ≠ SP ∧ x ≠ LF ∧ x ≠ 0)
    (hs0 : sw ≠ []) (hs : ∀ x ∈ sw, x ≠ UND ∧ x ≠ SP ∧ x ≠ LF ∧ x ≠ 0)
    (hcm : ∀ x ∈ cm, x ≠ UND ∧ x ≠ LF ∧ x ≠ 0)
    (hrx : env.socket_rx = concat_lines lines
      ++ ((bytes "SSH-" ++ proto ++ [UND] ++ sw ++ cm) ++ [CR, LF] ++ tail))
    (hlen : (concat_lines lines).length + (bytes "SSH-" ++ proto ++ [UND] ++ sw ++ cm).length + 2
      ≤ 256)
    (hline : (bytes "SSH-" ++ proto ++ [UND] ++ sw ++ cm).length + 2 ≤ 254) :
    receive_id_str session env
      = (SSH_OK,
          { session with
            server_id_str := some (bytes "SSH-" ++ proto ++ [UND] ++ sw ++ cm),
            protoversion := env.atof_int proto },
          { env with socket_rx := tail }) := by
  rw [bytes_SSH] at hrx hlen hline ⊢
  generalize hcdef : [83, 83, 72, 45] ++ proto ++ [UND] ++ sw ++ cm = c at hrx hlen hline ⊢
  have hcl : c.length = 4 + proto.length + 1 + sw.length + cm.length := by
    rw [← hcdef]; simp; omega
  have hlenp : 0 < proto.length := List.length_pos.mpr hp0
  have hlens : 0 < sw.length := List.length_pos.mpr hs0
  have hcmem : ∀ x ∈ c, x ≠ LF ∧ x ≠ 0 := by
    intro x hx
    rw [← hcdef] at hx
    simp only [List.mem_append, List.mem_cons, List.mem_singleton, List.not_mem_nil,
      or_false] at hx
    rcases hx with (((h | h) | h) | h) | h
    · rcases h with h | h | h | h <;> subst h <;> decide
    · exact ⟨(hp x h).2.2.1, (hp x h).2.2.2⟩
    · subst h; decide
    · exact ⟨(hs x h).2.2.1, (hs x h).2.2.2⟩
    · exact ⟨(hcm x h).2.1, (hcm x h).2.2⟩
  have hcrlf : has_crlf (c ++ [CR]) = false := by
    apply no_lf_no_crlf
    intro x hx
    simp only [List.mem_append, List.mem_singleton] at hx
    rcases hx with h | h
    · exact (hcmem x h).1
    · subst h; decide
  obtain ⟨hl, hskip⟩ := skip_to_line_end session lines c tail hlines hcrlf hlen
  generalize hsd : concat_lines lines ++ (c ++ [CR, LF] ++ tail) = s at hrx hl hskip
  generalize hod : (concat_lines lines).length = o at hlen hl hskip
  have hL : c ++ [CR, LF] = [83, 83, 72, 45] ++ (proto ++ (UND :: (sw ++ (cm ++ [CR, LF])))) := by
    rw [← hcdef]; simp
  have hscan := scan_well_formed proto sw (cm ++ [CR, LF]) hp0
    (fun x hx => ⟨(hp x hx).1, (hp x hx).2.1⟩) hs0 (fun x hx => ⟨(hs x hx).1, (hs x hx).2.1⟩)
    (by simp)
    (by
      intro x hx
      simp only [List.mem_append, List.mem_cons, List.mem_singleton, List.not_mem_nil,
        or_false] at hx
      rcases hx with h | h | h
      · exact (hcm x h).1
      · subst h; decide
      · subst h; decide)
    (c.length + 2)
    (by rw [← hL]; simp)
  rw [← hL] at hscan
  obtain ⟨hbad, hsum, hp1, hp2⟩ := hscan
  apply receive_id_str_at session s env hrx (o + c.length + 1) (by omega) hskip
  rw [body_at_line_end session _ s o c hl (by omega)]
  rw [if_neg (by omega)]
  have hpre : ¬ ((c ++ [CR, LF]).getD 0 0 ≠ 83 ∨ (c ++ [CR, LF]).getD 1 0 ≠ 83
      ∨ (c ++ [CR, LF]).getD 2 0 ≠ 72 ∨ (c ++ [CR, LF]).getD 3 0 ≠ UND) := by
    rw [hL]; simp [UND]
  rw [if_neg hpre]
  have hnb : ¬ (((scan_loop (fun j => (c ++ [CR, LF]).getD j 0) (c.length + 2) (c.length + 2) 0
      scan_init).bad || decide ((scan_loop (fun j => (c ++ [CR, LF]).getD j 0) (c.length + 2)
      (c.length + 2) 0 scan_init).sum_UND ≠ 2)) = true) := by
    rw [hbad, hsum]; simp
  rw [if_neg hnb, hp1, hp2]
  -- the two strings
  have hb : ∀ j, j < c.length → rd (bufAt s (o + c.length + 2)) (o + j) = c.getD j 0 := by
    intro j hj
    rw [rd_bufAt_lt _ _ _ (by omega) (by omega), hl.content j hj]
  have hid : cstring ((bufAt s (o + c.length + 2)).set (o + c.length) 0) o = c := by
    apply cstring_eq
    · intro j hj
      rw [rd_set, if_neg (by omega)]
      exact hb j hj
    · exact fun x hx => (hcmem x hx).2
    · rw [rd_set, if_pos ⟨rfl, by rw [bufAt_length]; omega⟩]
  have hpr : cstring (((bufAt s (o + c.length + 2)).set (o + c.length) 0).set
      (o + (((4 + proto.length : Nat) : Int)).toNat) 0) (o + ((3 : Int) + 1).toNat) = proto := by
    have e1 : (((4 + proto.length : Nat) : Int)).toNat = 4 + proto.length := by omega
    have e2 : ((3 : Int) + 1).toNat = 4 := by decide
    rw [e1, e2]
    apply cstring_eq
    · intro j hj
      rw [rd_set, if_neg (by omega), rd_set, if_neg (by omega)]
      have e3 : o + 4 + j = o + (4 + j) := by omega
      rw [e3, hb (4 + j) (by omega), ← hcdef]
      have e4 : [83, 83, 72, 45] ++ proto ++ [UND] ++ sw ++ cm
          = [83, 83, 72, 45] ++ (proto ++ ([UND] ++ sw ++ cm)) := by simp
      rw [e4]
      show ([83, 83, 72, 45] ++ (proto ++ ([UND] ++ sw ++ cm))).getD
        (([83, 83, 72, 45] : List Nat).length + j) 0 = _
      rw [getD_append_ge, getD_append_lt _ _ _ hj]
    · exact fun x hx => (hp x hx).2.2.2
    · rw [rd_set, if_pos ⟨by omega, by simp [bufAt_length]; omega⟩]
  rw [hid, hpr]
  have hdrop : s.drop (o + c.length + 1 + 1) = tail := by
    rw [← hsd, ← hod]
    exact drop_line _ _ _
  rw [hdrop]

theorem count_take_succ (L : List Nat) (j : Nat) (hj : j < L.length) :
    (L.take (j + 1)).count UND = (L.take j).count UND + (if L.getD j 0 = UND then 1 else 0) := by
  rw [List.take_succ, List.count_append, List.getElem?_eq_getElem hj]
  simp [List.count_singleton, List.getD_eq_getElem?_getD, List.getElem?_eq_getElem hj]

theorem takeWhile_eq_take (L : List Nat) :
    ∀ j, (∀ k, k < j → L.getD k 0 ≠ SP) → j ≤ L.length → (j = L.length ∨ L.getD j 0 = SP) →
      L.takeWhile (fun x => decide (x ≠ SP)) = L.take j := by
  induction L with
  | nil => intro j _ hj _; simp
  | cons a t ih =>
    intro j hno hj hend
    cases j with
    | zero =>
      rcases hend with h | h
      · simp at h
      · simp only [List.getD_cons_zero] at h
        simp [h]
    | succ j =>
      have ha : a ≠ SP := by
        have := hno 0 (by omega)
        simpa using this
      rw [List.takeWhile_cons_of_pos (by simpa using ha), List.take_succ_cons]
      congr 1
      apply ih j
      · intro k hk
        have := hno (k + 1) (by omega)
        simpa using this
      · simpa using hj
      · rcases hend with h | h
        · left; simpa using h
        · right; simpa using h

theorem dashes_before_space_line (c : List Nat) :
    dashes_before_space (c ++ [CR, LF]) = dashes_before_space c := by
  unfold dashes_before_space
  induction c with
  | nil => decide
  | cons a t ih =>
    by_cases ha : a = SP
    · simp [ha]
    · simp only [List.cons_append]
      rw [List.takeWhile_cons_of_pos (by simpa using ha),
        List.takeWhile_cons_of_pos (by simpa using ha)]
      simp only [List.count_cons, ih]

theorem scan_inv_step (L : List Nat) (hd : dashes_before_space L ≠ 2) (j : Nat)
    (st : scan_state) (hj : j < L.length) (hinv : scan_inv L j st) :
    scan_inv L (j + 1) (scan_body (fun k => L.getD k 0) L.length j st) := by
  rcases hinv with hb | ⟨hsp, hno, hsum⟩
  · left
    unfold scan_body
    simp only []
    split_ifs <;> simp [hb]
  · by_cases hu : L.getD j 0 = UND
    · have hns : L.getD j 0 ≠ SP := by rw [hu]; decide
      have hcnt := count_take_succ L j hj
      rw [if_pos hu] at hcnt
      have hno1 : ∀ k, k < j + 1 → L.getD k 0 ≠ SP := by
        intro k hk
        by_cases hkj : k = j
        · rw [hkj]; exact hns
        · exact hno k (by omega)
      unfold scan_body scan_inv
      simp only [if_pos hu, if_neg hns]
      split_ifs <;> simp_all
    · by_cases hs : L.getD j 0 = SP
      · left
        have htw := takeWhile_eq_take L j hno (by omega) (Or.inr hs)
        have hne : st.sum_UND ≠ 2 := by
          rw [hsum]
          unfold dashes_before_space at hd
          rw [htw] at hd
          intro h
          apply hd
          exact_mod_cast h
        unfold scan_body
        simp only [if_neg hu, if_pos hs, if_pos hne]
      · right
        have hpl := scan_body_plain (fun k => L.getD k 0) L.length j st hu hs
        rw [hpl]
        have hcnt := count_take_succ L j hj
        rw [if_neg hu, Nat.add_zero] at hcnt
        refine ⟨hsp, ?_, by rw [hcnt]; exact hsum⟩
        intro k hk
        by_cases hkj : k = j
        · rw [hkj]; exact hs
        · exact hno k (by omega)

theorem scan_inv_end (L : List Nat) (hd : dashes_before_space L ≠ 2) (st : scan_state)
    (hinv : scan_inv L L.length st) : st.bad = true ∨ st.sum_UND ≠ 2 := by
  rcases hinv with hb | ⟨_, hno, hsum⟩
  · exact Or.inl hb
  · right
    have htw := takeWhile_eq_take L L.length hno (Nat.le_refl _) (Or.inl rfl)
    rw [hsum]
    unfold dashes_before_space at hd
    rw [htw] at hd
    intro h
    apply hd
    exact_mod_cast h

theorem scan_loop_rejects (L : List Nat) (hd : dashes_before_space L ≠ 2) :
    ∀ (n j : Nat) (st : scan_state), scan_inv L j st → j ≤ L.length → L.length ≤ j + n →
      (scan_loop (fun k => L.getD k 0) L.length n j st).bad = true
      ∨ (scan_loop (fun k => L.getD k 0) L.length n j st).sum_UND ≠ 2 := by
  intro n
  induction n with
  | zero =>
    intro j st hinv h1 h2
    have : j = L.length := by omega
    subst this
    exact scan_inv_end L hd st hinv
  | succ n ih =>
    intro j st hinv h1 h2
    unfold scan_loop
    by_cases hc : j < L.length ∧ st.bad = false
    · rw [if_pos hc]
      exact ih (j + 1) _ (scan_inv_step L hd j st hc.1 hinv) (by omega) (by omega)
    · rw [if_neg hc]
      by_cases hb : st.bad = true
      · exact Or.inl hb
      · have : j = L.length := by
          by_contra hne
          apply hc
          exact ⟨by omega, by simpa using hb⟩
        subst this
        exact scan_inv_end L hd st hinv

theorem SSH_check (c : List Nat) (h : bytes "SSH-" <+: c) :
    ¬ ((c ++ [CR, LF]).getD 0 0 ≠ 83 ∨ (c ++ [CR, LF]).getD 1 0 ≠ 83
      ∨ (c ++ [CR, LF]).getD 2 0 ≠ 72 ∨ (c ++ [CR, LF]).getD 3 0 ≠ UND) ∧ 4 ≤ c.length := by
  rw [bytes_SSH] at h
  obtain ⟨t, ht⟩ := h
  subst ht
  simp [UND]

/-- C9: when the first line that begins with `SSH-` (at most 254 bytes with its
CR LF, ending within the first 256 bytes, after lines without the mark) has a
number of dashes before its first space, or in the whole line if it has no
space, other than two, `receive_id_str` returns `SSH_ERROR`, records the
`SSH_FATAL` error and leaves the session, `server_id_str` included, as it was. -/
theorem receive_id_str_rejects_malformed (session : ssh_session_struct) (env : Env)
    (lines : List (List Nat)) (c tail : List Nat)
    (hlines : ∀ c1 ∈ lines, has_crlf (c1 ++ [CR]) = false ∧ ¬ (bytes "SSH-" <+: c1))
    (hc : has_crlf (c ++ [CR]) = false) (hpre : bytes "SSH-" <+: c)
    (hd : dashes_before_space c ≠ 2)
    (hrx : env.socket_rx = concat_lines lines ++ (c ++ [CR, LF] ++ tail))
    (hlen : (concat_lines lines).length + c.length + 2 ≤ 256)
    (hline : c.length + 2 ≤ 254) :
    (receive_id_str session env).1 = SSH_ERROR
    ∧ (receive_id_str session env).2.2.error = some (SSH_FATAL, "bad ssh version string")
    ∧ (receive_id_str session env).2.1 = session := by
  obtain ⟨hl, hskip⟩ := skip_to_line_end session lines c tail hlines hc hlen
  obtain ⟨hchk, hc4⟩ := SSH_check c hpre
  have hscan := scan_loop_rejects (c ++ [CR, LF])
    (by rw [dashes_before_space_line]; exact hd) (c.length + 2) 0 scan_init
    (Or.inr ⟨rfl, fun k hk => by omega, by simp [scan_init]⟩) (by omega) (by simp)
  have hLlen : (c ++ [CR, LF]).length = c.length + 2 := by simp
  rw [hLlen] at hscan
  have hres : receive_id_str session env
      = (SSH_ERROR, session,
          ssh_set_error { env with socket_rx := tail } SSH_FATAL "bad ssh version string") := by
    apply receive_id_str_at session _ env hrx ((concat_lines lines).length + c.length + 1)
      (by omega) hskip
    rw [body_at_line_end session _ _ _ c hl (by omega), drop_line]
    rw [if_neg (by omega), if_neg hchk, if_pos]
    rcases hscan with h | h
    · rw [h]; rfl
    · rw [Bool.or_eq_true]
      right
      exact decide_eq_true h
  rw [hres]
  exact ⟨rfl, rfl, rfl⟩

theorem bytes_SSH2 : bytes "SSH-2.0-" = bytes "SSH-" ++ bytes "2.0" ++ [UND] := by decide

theorem comments_ok (cm : List Nat)
    (hcm : cm = [] ∨ ∃ comments, cm = SP :: comments
      ∧ ∀ x ∈ comments, x ≠ UND ∧ x ≠ CR ∧ x ≠ LF ∧ x ≠ 0) :
    ∀ x ∈ cm, x ≠ UND ∧ x ≠ LF ∧ x ≠ 0 := by
  rcases hcm with h | ⟨comments, h, hx⟩
  · subst h; intro x hx; simp at hx
  · subst h
    intro x hmem
    rcases List.mem_cons.mp hmem with h | h
    · subst h; decide
    · exact ⟨(hx x h).1, (hx x h).2.2.1, (hx x h).2.2.2⟩

/-- C1: when the stream starts with lines that do not begin with `SSH-`, each
ended by its first CR LF, followed by the line `SSH-2.0-` softwareversion,
optionally a space and comments, CR LF, with a non-empty softwareversion free
of dash, space, CR, LF and NUL, comments free of dash, CR, LF and NUL, the line
at most 254 bytes long and everything within the first 256 bytes, then
`receive_id_str` returns `SSH_OK`, sets `protoversion` to 2 (libc turning
`2.0` into 2) and `server_id_str` to the line without its CR LF. -/
theorem receive_id_str_accepts_ssh2 (session : ssh_session_struct) (env : Env)
    (lines : List (List Nat)) (sw cm tail : List Nat)
    (hlines : ∀ c ∈ lines, has_crlf (c ++ [CR]) = false ∧ ¬ (bytes "SSH-" <+: c))
    (hs0 : sw ≠ []) (hs : ∀ x ∈ sw, x ≠ UND ∧ x ≠ SP ∧ x ≠ CR ∧ x ≠ LF ∧ x ≠ 0)
    (hcm : cm = [] ∨ ∃ comments, cm = SP :: comments
      ∧ ∀ x ∈ comments, x ≠ UND ∧ x ≠ CR ∧ x ≠ LF ∧ x ≠ 0)
    (hatof : env.atof_int (bytes "2.0") = 2)
    (hrx : env.socket_rx
      = concat_lines lines ++ (bytes "SSH-2.0-" ++ sw ++ cm ++ [CR, LF] ++ tail))
    (hlen : (concat_lines lines ++ (bytes "SSH-2.0-" ++ sw ++ cm ++ [CR, LF])).length ≤ 256)
    (hline : (bytes "SSH-2.0-" ++ sw ++ cm ++ [CR, LF]).length ≤ 254) :
    (receive_id_str session env).1 = SSH_OK
    ∧ (receive_id_str session env).2.1.protoversion = 2
    ∧ (receive_id_str session env).2.1.server_id_str = some (bytes "SSH-2.0-" ++ sw ++ cm) := by
  rw [bytes_SSH2] at hrx hlen hline ⊢
  have h := receive_id_str_accepts session env lines (bytes "2.0") sw cm tail hlines
    (by decide) (by decide) hs0
    (fun x hx => ⟨(hs x hx).1, (hs x hx).2.1, (hs x hx).2.2.2.1, (hs x hx).2.2.2.2⟩)
    (comments_ok cm hcm) hrx
    (by simp only [List.length_append] at hlen ⊢; simp at hlen ⊢; omega)
    (by simp only [List.length_append] at hline ⊢; simp at hline ⊢; omega)
  rw [h]
  exact ⟨rfl, hatof, rfl⟩

/-- Witness of C1: a greeting line, then `SSH-2.0-foo bar baz`. -/
theorem receive_id_str_accepts_ssh2_witness :
    (receive_id_str session0
      (env_rx (concat_lines [bytes "hello"] ++ (bytes "SSH-2.0-" ++ bytes "foo"
        ++ bytes " bar baz" ++ [CR, LF] ++ [1, 2, 3])))).1 = SSH_OK
    ∧ (receive_id_str session0
      (env_rx (concat_lines [bytes "hello"] ++ (bytes "SSH-2.0-" ++ bytes "foo"
        ++ bytes " bar baz" ++ [CR, LF] ++ [1, 2, 3])))).2.1.protoversion = 2
    ∧ (receive_id_str session0
      (env_rx (concat_lines [bytes "hello"] ++ (bytes "SSH-2.0-" ++ bytes "foo"
        ++ bytes " bar baz" ++ [CR, LF] ++ [1, 2, 3])))).2.1.server_id_str
        = some (bytes "SSH-2.0-" ++ bytes "foo" ++ bytes " bar baz") :=
  receive_id_str_accepts_ssh2 session0
    (env_rx (concat_lines [bytes "hello"] ++ (bytes "SSH-2.0-" ++ bytes "foo"
      ++ bytes " bar baz" ++ [CR, LF] ++ [1, 2, 3])))
    [bytes "hello"] (bytes "foo") (bytes " bar baz") [1, 2, 3]
    (by decide) (by decide) (by decide) (Or.inr ⟨bytes "bar baz", by decide, by decide⟩)
    (by decide) rfl (by decide) (by decide)

/-- Lines that do not begin with `SSH-` are skipped as long as they and the
identification line that follows fit together in the 256 bytes the loop reads
(the line itself in 254): the well-formed identification line is then stored,
`SSH_OK` returned, and the bytes after it are left unread. -/
theorem receive_id_str_skips_lines_within_buffer (session : ssh_session_struct) (env : Env)
    (lines : List (List Nat)) (proto sw cm tail : List Nat)
    (hlines : ∀ c ∈ lines, has_crlf (c ++ [CR]) = false ∧ ¬ (bytes "SSH-" <+: c))
    (hp0 : proto ≠ []) (hp : ∀ x ∈ proto, x ≠ UND ∧ x ≠ SP ∧ x ≠ CR ∧ x ≠ LF ∧ x ≠ 0)
    (hs0 : sw ≠ []) (hs : ∀ x ∈ sw, x ≠ UND ∧ x ≠ SP ∧ x ≠ CR ∧ x ≠ LF ∧ x ≠ 0)
    (hcm : cm = [] ∨ ∃ comments, cm = SP :: comments
      ∧ ∀ x ∈ comments, x ≠ UND ∧ x ≠ CR ∧ x ≠ LF ∧ x ≠ 0)
    (hrx : env.socket_rx = concat_lines lines
      ++ ((bytes "SSH-" ++ proto ++ [UND] ++ sw ++ cm) ++ [CR, LF] ++ tail))
    (hlen : (concat_lines lines).length
      + ((bytes "SSH-" ++ proto ++ [UND] ++ sw ++ cm).length + 2) ≤ 256)
    (hline : (bytes "SSH-" ++ proto ++ [UND] ++ sw ++ cm).length + 2 ≤ 254) :
    (receive_id_str session env).1 = SSH_OK
    ∧ (receive_id_str session env).2.1.server_id_str
        = some (bytes "SSH-" ++ proto ++ [UND] ++ sw ++ cm)
    ∧ (receive_id_str session env).2.2.socket_rx = tail := by
  have h := receive_id_str_accepts session env lines proto sw cm tail hlines hp0
    (fun x hx => ⟨(hp x hx).1, (hp x hx).2.1, (hp x hx).2.2.2.1, (hp x hx).2.2.2.2⟩) hs0
    (fun x hx => ⟨(hs x hx).1, (hs x hx).2.1, (hs x hx).2.2.2.1, (hs x hx).2.2.2.2⟩)
    (comments_ok cm hcm) hrx (by omega) hline
  rw [h]
  exact ⟨rfl, rfl, rfl⟩

/-- Three skipped lines, one of them empty, within the 256 bytes read. -/
theorem receive_id_str_skips_lines_within_buffer_witness :
    (receive_id_str session0
      (env_rx (concat_lines [bytes "Welcome", [], bytes "to the server"]
        ++ ((bytes "SSH-" ++ bytes "2.0" ++ [UND] ++ bytes "OpenSSH_8.9" ++ []) ++ [CR, LF]
          ++ [0, 0, 1])))).1 = SSH_OK
    ∧ (receive_id_str session0
      (env_rx (concat_lines [bytes "Welcome", [], bytes "to the server"]
        ++ ((bytes "SSH-" ++ bytes "2.0" ++ [UND] ++ bytes "OpenSSH_8.9" ++ []) ++ [CR, LF]
          ++ [0, 0, 1])))).2.1.server_id_str
        = some (bytes "SSH-" ++ bytes "2.0" ++ [UND] ++ bytes "OpenSSH_8.9" ++ [])
    ∧ (receive_id_str session0
      (env_rx (concat_lines [bytes "Welcome", [], bytes "to the server"]
        ++ ((bytes "SSH-" ++ bytes "2.0" ++ [UND] ++ bytes "OpenSSH_8.9" ++ []) ++ [CR, LF]
          ++ [0, 0, 1])))).2.2.socket_rx = [0, 0, 1] :=
  receive_id_str_skips_lines_within_buffer session0
    (env_rx (concat_lines [bytes "Welcome", [], bytes "to the server"]
      ++ ((bytes "SSH-" ++ bytes "2.0" ++ [UND] ++ bytes "OpenSSH_8.9" ++ []) ++ [CR, LF]
        ++ [0, 0, 1])))
    [bytes "Welcome", [], bytes "to the server"] (bytes "2.0") (bytes "OpenSSH_8.9") []
    [0, 0, 1]
    (by decide) (by decide) (by decide) (by decide) (by decide) (Or.inl rfl) rfl
    (by decide) (by decide)

set_option maxRecDepth 100000 in
/-- C8, evaluation at the failing input: two skipped lines of 132 bytes each,
neither beginning with `SSH-`, put the identification line `SSH-2.0-foo`
beyond the 256 bytes the loop reads, and `receive_id_str` returns `SSH_ERROR`
without storing it. -/
theorem receive_id_str_long_skipped_lines :
    ([List.replicate 130 97, List.replicate 130 97] : List (List Nat)).length < 256
    ∧ has_crlf (List.replicate 130 97 ++ [CR]) = false
    ∧ ¬ (bytes "SSH-" <+: List.replicate 130 97)
    ∧ (receive_id_str session0
        (env_rx (concat_lines [List.replicate 130 97, List.replicate 130 97]
          ++ bytes "SSH-2.0-foo\r\n"))).1 = SSH_ERROR
    ∧ (receive_id_str session0
        (env_rx (concat_lines [List.replicate 130 97, List.replicate 130 97]
          ++ bytes "SSH-2.0-foo\r\n"))).2.1.server_id_str = none := by
  decide

/-- Witness of C9: `SSH-2.0-foo-bar` after one skipped line. -/
theorem receive_id_str_rejects_malformed_witness :
    (receive_id_str session0
      (env_rx (concat_lines [bytes "hi"] ++ (bytes "SSH-2.0-foo-bar" ++ [CR, LF] ++ [])))).1
        = SSH_ERROR
    ∧ (receive_id_str session0
      (env_rx (concat_lines [bytes "hi"] ++ (bytes "SSH-2.0-foo-bar" ++ [CR, LF] ++ [])))).2.2.error
        = some (SSH_FATAL, "bad ssh version string")
    ∧ (receive_id_str session0
      (env_rx (concat_lines [bytes "hi"] ++ (bytes "SSH-2.0-foo-bar" ++ [CR, LF] ++ [])))).2.1
        = session0 :=
  receive_id_str_rejects_malformed session0
    (env_rx (concat_lines [bytes "hi"] ++ (bytes "SSH-2.0-foo-bar" ++ [CR, LF] ++ [])))
    [bytes "hi"] (bytes "SSH-2.0-foo-bar") [] (by decide) (by decide) (by decide)
    (by decide) rfl (by decide) (by decide)

/-- C6, evaluation at the failing input: the line `SSH-2.0-` with an empty
softwareversion followed by CR LF is accepted and stored, while the same line
with a space after the second dash is rejected. -/
theorem receive_id_str_empty_softwareversion :
    (receive_id_str session0 (env_rx (bytes "SSH-2.0-\r\n"))).1 = SSH_OK
    ∧ (receive_id_str session0 (env_rx (bytes "SSH-2.0-\r\n"))).2.1.server_id_str
        = some (bytes "SSH-2.0-")
    ∧ (receive_id_str session0 (env_rx (bytes "SSH-2.0-\r\n"))).2.2.error = none
    ∧ (receive_id_str session0 (env_rx (bytes "SSH-2.0- x\r\n"))).1 = SSH_ERROR := by
  decide

/-- Counterexample to C5 as stated: on `SSH-1.5-foo` the function
`receive_id_str` returns `SSH_OK` with `protoversion = 1`, and `ssh_connect`
goes on to `ssh_set_client_kex` and succeeds. -/
theorem ssh_connect_protoversion_1_counterexample :
    (receive_id_str session0 (env_rx (bytes "SSH-1.5-foo\r\n"))).1 = SSH_OK
    ∧ (receive_id_str session0 (env_rx (bytes "SSH-1.5-foo\r\n"))).2.1.protoversion = 1
    ∧ set_client_kex ∈ (ssh_connect ext_ok (some session_h)
        { env_rx (bytes "SSH-1.5-foo\r\n") with packets_rx := [service_accept_pkt] }).calls
    ∧ (ssh_connect ext_ok (some session_h)
        { env_rx (bytes "SSH-1.5-foo\r\n") with packets_rx := [service_accept_pkt] }).rc
        = SSH_OK := by
  decide

/-- C5, amended: the version exchange does not look at the protocol version.
Once the socket is connected and the client identification sent, a well-formed
identification line with any non-empty protoversion field (free of dash, space,
CR, LF and NUL) is accepted by `receive_id_str`, which stores in
`protoversion` what libc makes of the field, and `ssh_connect` goes on to call
`ssh_set_client_kex`. -/
theorem ssh_connect_any_protoversion (x : ext_steps) (s : ssh_session_struct) (env : Env)
    (proto sw cm tail : List Nat)
    (hhost : s.opts.host ≠ none)
    (hconn : (x.ssh_socket_connect s env).1 ≠ SSH_ERROR)
    (hsend : (send_id_str (x.ssh_socket_connect s env).2.1
      (x.ssh_socket_connect s env).2.2).1 ≠ SSH_ERROR)
    (hp0 : proto ≠ []) (hp : ∀ x ∈ proto, x ≠ UND ∧ x ≠ SP ∧ x ≠ CR ∧ x ≠ LF ∧ x ≠ 0)
    (hs0 : sw ≠ []) (hs : ∀ x ∈ sw, x ≠ UND ∧ x ≠ SP ∧ x ≠ CR ∧ x ≠ LF ∧ x ≠ 0)
    (hcm : cm = [] ∨ ∃ comments, cm = SP :: comments
      ∧ ∀ x ∈ comments, x ≠ UND ∧ x ≠ CR ∧ x ≠ LF ∧ x ≠ 0)
    (hrx : (x.ssh_socket_connect s env).2.2.socket_rx
      = (bytes "SSH-" ++ proto ++ [UND] ++ sw ++ cm) ++ [CR, LF] ++ tail)
    (hline : (bytes "SSH-" ++ proto ++ [UND] ++ sw ++ cm).length + 2 ≤ 254) :
    (receive_id_str
        (send_id_str (x.ssh_socket_connect s env).2.1 (x.ssh_socket_connect s env).2.2).2.1
        (send_id_str (x.ssh_socket_connect s env).2.1 (x.ssh_socket_connect s env).2.2).2.2).1
      = SSH_OK
    ∧ (receive_id_str
        (send_id_str (x.ssh_socket_connect s env).2.1 (x.ssh_socket_connect s env).2.2).2.1
        (send_id_str (x.ssh_socket_connect s env).2.1 (x.ssh_socket_connect s env).2.2).2.2
        ).2.1.protoversion
      = (x.ssh_socket_connect s env).2.2.atof_int proto
    ∧ [socket_connect, send_id, receive_id, set_client_kex]
        <+: (ssh_connect x (some s) env).calls := by
  have hrx2 : (send_id_str (x.ssh_socket_connect s env).2.1
      (x.ssh_socket_connect s env).2.2).2.2.socket_rx
      = concat_lines [] ++ ((bytes "SSH-" ++ proto ++ [UND] ++ sw ++ cm) ++ [CR, LF] ++ tail) := by
    rw [← hrx]
    unfold send_id_str ssh_socket_write concat_lines
    simp only []
    split_ifs <;> rfl
  have hat : (send_id_str (x.ssh_socket_connect s env).2.1
      (x.ssh_socket_connect s env).2.2).2.2.atof_int
      = (x.ssh_socket_connect s env).2.2.atof_int := by
    unfold send_id_str ssh_socket_write
    simp only []
    split_ifs <;> rfl
  have h := receive_id_str_accepts
    (send_id_str (x.ssh_socket_connect s env).2.1 (x.ssh_socket_connect s env).2.2).2.1
    (send_id_str (x.ssh_socket_connect s env).2.1 (x.ssh_socket_connect s env).2.2).2.2
    [] proto sw cm tail (by simp) hp0
    (fun x hx => ⟨(hp x hx).1, (hp x hx).2.1, (hp x hx).2.2.2.1, (hp x hx).2.2.2.2⟩) hs0
    (fun x hx => ⟨(hs x hx).1, (hs x hx).2.1, (hs x hx).2.2.2.1, (hs x hx).2.2.2.2⟩)
    (comments_ok cm hcm) hrx2 (by simp only [concat_lines, List.length_nil]; omega) hline
  have hok : (receive_id_str
      (send_id_str (x.ssh_socket_connect s env).2.1 (x.ssh_socket_connect s env).2.2).2.1
      (send_id_str (x.ssh_socket_connect s env).2.1 (x.ssh_socket_connect s env).2.2).2.2).1
      ≠ SSH_ERROR := by
    rw [h]
    show SSH_OK ≠ SSH_ERROR
    intro hc
    exact absurd hc (by decide)
  refine ⟨by rw [h], by rw [h, hat], ?_⟩
  unfold ssh_connect
  simp only [hhost, if_false, if_neg hconn, if_neg hsend, if_neg hok]
  split_ifs <;> simp [connect_error]

/-- Witness of C5 amended: the line `SSH-1.5-foo`. -/
theorem ssh_connect_any_protoversion_witness :
    (receive_id_str
        (send_id_str
          (ext_ok.ssh_socket_connect session_h
            (env_rx ((bytes "SSH-" ++ bytes "1.5" ++ [UND] ++ bytes "foo" ++ []) ++ [CR, LF]
              ++ []))).2.1
          (ext_ok.ssh_socket_connect session_h
            (env_rx ((bytes "SSH-" ++ bytes "1.5" ++ [UND] ++ bytes "foo" ++ []) ++ [CR, LF]
              ++ []))).2.2).2.1
        (send_id_str
          (ext_ok.ssh_socket_connect session_h
            (env_rx ((bytes "SSH-" ++ bytes "1.5" ++ [UND] ++ bytes "foo" ++ []) ++ [CR, LF]
              ++ []))).2.1
          (ext_ok.ssh_socket_connect session_h
            (env_rx ((bytes "SSH-" ++ bytes "1.5" ++ [UND] ++ bytes "foo" ++ []) ++ [CR, LF]
              ++ []))).2.2).2.2).1
      = SSH_OK
    ∧ [socket_connect, send_id, receive_id, set_client_kex]
        <+: (ssh_connect ext_ok (some session_h)
          (env_rx ((bytes "SSH-" ++ bytes "1.5" ++ [UND] ++ bytes "foo" ++ []) ++ [CR, LF]
            ++ []))).calls :=
  have h := ssh_connect_any_protoversion ext_ok session_h
    (env_rx ((bytes "SSH-" ++ bytes "1.5" ++ [UND] ++ bytes "foo" ++ []) ++ [CR, LF] ++ []))
    (bytes "1.5") (bytes "foo") [] []
    (by decide) (by decide) (by decide) (by decide) (by decide) (by decide) (by decide)
    (Or.inl rfl) rfl (by decide)
  ⟨h.1, h.2.2⟩

/-! ## Options, random numbers, connection set-up: theorems -/

/-- C14, evaluation at the failing input: with the port option -1 (and with
0) `ssh_options_set` returns `SSH_OK` and overwrites the port, 22 before, with
the low 16 bits of the value. -/
theorem ssh_options_set_nonpositive_port :
    (ssh_options_set (some session0) env0 (ssh_option_request.port (some (-1)))).1 = SSH_OK
    ∧ ((ssh_options_set (some session0) env0 (ssh_option_request.port (some (-1)))).2.1.map
        (fun s => s.opts.port)) = some 65535
    ∧ (ssh_options_set (some session0) env0 (ssh_option_request.port (some 0))).1 = SSH_OK
    ∧ ((ssh_options_set (some session0) env0 (ssh_option_request.port (some 0))).2.1.map
        (fun s => s.opts.port)) = some 0
    ∧ session0.opts.port = 22 := by
  decide

/-- C16, evaluation at the failing input: when the generator reports -1 (not
supported), `ssh_get_random` returns 1, with and without `strong`; it returns
1 on the generator's 1 and 0 on its 0. -/
theorem ssh_get_random_not_supported :
    (ssh_get_random (rand_const (-1)) [0, 0] 2 0).1 = 1
    ∧ (ssh_get_random (rand_const (-1)) [0, 0] 2 1).1 = 1
    ∧ (ssh_get_random (rand_const 1) [0, 0] 2 0).1 = 1
    ∧ (ssh_get_random (rand_const 0) [0, 0] 2 0).1 = 0 := by
  decide

set_option maxRecDepth 100000 in
/-- C17, evaluation at the failing input: a well-formed identification line
of exactly 255 bytes with its CR LF, received as the first line, is skipped and
`receive_id_str` returns `SSH_ERROR` without storing it. -/
theorem receive_id_str_line_255 :
    line_255.length = 255
    ∧ (receive_id_str session0 (env_rx line_255)).1 = SSH_ERROR
    ∧ (receive_id_str session0 (env_rx line_255)).2.1.server_id_str = none := by
  decide

/-- Counterexample to C15 as stated: on the malformed identification
`SSH-2.0`, `receive_id_str` records the `SSH_FATAL` error `bad ssh version
string`, and after `ssh_connect` has returned `SSH_ERROR` the recorded error is
`SSH_REQUEST_DENIED`, `ssh connection failed`. -/
theorem ssh_connect_error_kind_counterexample :
    (receive_id_str session_h (env_rx (bytes "SSH-2.0\r\n"))).2.2.error
      = some (SSH_FATAL, "bad ssh version string")
    ∧ (ssh_connect ext_ok (some session_h) (env_rx (bytes "SSH-2.0\r\n"))).rc = SSH_ERROR
    ∧ (ssh_connect ext_ok (some session_h) (env_rx (bytes "SSH-2.0\r\n"))).env.error
      = some (SSH_REQUEST_DENIED, "ssh connection failed") := by
  decide

theorem ssh_connect_eq_in_order (x : ext_steps) (s : ssh_session_struct) (env : Env) :
    ssh_connect x (some s) env = ssh_connect_in_order x s env := by
  rfl

theorem run_in_order_result :
    ∀ (steps : List (connect_call × (ssh_session_struct → Env → Int × ssh_session_struct × Env)))
      (s : ssh_session_struct) (env : Env) (done : List connect_call),
      (run_in_order steps s env done).rc = SSH_OK
      ∨ ((run_in_order steps s env done).rc = SSH_ERROR
        ∧ (run_in_order steps s env done).env.socket_closed = true
        ∧ (run_in_order steps s env done).env.error
            = some (SSH_REQUEST_DENIED, "ssh connection failed")
        ∧ (run_in_order steps s env done).calls.getLast? = some socket_close) := by
  intro steps
  induction steps with
  | nil => intro s env done; exact Or.inl rfl
  | cons st rest ih =>
    intro s env done
    obtain ⟨name, f⟩ := st
    unfold run_in_order
    by_cases h : (f s env).1 = SSH_ERROR
    · rw [if_pos h]
      exact Or.inr ⟨rfl, rfl, rfl, by simp [ssh_set_error]⟩
    · rw [if_neg h]
      exact ih _ _ _

theorem ssh_connect_result (x : ext_steps) (s : ssh_session_struct) (env : Env) :
    (ssh_connect x (some s) env).rc = SSH_OK
    ∨ ((ssh_connect x (some s) env).rc = SSH_ERROR
      ∧ (ssh_connect x (some s) env).env.socket_closed = true
      ∧ (ssh_connect x (some s) env).env.error
          = some (SSH_REQUEST_DENIED, "ssh connection failed")
      ∧ (ssh_connect x (some s) env).calls.getLast? = some socket_close) := by
  rw [ssh_connect_eq_in_order]
  unfold ssh_connect_in_order
  by_cases h : s.opts.host = none
  · rw [if_pos h]
    exact Or.inr ⟨rfl, rfl, rfl, rfl⟩
  · rw [if_neg h]
    exact run_in_order_result _ _ _ _

theorem run_in_order_calls :
    ∀ (steps : List (connect_call × (ssh_session_struct → Env → Int × ssh_session_struct × Env)))
      (s : ssh_session_struct) (env : Env) (done : List connect_call),
      ∃ k, k ≤ steps.length
        ∧ (((run_in_order steps s env done).rc = SSH_OK ∧ k = steps.length
            ∧ (run_in_order steps s env done).calls = done ++ (steps.map Prod.fst).take k)
          ∨ ((run_in_order steps s env done).rc = SSH_ERROR ∧ 0 < k
            ∧ (run_in_order steps s env done).calls
                = done ++ (steps.map Prod.fst).take k ++ [socket_close])) := by
  intro steps
  induction steps with
  | nil => intro s env done; exact ⟨0, Nat.le_refl _, Or.inl ⟨rfl, rfl, by simp [run_in_order]⟩⟩
  | cons st rest ih =>
    intro s env done
    obtain ⟨name, f⟩ := st
    unfold run_in_order
    by_cases h : (f s env).1 = SSH_ERROR
    · rw [if_pos h]
      exact ⟨1, by simp, Or.inr ⟨rfl, by omega, by simp⟩⟩
    · rw [if_neg h]
      obtain ⟨k, hk, hres⟩ := ih (f s env).2.1 (f s env).2.2 (done ++ [name])
      refine ⟨k + 1, by simp; omega, ?_⟩
      rcases hres with ⟨h1, h2, h3⟩ | ⟨h1, h2, h3⟩
      · exact Or.inl ⟨h1, by simp [h2], by rw [h3]; simp⟩
      · exact Or.inr ⟨h1, by omega, by rw [h3]; simp⟩

/-- C18: on a session that is not `NULL`, `ssh_connect` is the run of its nine
steps in the fixed order `ssh_socket_connect`, `send_id_str`, `receive_id_str`,
`ssh_set_client_kex`, `ssh_send_kex`, `ssh_receive_kex`, `ssh_select_kex`,
`ssh_dh_handshake`, `ssh_request_auth` that stops at an unset host or at the
first step returning `SSH_ERROR`, then closes the socket and returns
`SSH_ERROR`.  Hence the calls made are the first `k` steps of that order, all
nine when the result is `SSH_OK`, and otherwise followed by one call of
`ssh_socket_close`, the result being `SSH_ERROR` with the socket closed. -/
theorem ssh_connect_runs_in_order (x : ext_steps) (s : ssh_session_struct) (env : Env) :
    ssh_connect x (some s) env = ssh_connect_in_order x s env
    ∧ (∃ k, k ≤ 9
        ∧ (((ssh_connect x (some s) env).rc = SSH_OK
            ∧ (ssh_connect x (some s) env).calls = connect_order)
          ∨ ((ssh_connect x (some s) env).rc = SSH_ERROR
            ∧ (ssh_connect x (some s) env).env.socket_closed = true
            ∧ (ssh_connect x (some s) env).calls = connect_order.take k ++ [socket_close])))
    ∧ (s.opts.host = none → (ssh_connect x (some s) env).calls = [socket_close]) := by
  refine ⟨ssh_connect_eq_in_order x s env, ?_, ?_⟩
  · have hres := ssh_connect_result x s env
    rw [ssh_connect_eq_in_order] at hres ⊢
    unfold ssh_connect_in_order at hres ⊢
    by_cases h : s.opts.host = none
    · rw [if_pos h]
      exact ⟨0, by omega, Or.inr ⟨rfl, rfl, rfl⟩⟩
    · rw [if_neg h] at hres ⊢
      obtain ⟨k, hk, hc⟩ := run_in_order_calls (connect_steps x) s env []
      have hmap : (connect_steps x).map Prod.fst = connect_order := rfl
      have hlen : (connect_steps x).length = 9 := rfl
      rw [hmap, hlen] at hc
      refine ⟨k, by rw [hlen] at hk; exact hk, ?_⟩
      rcases hc with ⟨h1, h2, h3⟩ | ⟨h1, _, h3⟩
      · left
        refine ⟨h1, ?_⟩
        rw [h3, h2]
        rfl
      · right
        rcases hres with h4 | ⟨_, h5, _, _⟩
        · rw [h1] at h4
          exact absurd h4 (by decide)
        · exact ⟨h1, h5, by rw [h3]; rfl⟩
  · intro h
    rw [ssh_connect_eq_in_order]
    unfold ssh_connect_in_order
    rw [if_pos h]

/-- C15, amended: whenever `ssh_connect` on a session that is not `NULL` does
not return `SSH_OK`, it returns `SSH_ERROR` and the error retrievable afterwards
is `SSH_REQUEST_DENIED` with the message `ssh connection failed`, whatever the
failing step had recorded. -/
theorem ssh_connect_failure_error (x : ext_steps) (s : ssh_session_struct) (env : Env)
    (h : (ssh_connect x (some s) env).rc ≠ SSH_OK) :
    (ssh_connect x (some s) env).rc = SSH_ERROR
    ∧ (ssh_connect x (some s) env).env.error
      = some (SSH_REQUEST_DENIED, "ssh connection failed") := by
  rcases ssh_connect_result x s env with h1 | ⟨h1, _, h3, _⟩
  · exact absurd h1 h
  · exact ⟨h1, h3⟩

/-- Witness of C15 amended: the malformed identification `SSH-2.0`. -/
theorem ssh_connect_failure_error_witness :
    (ssh_connect ext_ok (some session_h) (env_rx (bytes "SSH-2.0\r\n"))).rc = SSH_ERROR
    ∧ (ssh_connect ext_ok (some session_h) (env_rx (bytes "SSH-2.0\r\n"))).env.error
      = some (SSH_REQUEST_DENIED, "ssh connection failed") :=
  ssh_connect_failure_error ext_ok session_h (env_rx (bytes "SSH-2.0\r\n")) (by decide)

theorem nat_lor_eq_zero (m n : Nat) : m ||| n = 0 ↔ m = 0 ∧ n = 0 := by
  constructor
  · intro h
    have hb : ∀ i, (m.testBit i || n.testBit i) = false := by
      intro i
      rw [← Nat.testBit_or, h, Nat.zero_testBit]
    constructor
    · apply Nat.eq_of_testBit_eq
      intro i
      have := hb i
      rw [Bool.or_eq_false_iff] at this
      rw [this.1, Nat.zero_testBit]
    · apply Nat.eq_of_testBit_eq
      intro i
      have := hb i
      rw [Bool.or_eq_false_iff] at this
      rw [this.2, Nat.zero_testBit]
  · rintro ⟨rfl, rfl⟩
    rfl

theorem int_lor_eq_zero (a b : Int) : Int.lor a b = 0 ↔ a = 0 ∧ b = 0 := by
  cases a with
  | ofNat m =>
    cases b with
    | ofNat n =>
      simp only [Int.lor]
      constructor
      · intro h
        have h1 : m ||| n = 0 := by exact_mod_cast h
        have := (nat_lor_eq_zero m n).mp h1
        rw [this.1, this.2]
        exact ⟨rfl, rfl⟩
      · rintro ⟨h1, h2⟩
        have h1' : m = 0 := Int.ofNat.inj h1
        have h2' : n = 0 := Int.ofNat.inj h2
        subst h1' h2'
        rfl
    | negSucc n =>
      simp only [Int.lor]
      constructor
      · intro h; exact absurd h (by simp)
      · rintro ⟨_, h2⟩; exact absurd h2 (by simp)
  | negSucc m =>
    cases b with
    | ofNat n =>
      simp only [Int.lor]
      constructor
      · intro h; exact absurd h (by simp)
      · rintro ⟨h1, _⟩; exact absurd h1 (by simp)
    | negSucc n =>
      simp only [Int.lor]
      constructor
      · intro h; exact absurd h (by simp)
      · rintro ⟨h1, _⟩; exact absurd h1 (by simp)

theorem ssh_buffer_pack_fields (session : ssh_session_struct) (env : Env) (args : List pack_arg) :
    (ssh_buffer_pack session env args).1 = env.pack_rc env.n_pack
    ∧ (ssh_buffer_pack session env args).2.2.n_send = env.n_send
    ∧ (ssh_buffer_pack session env args).2.2.send_rc = env.send_rc
    ∧ (ssh_buffer_pack session env args).2.2.packets_rx = env.packets_rx := by
  unfold ssh_buffer_pack
  simp only []
  split_ifs <;> exact ⟨rfl, rfl, rfl, rfl⟩

theorem ssh_packet_send_fields (session : ssh_session_struct) (env : Env) :
    (ssh_packet_send session env).1 = env.send_rc env.n_send
    ∧ (ssh_packet_send session env).2.2.packets_rx = env.packets_rx := by
  unfold ssh_packet_send
  simp only []
  split_ifs <;> exact ⟨rfl, rfl⟩

theorem ssh_packet_receive_cases (session : ssh_session_struct) (env : Env) :
    ((ssh_packet_receive session env).1 ≠ SSH_OK
      ∧ ∀ p rest, env.packets_rx ≠ (SSH_OK, p) :: rest)
    ∨ (∃ p rest, env.packets_rx = (SSH_OK, p) :: rest
      ∧ (ssh_packet_receive session env).1 = SSH_OK
      ∧ (ssh_packet_receive session env).2.1.in_buffer = p) := by
  unfold ssh_packet_receive
  cases hrx : env.packets_rx with
  | nil =>
    left
    refine ⟨?_, fun p rest h => by simp at h⟩
    show SSH_ERROR ≠ SSH_OK
    decide
  | cons pk rest =>
    obtain ⟨rc, payload⟩ := pk
    simp only []
    by_cases hrc : rc = SSH_OK
    · right
      rw [if_pos hrc]
      exact ⟨payload, rest, by rw [hrc], hrc, rfl⟩
    · left
      rw [if_neg hrc]
      refine ⟨hrc, fun p r h => ?_⟩
      simp only [List.cons.injEq, Prod.mk.injEq] at h
      exact hrc h.1.1

theorem takeWhile_before_at (before after : List Nat) (h : AT ∉ before) :
    (before ++ AT :: after).takeWhile (fun c => decide (c ≠ AT)) = before
    ∧ (before ++ AT :: after).drop (before.length + 1) = after := by
  induction before with
  | nil => simp
  | cons a t ih =>
    have ha : a ≠ AT := fun e => h (by simp [e])
    have ht : AT ∉ t := fun e => h (List.mem_cons_of_mem _ e)
    obtain ⟨h1, h2⟩ := ih ht
    constructor
    · rw [List.cons_append, List.takeWhile_cons_of_pos (by simpa using ha), h1]
    · simp

/-- C13: for a host value that is not empty, `ssh_options_set` returns
`SSH_OK`; when the value is `before`, `@`, `after` with no `@` in `before`,
the user name becomes `before` and the host `after`; when the value has no
`@`, the host becomes the value and the user name stays; the port and every
other field of the session stay as they were in both cases. -/
theorem ssh_options_set_host (s : ssh_session_struct) (env : Env) (v : List Nat)
    (hv : v ≠ []) :
    (ssh_options_set (some s) env (ssh_option_request.host (some v))).1 = SSH_OK
    ∧ (∀ before after, v = before ++ AT :: after → AT ∉ before →
        (ssh_options_set (some s) env (ssh_option_request.host (some v))).2.1
          = some { s with opts := { host := some after, username := before,
                                    port := s.opts.port } })
    ∧ (AT ∉ v →
        (ssh_options_set (some s) env (ssh_option_request.host (some v))).2.1
          = some { s with opts := { host := some v, username := s.opts.username,
                                    port := s.opts.port } }) := by
  unfold ssh_options_set
  simp only [if_neg hv]
  refine ⟨?_, ?_, ?_⟩
  · split_ifs <;> rfl
  · intro before after hva hb
    have hmem : AT ∈ v := by rw [hva]; simp
    rw [if_pos hmem]
    obtain ⟨h1, h2⟩ := takeWhile_before_at before after hb
    rw [hva, h1, h2]
  · intro hno
    rw [if_neg hno]

/-- Witness of C13: `alice@example.org`. -/
theorem ssh_options_set_host_witness :
    (ssh_options_set (some session0) env0
        (ssh_option_request.host (some (bytes "alice@example.org")))).1 = SSH_OK
    ∧ (ssh_options_set (some session0) env0
        (ssh_option_request.host (some (bytes "alice@example.org")))).2.1
        = some { session0 with opts := { host := some (bytes "example.org"),
                                         username := bytes "alice", port := 22 } } :=
  have h := ssh_options_set_host session0 env0 (bytes "alice@example.org") (by decide)
  ⟨h.1, h.2.1 (bytes "alice") (bytes "example.org") (by decide) (by decide)⟩

/-! ## Version exchange: comments and consumed bytes -/

theorem has_bad_dash_false (l : List Nat) (h : has_bad_dash l = false) :
    ∀ j, ¬ (l.getD j 0 = UND ∧ (l.getD (j + 1) 0 = UND ∨ l.getD (j + 1) 0 = SP)) := by
  induction l with
  | nil => intro j; simp [UND]
  | cons a t ih =>
    cases t with
    | nil =>
      intro j
      cases j <;> simp [UND, SP]
    | cons b t2 =>
      simp only [has_bad_dash, Bool.or_eq_false_iff, Bool.and_eq_false_imp, beq_iff_eq] at h
      intro j
      cases j with
      | zero =>
        simp only [List.getD_cons_zero, Nat.zero_add, List.getD_cons_succ]
        rintro ⟨ha, hb⟩
        have := h.1 ha
        rcases hb with hb | hb <;> simp [hb] at this
      | succ j =>
        simp only [List.getD_cons_succ]
        have := ih h.2 j
        simpa using this

theorem has_bad_dash_line (l : List Nat) : has_bad_dash (l ++ [CR, LF]) = has_bad_dash l := by
  induction l with
  | nil => decide
  | cons a t ih =>
    cases t with
    | nil =>
      simp [has_bad_dash, CR, LF, UND, SP]
    | cons b t2 =>
      show ((a == UND && (b == UND || b == SP)) || has_bad_dash ((b :: t2) ++ [CR, LF]))
        = ((a == UND && (b == UND || b == SP)) || has_bad_dash (b :: t2))
      rw [ih]

theorem has_bad_dash_space (l : List Nat) : has_bad_dash (SP :: l) = has_bad_dash l := by
  cases l with
  | nil => rfl
  | cons b t => simp [has_bad_dash, SP, UND]

theorem scan_body_space (f : Nat → Nat) (len j : Nat) (st : scan_state)
    (hj : f j = SP) (hs : st.sum_UND = 2) :
    scan_body f len j st = { st with sum_SP := 1 } := by
  have hu : f j ≠ UND := by rw [hj]; decide
  unfold scan_body
  simp only [if_neg hu, if_pos hj, hs, ne_eq, not_true_eq_false, if_false]

theorem scan_body_comment (f : Nat → Nat) (len j : Nat) (st : scan_state)
    (hs : st.sum_UND = 2) (hsp : st.sum_SP ≠ 0)
    (hd : f j = UND → j ≠ 0 ∧ j ≠ len - 1 ∧ f (j - 1) ≠ UND ∧ f (j + 1) ≠ SP) :
    (scan_body f len j st).bad = st.bad ∧ (scan_body f len j st).sum_UND = 2
      ∧ (scan_body f len j st).sum_SP ≠ 0
      ∧ (scan_body f len j st).pos_UND_1 = st.pos_UND_1
      ∧ (scan_body f len j st).pos_UND_2 = st.pos_UND_2 := by
  by_cases hu : f j = UND
  · have hns : f j ≠ SP := by rw [hu]; decide
    obtain ⟨h0, hl, hp, hn⟩ := hd hu
    have hc : ¬ (j = 0 ∨ j = len - 1 ∨ f (j - 1) = UND ∨ f (j + 1) = SP) := by
      simp [h0, hl, hp, hn]
    unfold scan_body
    simp only [if_pos hu, if_neg hc, if_neg hsp, if_neg hns]
    refine ⟨?_, ?_, ?_, ?_, ?_⟩ <;> first | rfl | trivial
  · by_cases h2 : f j = SP
    · rw [scan_body_space f len j st h2 hs]
      exact ⟨rfl, hs, by simp, rfl, rfl⟩
    · rw [scan_body_plain f len j st hu h2]
      exact ⟨rfl, hs, hsp, rfl, rfl⟩

theorem scan_loop_comments (f : Nat → Nat) (len : Nat) :
    ∀ (n j : Nat) (st : scan_state),
      (∀ k, j ≤ k → k < len → f k = UND →
        k ≠ 0 ∧ k ≠ len - 1 ∧ f (k - 1) ≠ UND ∧ f (k + 1) ≠ SP) →
      st.sum_UND = 2 → st.bad = false → st.sum_SP ≠ 0 →
      (scan_loop f len n j st).bad = false ∧ (scan_loop f len n j st).sum_UND = 2
        ∧ (scan_loop f len n j st).pos_UND_1 = st.pos_UND_1
        ∧ (scan_loop f len n j st).pos_UND_2 = st.pos_UND_2 := by
  intro n
  induction n with
  | zero => intro j st _ hs hb _; exact ⟨hb, hs, rfl, rfl⟩
  | succ n ih =>
    intro j st hp hs hb hsp
    unfold scan_loop
    by_cases hc : j < len ∧ st.bad = false
    · rw [if_pos hc]
      have hb1 := scan_body_comment f len j st hs hsp (hp j (Nat.le_refl _) hc.1)
      have := ih (j + 1) (scan_body f len j st) (fun k h1 h2 => hp k (by omega) h2) hb1.2.1
        (by rw [hb1.1]; exact hb) hb1.2.2.1
      rw [hb1.2.2.2.1, hb1.2.2.2.2] at this
      exact this
    · rw [if_neg hc]
      exact ⟨hb, hs, rfl, rfl⟩

/-- The scan of a line `SSH-` proto `-` software rest, where `rest` starts with
a space and has no dash that follows a dash, precedes a space or ends it. -/
theorem scan_well_formed_comments (proto sw R : List Nat)
    (hp0 : proto ≠ []) (hp : ∀ x ∈ proto, x ≠ UND ∧ x ≠ SP)
    (hs0 : sw ≠ []) (hs : ∀ x ∈ sw, x ≠ UND ∧ x ≠ SP)
    (hR0 : R.getD 0 0 = SP) (hR2 : 2 ≤ R.length) (hRlast : R.getD (R.length - 1) 0 ≠ UND)
    (hRd : has_bad_dash R = false) (n : Nat)
    (hn : n = ([83, 83, 72, 45] ++ (proto ++ (UND :: (sw ++ R)))).length) :
    (scan_loop (fun j => ([83, 83, 72, 45] ++ (proto ++ (UND :: (sw ++ R)))).getD j 0)
        n n 0 scan_init).bad = false
    ∧ (scan_loop (fun j => ([83, 83, 72, 45] ++ (proto ++ (UND :: (sw ++ R)))).getD j 0)
        n n 0 scan_init).sum_UND = 2
    ∧ (scan_loop (fun j => ([83, 83, 72, 45] ++ (proto ++ (UND :: (sw ++ R)))).getD j 0)
        n n 0 scan_init).pos_UND_1 = 3
    ∧ (scan_loop (fun j => ([83, 83, 72, 45] ++ (proto ++ (UND :: (sw ++ R)))).getD j 0)
        n n 0 scan_init).pos_UND_2 = ((4 + proto.length : Nat) : Int) := by
  generalize hf : (fun j => ([83, 83, 72, 45] ++ (proto ++ (UND :: (sw ++ R)))).getD j 0) = f
  have hlenp : 0 < proto.length := List.length_pos.mpr hp0
  have hlens : 0 < sw.length := List.length_pos.mpr hs0
  have hlenR : 0 < R.length := by omega
  have hnv : n = 4 + proto.length + 1 + sw.length + R.length := by
    rw [hn]; simp; omega
  have f0 : f 0 = 83 := by rw [← hf]; rfl
  have f1 : f 1 = 83 := by rw [← hf]; rfl
  have f2 : f 2 = 72 := by rw [← hf]; rfl
  have f3 : f 3 = UND := by rw [← hf]; rfl
  have fp : ∀ i, i < proto.length → f (4 + i) = proto.getD i 0 := by
    intro i hi
    rw [← hf]
    show ([83, 83, 72, 45] ++ (proto ++ (UND :: (sw ++ R)))).getD
      (([83, 83, 72, 45] : List Nat).length + i) 0 = _
    rw [getD_append_ge, getD_append_lt _ _ _ hi]
  have fd : f (4 + proto.length) = UND := by
    rw [← hf]
    show ([83, 83, 72, 45] ++ (proto ++ (UND :: (sw ++ R)))).getD
      (([83, 83, 72, 45] : List Nat).length + proto.length) 0 = _
    rw [getD_append_ge]
    have := getD_append_ge proto (UND :: (sw ++ R)) 0
    rw [Nat.add_zero] at this
    rw [this]
    rfl
  have fr : ∀ i, f (4 + proto.length + 1 + i) = (sw ++ R).getD i 0 := by
    intro i
    rw [← hf]
    show ([83, 83, 72, 45] ++ (proto ++ (UND :: (sw ++ R)))).getD _ 0 = _
    have e : 4 + proto.length + 1 + i = ([83, 83, 72, 45] : List Nat).length
        + (proto.length + (i + 1)) := by simp; omega
    rw [e, getD_append_ge, getD_append_ge]
    rfl
  have fs : ∀ i, i < sw.length → f (4 + proto.length + 1 + i) = sw.getD i 0 := by
    intro i hi
    rw [fr, getD_append_lt _ _ _ hi]
  have fR : ∀ i, f (4 + proto.length + 1 + sw.length + i) = R.getD i 0 := by
    intro i
    rw [Nat.add_assoc (4 + proto.length + 1), fr, getD_append_ge]
  have hpi : ∀ i, i < proto.length → proto.getD i 0 ≠ UND ∧ proto.getD i 0 ≠ SP :=
    fun i hi => hp _ (getD_mem_of_lt proto i hi)
  have hsi : ∀ i, i < sw.length → sw.getD i 0 ≠ UND ∧ sw.getD i 0 ≠ SP :=
    fun i hi => hs _ (getD_mem_of_lt sw i hi)
  -- the three letters
  have e0 : n = 3 + (n - 3) := by omega
  have s0 : scan_loop f n n 0 scan_init = scan_loop f n (n - 3) 3 scan_init := by
    have := scan_loop_plain f n 3 0 scan_init
      (by
        intro k _ hk
        have : k = 0 ∨ k = 1 ∨ k = 2 := by omega
        rcases this with h | h | h <;> subst h
        · rw [f0]; decide
        · rw [f1]; decide
        · rw [f2]; decide)
      (by omega) rfl (n - 3)
    rw [← e0] at this
    simpa using this
  -- the first dash
  have e1 : n - 3 = (n - 4) + 1 := by omega
  have s1 : scan_loop f n (n - 3) 3 scan_init
      = scan_loop f n (n - 4) 4 ⟨1, 0, ((3 : Nat) : Int), -1, false⟩ := by
    rw [e1, scan_loop, if_pos ⟨by omega, rfl⟩]
    rw [scan_body_first_dash f n 3 f3 (by omega) (by omega) (by rw [f2]; decide)
      (by
        have := fp 0 hlenp
        rw [Nat.add_zero] at this
        rw [this]
        exact (hpi 0 hlenp).2)]
  -- the protocol version
  have e2 : n - 4 = proto.length + (n - 4 - proto.length) := by omega
  have s2 : scan_loop f n (n - 4) 4 ⟨1, 0, ((3 : Nat) : Int), -1, false⟩
      = scan_loop f n (n - 4 - proto.length) (4 + proto.length)
          ⟨1, 0, ((3 : Nat) : Int), -1, false⟩ := by
    have := scan_loop_plain f n proto.length 4 ⟨1, 0, ((3 : Nat) : Int), -1, false⟩
      (by
        intro k hk1 hk2
        have e : k = 4 + (k - 4) := by omega
        rw [e, fp _ (by omega)]
        exact hpi _ (by omega))
      (by omega) rfl (n - 4 - proto.length)
    rw [← e2] at this
    exact this
  -- the second dash
  have e3 : n - 4 - proto.length = (n - 5 - proto.length) + 1 := by omega
  have s3 : scan_loop f n (n - 4 - proto.length) (4 + proto.length)
        ⟨1, 0, ((3 : Nat) : Int), -1, false⟩
      = scan_loop f n (n - 5 - proto.length) (4 + proto.length + 1)
          ⟨2, 0, ((3 : Nat) : Int), ((4 + proto.length : Nat) : Int), false⟩ := by
    rw [e3, scan_loop, if_pos ⟨by omega, rfl⟩]
    rw [scan_body_second_dash f n (4 + proto.length) 3 fd (by omega) (by omega)
      (by
        have e : 4 + proto.length - 1 = 4 + (proto.length - 1) := by omega
        rw [e, fp _ (by omega)]
        exact (hpi _ (by omega)).1)
      (by
        have := fs 0 hlens
        rw [Nat.add_zero] at this
        rw [this]
        exact (hsi 0 hlens).2)]
  -- the software version
  have e4 : n - 5 - proto.length = sw.length + (n - 5 - proto.length - sw.length) := by omega
  have s4 : scan_loop f n (n - 5 - proto.length) (4 + proto.length + 1)
        ⟨2, 0, ((3 : Nat) : Int), ((4 + proto.length : Nat) : Int), false⟩
      = scan_loop f n (n - 5 - proto.length - sw.length) (4 + proto.length + 1 + sw.length)
          ⟨2, 0, ((3 : Nat) : Int), ((4 + proto.length : Nat) : Int), false⟩ := by
    have := scan_loop_plain f n sw.length (4 + proto.length + 1)
      ⟨2, 0, ((3 : Nat) : Int), ((4 + proto.length : Nat) : Int), false⟩
      (by
        intro k hk1 hk2
        have e : k = 4 + proto.length + 1 + (k - (4 + proto.length + 1)) := by omega
        rw [e, fs _ (by omega)]
        exact hsi _ (by omega))
      (by omega) rfl (n - 5 - proto.length - sw.length)
    rw [← e4] at this
    exact this
  -- the space
  have fq : f (4 + proto.length + 1 + sw.length) = SP := by
    have := fR 0
    rw [Nat.add_zero] at this
    rw [this, hR0]
  have e5 : n - 5 - proto.length - sw.length = (n - 6 - proto.length - sw.length) + 1 := by
    omega
  have s5 : scan_loop f n (n - 5 - proto.length - sw.length) (4 + proto.length + 1 + sw.length)
        ⟨2, 0, ((3 : Nat) : Int), ((4 + proto.length : Nat) : Int), false⟩
      = scan_loop f n (n - 6 - proto.length - sw.length)
          (4 + proto.length + 1 + sw.length + 1)
          ⟨2, 1, ((3 : Nat) : Int), ((4 + proto.length : Nat) : Int), false⟩ := by
    rw [e5, scan_loop, if_pos ⟨by omega, rfl⟩]
    rw [scan_body_space f n _ _ fq rfl]
  -- the comments
  have hbd := has_bad_dash_false R hRd
  have s6 := scan_loop_comments f n (n - 6 - proto.length - sw.length)
    (4 + proto.length + 1 + sw.length + 1)
    ⟨2, 1, ((3 : Nat) : Int), ((4 + proto.length : Nat) : Int), false⟩
    (by
      intro k hk1 hk2 hku
      have e : k = 4 + proto.length + 1 + sw.length
          + (k - (4 + proto.length + 1 + sw.length)) := by omega
      have ek1 : k - 1 = 4 + proto.length + 1 + sw.length
          + (k - (4 + proto.length + 1 + sw.length) - 1) := by omega
      have ek2 : k + 1 = 4 + proto.length + 1 + sw.length
          + (k - (4 + proto.length + 1 + sw.length) + 1) := by omega
      rw [e, fR] at hku
      refine ⟨by omega, ?_, ?_, ?_⟩
      · intro hlast
        apply hRlast
        have e3 : R.length - 1 = k - (4 + proto.length + 1 + sw.length) := by omega
        rw [e3]
        exact hku
      · rw [ek1, fR]
        intro hprev
        have := hbd (k - (4 + proto.length + 1 + sw.length) - 1)
        apply this
        have e3 : k - (4 + proto.length + 1 + sw.length) - 1 + 1
            = k - (4 + proto.length + 1 + sw.length) := by omega
        rw [e3]
        exact ⟨hprev, Or.inl hku⟩
      · rw [ek2, fR]
        intro hnext
        exact hbd (k - (4 + proto.length + 1 + sw.length)) ⟨hku, Or.inr hnext⟩)
    rfl rfl (by show (1 : Int) ≠ 0; decide)
  rw [s0, s1, s2, s3, s4, s5]
  exact ⟨s6.1, s6.2.1, s6.2.2.1, s6.2.2.2⟩

/-- Acceptance of an identification line whose scan ends well, after lines
without the `SSH-` mark, all within the 256 bytes read. -/
theorem receive_id_str_accepts_of_scan (session : ssh_session_struct) (env : Env)
    (lines : List (List Nat)) (proto sw cm tail : List Nat)
    (hlines : ∀ c1 ∈ lines, has_crlf (c1 ++ [CR]) = false ∧ ¬ (bytes "SSH-" <+: c1))
    (hp : ∀ x ∈ proto, x ≠ LF ∧ x ≠ 0)
    (hs : ∀ x ∈ sw, x ≠ LF ∧ x ≠ 0)
    (hcm : ∀ x ∈ cm, x ≠ LF ∧ x ≠ 0)
    (hscan :
      (scan_loop
          (fun j => List.getD ([83, 83, 72, 45] ++ (proto ++ (UND :: (sw ++ (cm ++ [CR, LF]))))) j 0) (4 + proto.length + 1 + sw.length + cm.length + 2)
          (4 + proto.length + 1 + sw.length + cm.length + 2) 0 scan_init).bad = false
      ∧ (scan_loop
          (fun j => List.getD ([83, 83, 72, 45] ++ (proto ++ (UND :: (sw ++ (cm ++ [CR, LF]))))) j 0) (4 + proto.length + 1 + sw.length + cm.length + 2)
          (4 + proto.length + 1 + sw.length + cm.length + 2) 0 scan_init).sum_UND = 2
      ∧ (scan_loop
          (fun j => List.getD ([83, 83, 72, 45] ++ (proto ++ (UND :: (sw ++ (cm ++ [CR, LF]))))) j 0) (4 + proto.length + 1 + sw.length + cm.length + 2)
          (4 + proto.length + 1 + sw.length + cm.length + 2) 0 scan_init).pos_UND_1 = 3
      ∧ (scan_loop
          (fun j => List.getD ([83, 83, 72, 45] ++ (proto ++ (UND :: (sw ++ (cm ++ [CR, LF]))))) j 0) (4 + proto.length + 1 + sw.length + cm.length + 2)
          (4 + proto.length + 1 + sw.length + cm.length + 2) 0 scan_init).pos_UND_2
          = ((4 + proto.length : Nat) : Int))
    (hrx : env.socket_rx = concat_lines lines
      ++ ((bytes "SSH-" ++ proto ++ [UND] ++ sw ++ cm) ++ [CR, LF] ++ tail))
    (hlen : (concat_lines lines).length + (bytes "SSH-" ++ proto ++ [UND] ++ sw ++ cm).length + 2
      ≤ 256)
    (hline : (bytes "SSH-" ++ proto ++ [UND] ++ sw ++ cm).length + 2 ≤ 254) :
    receive_id_str session env
      = (SSH_OK,
          { session with
            server_id_str := some (bytes "SSH-" ++ proto ++ [UND] ++ sw ++ cm),
            protoversion := env.atof_int proto },
          { env with socket_rx := tail }) := by
  rw [bytes_SSH] at hrx hlen hline ⊢
  generalize hcdef : [83, 83, 72, 45] ++ proto ++ [UND] ++ sw ++ cm = c at hrx hlen hline ⊢
  have hcl : c.length = 4 + proto.length + 1 + sw.length + cm.length := by
    rw [← hcdef]; simp; omega
  have hcmem : ∀ x ∈ c, x ≠ LF ∧ x ≠ 0 := by
    intro x hx
    rw [← hcdef] at hx
    simp only [List.mem_append, List.mem_cons, List.mem_singleton, List.not_mem_nil,
      or_false] at hx
    rcases hx with (((h | h) | h) | h) | h
    · rcases h with h | h | h | h <;> subst h <;> decide
    · exact hp x h
    · subst h; decide
    · exact hs x h
    · exact hcm x h
  have hcrlf : has_crlf (c ++ [CR]) = false := by
    apply no_lf_no_crlf
    intro x hx
    simp only [List.mem_append, List.mem_singleton] at hx
    rcases hx with h | h
    · exact (hcmem x h).1
    · subst h; decide
  obtain ⟨hl, hskip⟩ := skip_to_line_end session lines c tail hlines hcrlf hlen
  generalize hsd : concat_lines lines ++ (c ++ [CR, LF] ++ tail) = s at hrx hl hskip
  generalize hod : (concat_lines lines).length = o at hlen hl hskip
  have hL : c ++ [CR, LF] = [83, 83, 72, 45] ++ (proto ++ (UND :: (sw ++ (cm ++ [CR, LF])))) := by
    rw [← hcdef]; simp
  have hn2 : 4 + proto.length + 1 + sw.length + cm.length + 2 = c.length + 2 := by omega
  rw [hn2] at hscan
  rw [← hL] at hscan
  obtain ⟨hbad, hsum, hp1, hp2⟩ := hscan
  apply receive_id_str_at session s env hrx (o + c.length + 1) (by omega) hskip
  rw [body_at_line_end session _ s o c hl (by omega)]
  rw [if_neg (by omega)]
  have hpre : ¬ ((c ++ [CR, LF]).getD 0 0 ≠ 83 ∨ (c ++ [CR, LF]).getD 1 0 ≠ 83
      ∨ (c ++ [CR, LF]).getD 2 0 ≠ 72 ∨ (c ++ [CR, LF]).getD 3 0 ≠ UND) := by
    rw [hL]; simp [UND]
  rw [if_neg hpre]
  have hnb : ¬ (((scan_loop (fun j => (c ++ [CR, LF]).getD j 0) (c.length + 2) (c.length + 2) 0
      scan_init).bad || decide ((scan_loop (fun j => (c ++ [CR, LF]).getD j 0) (c.length + 2)
      (c.length + 2) 0 scan_init).sum_UND ≠ 2)) = true) := by
    rw [hbad, hsum]; simp
  rw [if_neg hnb, hp1, hp2]
  -- the two strings
  have hb : ∀ j, j < c.length → rd (bufAt s (o + c.length + 2)) (o + j) = c.getD j 0 := by
    intro j hj
    rw [rd_bufAt_lt _ _ _ (by omega) (by omega), hl.content j hj]
  have hid : cstring ((bufAt s (o + c.length + 2)).set (o + c.length) 0) o = c := by
    apply cstring_eq
    · intro j hj
      rw [rd_set, if_neg (by omega)]
      exact hb j hj
    · exact fun x hx => (hcmem x hx).2
    · rw [rd_set, if_pos ⟨rfl, by rw [bufAt_length]; omega⟩]
  have hpr : cstring (((bufAt s (o + c.length + 2)).set (o + c.length) 0).set
      (o + (((4 + proto.length : Nat) : Int)).toNat) 0) (o + ((3 : Int) + 1).toNat) = proto := by
    have e1 : (((4 + proto.length : Nat) : Int)).toNat = 4 + proto.length := by omega
    have e2 : ((3 : Int) + 1).toNat = 4 := by decide
    rw [e1, e2]
    apply cstring_eq
    · intro j hj
      rw [rd_set, if_neg (by omega), rd_set, if_neg (by omega)]
      have e3 : o + 4 + j = o + (4 + j) := by omega
      rw [e3, hb (4 + j) (by omega), ← hcdef]
      have e4 : [83, 83, 72, 45] ++ proto ++ [UND] ++ sw ++ cm
          = [83, 83, 72, 45] ++ (proto ++ ([UND] ++ sw ++ cm)) := by simp
      rw [e4]
      show ([83, 83, 72, 45] ++ (proto ++ ([UND] ++ sw ++ cm))).getD
        (([83, 83, 72, 45] : List Nat).length + j) 0 = _
      rw [getD_append_ge, getD_append_lt _ _ _ hj]
    · exact fun x hx => (hp x hx).2
    · rw [rd_set, if_pos ⟨by omega, by simp [bufAt_length]; omega⟩]
  rw [hid, hpr]
  have hdrop : s.drop (o + c.length + 1 + 1) = tail := by
    rw [← hsd, ← hod]
    exact drop_line _ _ _
  rw [hdrop]

theorem bytes_SSH2_list : bytes "SSH-2.0-" = [83, 83, 72, 45] ++ bytes "2.0" ++ [UND] := by
  decide

set_option maxRecDepth 100000 in
/-- Counterexample to C19 as stated: `SSH-2.0-foo` is accepted, the
comments `a--b` are free of CR, LF and NUL, and `SSH-2.0-foo a--b` is
rejected; so is `SSH-2.0-foo a- b`. -/
theorem receive_id_str_dashed_comments_counterexample :
    (receive_id_str session0 (env_rx (bytes "SSH-2.0-foo\r\n"))).1 = SSH_OK
    ∧ CR ∉ bytes "a--b" ∧ LF ∉ bytes "a--b" ∧ 0 ∉ bytes "a--b"
    ∧ (receive_id_str session0 (env_rx (bytes "SSH-2.0-foo a--b\r\n"))).1 = SSH_ERROR
    ∧ (receive_id_str session0 (env_rx (bytes "SSH-2.0-foo a- b\r\n"))).1 = SSH_ERROR := by
  decide

/-- C19, amended: comments are optional, and constrained only in their
dashes.  For every line `SSH-2.0-` softwareversion (not empty, free of dash,
space, CR, LF and NUL) and every comments string free of CR, LF and NUL in
which no dash is immediately followed by a dash or by a space, the line with a
space and the comments added is accepted and stored whole (single dashes in
the comments included), the line being within the 254 bytes allowed. -/
theorem receive_id_str_accepts_dashed_comments (session : ssh_session_struct) (env : Env)
    (sw comments tail : List Nat)
    (hs0 : sw ≠ []) (hs : ∀ x ∈ sw, x ≠ UND ∧ x ≠ SP ∧ x ≠ CR ∧ x ≠ LF ∧ x ≠ 0)
    (hc : ∀ x ∈ comments, x ≠ CR ∧ x ≠ LF ∧ x ≠ 0)
    (hd : has_bad_dash comments = false)
    (hrx : env.socket_rx = bytes "SSH-2.0-" ++ sw ++ SP :: comments ++ [CR, LF] ++ tail)
    (hline : (bytes "SSH-2.0-" ++ sw ++ SP :: comments ++ [CR, LF]).length ≤ 254) :
    (receive_id_str session env).1 = SSH_OK
    ∧ (receive_id_str session env).2.1.server_id_str
        = some (bytes "SSH-2.0-" ++ sw ++ SP :: comments) := by
  have hRlen : (SP :: comments ++ [CR, LF]).length = comments.length + 3 := by simp
  have hscan := scan_well_formed_comments (bytes "2.0") sw (SP :: comments ++ [CR, LF])
    (by decide) (by decide) hs0 (fun x hx => ⟨(hs x hx).1, (hs x hx).2.1⟩) rfl
    (by rw [hRlen]; omega)
    (by
      rw [hRlen]
      have e : comments.length + 3 - 1 = (SP :: comments).length + 1 := by simp
      rw [e]
      have := getD_line_lf (SP :: comments)
      simp only [List.cons_append] at this ⊢
      rw [this]
      decide)
    (by
      have e : SP :: comments ++ [CR, LF] = (SP :: comments) ++ [CR, LF] := rfl
      rw [e, has_bad_dash_line, has_bad_dash_space]
      exact hd)
    (4 + (bytes "2.0").length + 1 + sw.length + (SP :: comments).length + 2)
    (by simp; omega)
  have h := receive_id_str_accepts_of_scan session env [] (bytes "2.0") sw (SP :: comments) tail
    (by simp) (by decide)
    (fun x hx => ⟨(hs x hx).2.2.2.1, (hs x hx).2.2.2.2⟩)
    (by
      intro x hx
      rcases List.mem_cons.mp hx with h | h
      · subst h; decide
      · exact ⟨(hc x h).2.1, (hc x h).2.2⟩)
    hscan
    (by
      rw [hrx, bytes_SSH2_list, bytes_SSH]
      simp [concat_lines])
    (by
      rw [bytes_SSH2_list] at hline
      rw [bytes_SSH]
      simp only [concat_lines, List.length_nil]
      simp at hline ⊢
      omega)
    (by
      rw [bytes_SSH2_list] at hline
      rw [bytes_SSH]
      simp at hline ⊢
      omega)
  rw [h]
  refine ⟨rfl, ?_⟩
  show some (bytes "SSH-" ++ bytes "2.0" ++ [UND] ++ sw ++ SP :: comments) = _
  rw [bytes_SSH2_list, bytes_SSH]

/-- Witness of C19 amended: the comments `built-in x-y -z`. -/
theorem receive_id_str_accepts_dashed_comments_witness :
    (receive_id_str session0
      (env_rx (bytes "SSH-2.0-" ++ bytes "foo" ++ SP :: bytes "built-in x-y -z" ++ [CR, LF]
        ++ []))).1 = SSH_OK
    ∧ (receive_id_str session0
      (env_rx (bytes "SSH-2.0-" ++ bytes "foo" ++ SP :: bytes "built-in x-y -z" ++ [CR, LF]
        ++ []))).2.1.server_id_str
        = some (bytes "SSH-2.0-" ++ bytes "foo" ++ SP :: bytes "built-in x-y -z") :=
  receive_id_str_accepts_dashed_comments session0
    (env_rx (bytes "SSH-2.0-" ++ bytes "foo" ++ SP :: bytes "built-in x-y -z" ++ [CR, LF]
      ++ []))
    (bytes "foo") (bytes "built-in x-y -z") [] (by decide) (by decide) (by decide) (by decide)
    rfl (by decide)

theorem find_start_le (b : List Nat) : ∀ p, find_start b p ≤ p := by
  intro p
  induction p with
  | zero => exact Nat.le_refl _
  | succ p ih =>
    unfold find_start
    split_ifs
    · exact Nat.le_refl _
    · exact Nat.le_succ_of_le ih

theorem cstring_takeWhile (line : List Nat) : ∀ (b : List Nat) (start : Nat),
    (∀ j, j < line.length → rd b (start + j) = line.getD j 0) →
    rd b (start + line.length) = 0 →
    cstring b start = line.takeWhile (fun c => decide (c ≠ 0)) := by
  induction line with
  | nil =>
    intro b start _ h0
    exact cstring_eq [] b start (fun j hj => by simp at hj) (fun x hx => by simp at hx) h0
  | cons x w ih =>
    intro b start hw h0
    have hb0 : rd b start = x := by
      have := hw 0 (by simp)
      simpa using this
    by_cases hx0 : x = 0
    · subst hx0
      rw [List.takeWhile_cons_of_neg (by simp)]
      exact cstring_eq [] b start (fun j hj => by simp at hj) (fun x hx => by simp at hx)
        (by simpa using hb0)
    · have hs : start < b.length := by
        by_contra hc
        rw [rd_ge b start (by omega)] at hb0
        exact hx0 hb0.symm
      have hrec : cstring b (start + 1) = w.takeWhile (fun c => decide (c ≠ 0)) := by
        apply ih
        · intro j hj
          have := hw (j + 1) (by simp; omega)
          rw [Nat.add_assoc, Nat.add_comm 1 j]
          simpa using this
        · have e : start + 1 + w.length = start + (x :: w).length := by simp; omega
          rw [e]; exact h0
      unfold cstring at hrec ⊢
      rw [List.drop_eq_getElem_cons hs]
      rw [rd_lt b start hs] at hb0
      rw [hb0, List.takeWhile_cons_of_pos (by simpa using hx0),
        List.takeWhile_cons_of_pos (by simpa using hx0), hrec]

/-- The outcome of the loop of `receive_id_str`: it falls out of the loop, or
it returns what the body returns at some index. -/
theorem receive_id_str_loop_cases (session : ssh_session_struct) (s : List Nat) (env : Env) :
    ∀ (n i : Nat), i + n = 256 →
      receive_id_str_loop session n i (bufAt s i) { env with socket_rx := s.drop i }
        = (SSH_ERROR, session, { env with socket_rx := s.drop 256 })
      ∨ ∃ e, i ≤ e ∧ e < 256
          ∧ receive_id_str_body session { env with socket_rx := s.drop (e + 1) }
              (bufAt s (e + 1)) e
            = some (receive_id_str_loop session n i (bufAt s i)
                { env with socket_rx := s.drop i }) := by
  intro n
  induction n with
  | zero =>
    intro i hi
    left
    have : i = 256 := by omega
    subst this
    rfl
  | succ n ih =>
    intro i hi
    rw [receive_id_str_loop]
    simp only [ssh_socket_read_bufAt s env i (by omega)]
    cases hb : receive_id_str_body session { env with socket_rx := s.drop (i + 1) }
        (bufAt s (i + 1)) i with
    | some res =>
      right
      exact ⟨i, Nat.le_refl _, by omega, hb⟩
    | none =>
      simp only []
      rcases ih (i + 1) (by omega) with h | ⟨e, h1, h2, h3⟩
      · exact Or.inl h
      · exact Or.inr ⟨e, by omega, h2, h3⟩

/-- What a return of `SSH_OK` by the body of the loop tells. -/
theorem receive_id_str_body_ok (session : ssh_session_struct) (env : Env) (b : List Nat)
    (e : Nat) (res : Int × ssh_session_struct × Env)
    (h : receive_id_str_body session env b e = some res) (hok : res.1 = SSH_OK) :
    e ≠ 0 ∧ rd b e = LF ∧ rd b (e - 1) = CR ∧ find_start b (e - 1) + 3 ≤ e
    ∧ res.2.2 = env
    ∧ res.2.1.server_id_str
        = some (cstring (b.set (find_start b (e - 1) + (e - find_start b (e - 1) + 1 - 2)) 0)
            (find_start b (e - 1))) := by
  unfold receive_id_str_body at h
  by_cases h1 : e = 0 ∨ rd b e ≠ LF ∨ rd b (e - 1) ≠ CR
  · rw [if_pos h1] at h
    exact absurd h (by simp)
  · rw [if_neg h1] at h
    push_neg at h1
    simp only [] at h
    by_cases h2 : e - find_start b (e - 1) + 1 ≤ 3 ∨ e - find_start b (e - 1) + 1 + 1 > 255
    · rw [if_pos h2] at h
      exact absurd h (by simp)
    · rw [if_neg h2] at h
      split_ifs at h with h3 h4
      · simp only [Option.some.injEq] at h
        rw [← h] at hok
        have hne : SSH_ERROR ≠ SSH_OK := by decide
        exact absurd hok hne
      · simp only [Option.some.injEq] at h
        have hle := find_start_le b (e - 1)
        refine ⟨h1.1, h1.2.1, h1.2.2, by omega, ?_, ?_⟩
        · rw [← h]
        · rw [← h]

theorem getD_drop (l : List Nat) (k j : Nat) : (l.drop k).getD j 0 = l.getD (k + j) 0 := by
  simp [List.getD_eq_getElem?_getD, List.getElem?_drop]

theorem getD_lt_of_ne_zero (l : List Nat) (k : Nat) (h : l.getD k 0 ≠ 0) : k < l.length := by
  by_contra hc
  apply h
  simp [List.getD_eq_getElem?_getD, List.getElem?_eq_none (Nat.le_of_not_lt hc)]

theorem split_at_crlf (s : List Nat) (e : Nat) (h1 : 1 ≤ e) (hlf : s.getD e 0 = LF)
    (hcr : s.getD (e - 1) 0 = CR) :
    s = s.take (e - 1) ++ [CR, LF] ++ s.drop (e + 1) := by
  have he : e < s.length := getD_lt_of_ne_zero s e (by rw [hlf]; decide)
  have he1 : e - 1 < s.length := by omega
  have hlf2 : s[e] = LF := by
    rw [← hlf]; simp [List.getD_eq_getElem?_getD, List.getElem?_eq_getElem he]
  have hcr2 : s[e - 1] = CR := by
    rw [← hcr]; simp [List.getD_eq_getElem?_getD, List.getElem?_eq_getElem he1]
  have d1 : s.drop (e - 1) = s[e - 1] :: s.drop (e - 1 + 1) := List.drop_eq_getElem_cons he1
  have e2 : e - 1 + 1 = e := by omega
  rw [e2] at d1
  have d2 : s.drop e = s[e] :: s.drop (e + 1) := List.drop_eq_getElem_cons he
  rw [d2, hlf2, hcr2] at d1
  calc s = s.take (e - 1) ++ s.drop (e - 1) := (List.take_append_drop _ _).symm
    _ = s.take (e - 1) ++ (CR :: LF :: s.drop (e + 1)) := by rw [d1]
    _ = s.take (e - 1) ++ [CR, LF] ++ s.drop (e + 1) := by simp

/-- C20: whenever `receive_id_str` returns `SSH_OK`, the stream splits into
the bytes consumed, which are at most 256 and end with the stored
identification line (stored up to its first NUL) and its CR LF, and the bytes
left on the socket, which start right after that LF. -/
theorem receive_id_str_consumes_line (session : ssh_session_struct) (env : Env)
    (hok : (receive_id_str session env).1 = SSH_OK) :
    ∃ pre line,
      env.socket_rx = pre ++ line ++ [CR, LF] ++ (receive_id_str session env).2.2.socket_rx
      ∧ (pre ++ line ++ [CR, LF]).length ≤ 256
      ∧ (receive_id_str session env).2.1.server_id_str
          = some (line.takeWhile (fun c => decide (c ≠ 0))) := by
  have hne : SSH_ERROR ≠ SSH_OK := by decide
  generalize hs : env.socket_rx = s
  have hrun : receive_id_str session env
      = receive_id_str_loop session 256 0 (bufAt s 0) { env with socket_rx := s.drop 0 } := by
    unfold receive_id_str
    rw [← bufAt_zero s, ← env_rx_eq env s hs]
  rw [hrun] at hok ⊢
  rcases receive_id_str_loop_cases session s env 256 0 (by omega) with h | ⟨e, _, he, hbody⟩
  · rw [h] at hok
    exact absurd hok hne
  · generalize receive_id_str_loop session 256 0 (bufAt s 0) { env with socket_rx := s.drop 0 }
      = res at hok hbody ⊢
    obtain ⟨he0, hlf, hcr, hstr, henv, hid⟩ :=
      receive_id_str_body_ok session _ _ e res hbody hok
    generalize hstrd : find_start (bufAt s (e + 1)) (e - 1) = str at hstr hid
    rw [rd_bufAt_lt _ _ _ (by omega) he] at hlf
    rw [rd_bufAt_lt _ _ _ (by omega) (by omega)] at hcr
    have hlen : e < s.length := getD_lt_of_ne_zero s e (by rw [hlf]; decide)
    have hsplit := split_at_crlf s e (by omega) hlf hcr
    have hXlen : (s.take (e - 1)).length = e - 1 := by
      rw [List.length_take]; omega
    refine ⟨(s.take (e - 1)).take str, (s.take (e - 1)).drop str, ?_, ?_, ?_⟩
    · rw [henv, List.take_append_drop]
      exact hsplit
    · rw [List.take_append_drop]
      simp only [List.length_append, hXlen, List.length_cons, List.length_nil]
      omega
    · rw [hid]
      congr 1
      have hll : ((s.take (e - 1)).drop str).length = e - 1 - str := by
        rw [List.length_drop, hXlen]
      apply cstring_takeWhile
      · intro j hj
        rw [hll] at hj
        rw [rd_set, if_neg (by omega), rd_bufAt_lt _ _ _ (by omega) (by omega), getD_drop,
          getD_take _ _ _ (by omega)]
      · rw [hll, rd_set, if_pos ⟨by omega, by rw [bufAt_length]; omega⟩]

/-- Witness of C20: the first byte of the packet after the line is still unread. -/
theorem receive_id_str_consumes_line_witness :
    ∃ pre line,
      (env_rx (bytes "hello\r\nSSH-2.0-foo\r\n" ++ [0, 0, 1, 44])).socket_rx
        = pre ++ line ++ [CR, LF]
          ++ (receive_id_str session0
              (env_rx (bytes "hello\r\nSSH-2.0-foo\r\n" ++ [0, 0, 1, 44]))).2.2.socket_rx
      ∧ (pre ++ line ++ [CR, LF]).length ≤ 256
      ∧ (receive_id_str session0
          (env_rx (bytes "hello\r\nSSH-2.0-foo\r\n" ++ [0, 0, 1, 44]))).2.1.server_id_str
          = some (line.takeWhile (fun c => decide (c ≠ 0))) :=
  receive_id_str_consumes_line session0
    (env_rx (bytes "hello\r\nSSH-2.0-foo\r\n" ++ [0, 0, 1, 44])) (by decide)

/-! ## Connection set-up: the return codes of the steps -/

/-- The bytes of the request packed by `ssh_userauth_password`. -/
theorem userauth_request_bytes (session : ssh_session_struct) (password : List Nat) :
    pack_bytes (userauth_request session password)
      = [SSH_MSG_USERAUTH_REQUEST] ++ u32_bytes session.opts.username.length
          ++ session.opts.username ++ [0, 0, 0, 14] ++ bytes "ssh-connection"
          ++ [0, 0, 0, 8] ++ bytes "password" ++ [0] ++ u32_bytes password.length
          ++ password := by
  have h1 : u32_bytes (bytes "ssh-connection").length = [0, 0, 0, 14] := by decide
  have h2 : u32_bytes (bytes "password").length = [0, 0, 0, 8] := by decide
  simp only [userauth_request, pack_bytes, h1, h2]
  simp

/-- One pass of the loop on a failure short of the retry bound, the pointer
`retry_password` valid and the packing and sending succeeding: the counter
moves by one, the prompt is run and the request for the password the call was
given is sent again. -/
theorem userauth_loop_failure_step (password : List Nat) (n : Nat) (ty t : Nat) (b : List Nat)
    (rest : List (Int × List Nat)) (session : ssh_session_struct) (env : Env)
    (hrx : env.packets_rx = (SSH_OK, t :: b) :: rest)
    (ht : t = SSH_MSG_USERAUTH_FAILURE ∨ t = SSH_MSG_USERAUTH_PASSWD_CHANGEREQ)
    (hcnt : env.cnt + 1 ≠ 3)
    (hpack : ∀ k, env.pack_rc k = SSH_OK) (hsend : ∀ k, env.send_rc k = SSH_OK) :
    ∃ session1 env1,
      ssh_userauth_password_loop password true (n + 1) SSH_OK ty session env
        = ssh_userauth_password_loop password true n SSH_OK t session1 env1
      ∧ session1.out_buffer = [] ∧ session1.opts = session.opts
      ∧ env1.cnt = env.cnt + 1 ∧ env1.packets_rx = rest
      ∧ env1.packets_tx
          = env.packets_tx ++ [session.out_buffer ++ pack_bytes (userauth_request session password)]
      ∧ env1.pack_rc = env.pack_rc ∧ env1.send_rc = env.send_rc ∧ env1.error = env.error
      ∧ env1.n_send = env.n_send + 1 := by
  obtain ⟨sin, sout, hp⟩ := ssh_get_password_env
    (print { env with packets_rx := rest, cnt := env.cnt + 1 }
      (bytes "Wrong passwd, tried " ++ bytes (toString (env.cnt + 1)) ++ bytes " time(s)\n"))
  have hne : SSH_OK ≠ SSH_ERROR := by decide
  have htb : t ≠ SSH_MSG_USERAUTH_BANNER := by
    rcases ht with h | h <;> rw [h] <;> decide
  have hts : t ≠ SSH_MSG_USERAUTH_SUCCESS := by
    rcases ht with h | h <;> rw [h] <;> decide
  have htf : t = SSH_MSG_USERAUTH_PASSWD_CHANGEREQ ∨ t = SSH_MSG_USERAUTH_FAILURE := ht.symm
  have hw : ¬ (true = false) := by decide
  refine ⟨{ session with in_buffer := b, out_buffer := [] },
    { env with packets_rx := rest, cnt := env.cnt + 1, stdin := sin, stdout := sout,
               n_pack := env.n_pack + 1, n_send := env.n_send + 1,
               packets_tx := env.packets_tx
                 ++ [session.out_buffer ++ pack_bytes (userauth_request session password)] },
    ?_, ?_⟩
  · rw [ssh_userauth_password_loop]
    simp only [ssh_packet_receive, hrx, ssh_buffer_get_u8, if_neg hne, if_true, ne_eq,
      not_true_eq_false, if_false, if_neg htb, if_neg hts, if_pos htf, print, if_neg hcnt,
      if_neg hw, ssh_buffer_pack, ssh_packet_send]
    simp only [print] at hp
    rw [hp]
    simp only [hpack, hsend, if_true, ne_eq, not_true_eq_false, if_false, print]
    rfl
  · simp

/-- A failure short of the retry bound, with the pointer `retry_password` not
valid: the process is killed at the prompt. -/
theorem userauth_loop_failure_killed (password : List Nat) (n : Nat) (ty t : Nat)
    (b : List Nat) (rest : List (Int × List Nat)) (session : ssh_session_struct) (env : Env)
    (hrx : env.packets_rx = (SSH_OK, t :: b) :: rest)
    (ht : t = SSH_MSG_USERAUTH_FAILURE ∨ t = SSH_MSG_USERAUTH_PASSWD_CHANGEREQ)
    (hcnt : env.cnt + 1 ≠ 3) :
    ssh_userauth_password_loop password false (n + 1) SSH_OK ty session env
      = userauth_outcome.killed
          (ssh_get_password_fault
            (print { env with packets_rx := rest, cnt := env.cnt + 1 }
              (bytes "Wrong passwd, tried " ++ bytes (toString (env.cnt + 1))
                ++ bytes " time(s)\n"))) := by
  have hne : SSH_OK ≠ SSH_ERROR := by decide
  have htb : t ≠ SSH_MSG_USERAUTH_BANNER := by
    rcases ht with h | h <;> rw [h] <;> decide
  have hts : t ≠ SSH_MSG_USERAUTH_SUCCESS := by
    rcases ht with h | h <;> rw [h] <;> decide
  have htf : t = SSH_MSG_USERAUTH_PASSWD_CHANGEREQ ∨ t = SSH_MSG_USERAUTH_FAILURE := ht.symm
  rw [ssh_userauth_password_loop]
  simp only [ssh_packet_receive, hrx, ssh_buffer_get_u8, if_neg hne, if_true, ne_eq,
    not_true_eq_false, if_false, if_neg htb, if_neg hts, if_pos htf, print, if_neg hcnt]

/-- One pass of the loop on the failure that brings the counter to 3: the
function returns `SSH_AGAIN` with the error recorded, whatever the pointer
`retry_password` holds, and sends nothing. -/
theorem userauth_loop_exhausted (password : List Nat) (w : Bool) (n : Nat) (ty t : Nat)
    (b : List Nat)
    (rest : List (Int × List Nat)) (session : ssh_session_struct) (env : Env)
    (hrx : env.packets_rx = (SSH_OK, t :: b) :: rest)
    (ht : t = SSH_MSG_USERAUTH_FAILURE ∨ t = SSH_MSG_USERAUTH_PASSWD_CHANGEREQ)
    (hcnt : env.cnt + 1 = 3) :
    ssh_userauth_password_loop password w (n + 1) SSH_OK ty session env
      = userauth_outcome.returned (SSH_AGAIN, { session with in_buffer := b },
          ssh_set_error
            (print { env with packets_rx := rest, cnt := env.cnt + 1 }
              (bytes "Wrong passwd, tried " ++ bytes (toString (env.cnt + 1))
                ++ bytes " time(s)\n"))
            SSH_FATAL "Try too many times, connection failed!\n") := by
  have hne : SSH_OK ≠ SSH_ERROR := by decide
  have htb : t ≠ SSH_MSG_USERAUTH_BANNER := by
    rcases ht with h | h <;> rw [h] <;> decide
  have hts : t ≠ SSH_MSG_USERAUTH_SUCCESS := by
    rcases ht with h | h <;> rw [h] <;> decide
  have htf : t = SSH_MSG_USERAUTH_PASSWD_CHANGEREQ ∨ t = SSH_MSG_USERAUTH_FAILURE := ht.symm
  rw [ssh_userauth_password_loop]
  simp only [ssh_packet_receive, hrx, ssh_buffer_get_u8, if_neg hne, if_true, ne_eq,
    not_true_eq_false, if_false, if_neg htb, if_neg hts, if_pos htf, print, if_pos hcnt]

/-- The first request of `ssh_userauth_password`, packed and sent with
success, and the entry into the loop. -/
theorem userauth_start (session : ssh_session_struct) (env : Env) (password : List Nat)
    (type0 : Nat) (w : Bool) (hpack : env.pack_rc env.n_pack = SSH_OK)
    (hsend : env.send_rc env.n_send = SSH_OK) :
    ssh_userauth_password session env password type0 w
      = ssh_userauth_password_loop password w (env.packets_rx.length + 1) SSH_OK type0
          { session with out_buffer := [] }
          { env with n_pack := env.n_pack + 1, n_send := env.n_send + 1,
                     packets_tx := env.packets_tx
                       ++ [session.out_buffer ++ pack_bytes (userauth_request session password)] } := by
  simp only [ssh_userauth_password, ssh_buffer_pack, ssh_packet_send, hpack, hsend, if_true,
    ne_eq, not_true_eq_false, if_false]

/-- One pass of the loop on a message of another type: the `default` case
followed by the label `error`. -/
theorem userauth_loop_unexpected (password : List Nat) (w : Bool) (n : Nat) (ty t : Nat)
    (b : List Nat)
    (rest : List (Int × List Nat)) (session : ssh_session_struct) (env : Env)
    (hrx : env.packets_rx = (SSH_OK, t :: b) :: rest)
    (ht : t ≠ SSH_MSG_USERAUTH_BANNER ∧ t ≠ SSH_MSG_USERAUTH_SUCCESS
      ∧ t ≠ SSH_MSG_USERAUTH_FAILURE ∧ t ≠ SSH_MSG_USERAUTH_PASSWD_CHANGEREQ) :
    ssh_userauth_password_loop password w (n + 1) SSH_OK ty session env
      = userauth_outcome.returned (SSH_ERROR, { session with in_buffer := b, out_buffer := [] },
          ssh_set_error { env with packets_rx := rest } SSH_FATAL
            "Unexpected server behavior!\n") := by
  have hne : SSH_OK ≠ SSH_ERROR := by decide
  have htf : ¬ (t = SSH_MSG_USERAUTH_PASSWD_CHANGEREQ ∨ t = SSH_MSG_USERAUTH_FAILURE) := by
    rintro (h | h)
    · exact ht.2.2.2 h
    · exact ht.2.2.1 h
  rw [ssh_userauth_password_loop]
  simp only [ssh_packet_receive, hrx, ssh_buffer_get_u8, if_neg hne, if_true, ne_eq,
    not_true_eq_false, if_false, if_neg ht.1, if_neg ht.2.1, if_neg htf, userauth_error]

/-- With the pointer `retry_password` valid, the retry counter at 0 and the
packing and sending of requests succeeding, three failures in a row end the
call with `SSH_AGAIN` after three requests. -/
theorem userauth_three_failures_valid_pointer (session : ssh_session_struct) (env : Env)
    (password : List Nat) (type0 t1 t2 t3 : Nat) (b1 b2 b3 : List Nat)
    (rest : List (Int × List Nat))
    (hcnt : env.cnt = 0)
    (hpack : ∀ k, env.pack_rc k = SSH_OK) (hsend : ∀ k, env.send_rc k = SSH_OK)
    (hrx : env.packets_rx = (SSH_OK, t1 :: b1) :: (SSH_OK, t2 :: b2) :: (SSH_OK, t3 :: b3) :: rest)
    (h1 : t1 = SSH_MSG_USERAUTH_FAILURE ∨ t1 = SSH_MSG_USERAUTH_PASSWD_CHANGEREQ)
    (h2 : t2 = SSH_MSG_USERAUTH_FAILURE ∨ t2 = SSH_MSG_USERAUTH_PASSWD_CHANGEREQ)
    (h3 : t3 = SSH_MSG_USERAUTH_FAILURE ∨ t3 = SSH_MSG_USERAUTH_PASSWD_CHANGEREQ) :
    (ssh_userauth_password session env password type0 true).rc = some SSH_AGAIN
    ∧ (ssh_userauth_password session env password type0 true).env.error
        = some (SSH_FATAL, "Try too many times, connection failed!\n")
    ∧ (ssh_userauth_password session env password type0 true).env.cnt = 3
    ∧ (ssh_userauth_password session env password type0 true).env.packets_tx
        = env.packets_tx ++
          [session.out_buffer ++ pack_bytes (userauth_request session password),
           pack_bytes (userauth_request session password),
           pack_bytes (userauth_request session password)]
    ∧ (ssh_userauth_password session env password type0 true).env.n_send = env.n_send + 3
    ∧ (ssh_userauth_password session env password type0 true).env.packets_rx = rest := by
  have hlen : env.packets_rx.length + 1 = rest.length + 3 + 1 := by rw [hrx]; rfl
  rw [userauth_start session env password type0 true (hpack _) (hsend _), hlen]
  obtain ⟨s1, e1, heq1, hob1, hopt1, hc1, hrx1, htx1, hp1, hs1, he1, hn1⟩ :=
    userauth_loop_failure_step password (rest.length + 3) type0 t1 b1
      ((SSH_OK, t2 :: b2) :: (SSH_OK, t3 :: b3) :: rest)
      { session with out_buffer := [] }
      { env with n_pack := env.n_pack + 1, n_send := env.n_send + 1,
                 packets_tx := env.packets_tx
                   ++ [session.out_buffer ++ pack_bytes (userauth_request session password)] }
      hrx h1 (by simp [hcnt]) hpack hsend
  obtain ⟨s2, e2, heq2, hob2, hopt2, hc2, hrx2, htx2, hp2, hs2, he2, hn2⟩ :=
    userauth_loop_failure_step password (rest.length + 2) t1 t2 b2
      ((SSH_OK, t3 :: b3) :: rest) s1 e1 hrx1 h2 (by simp [hc1, hcnt])
      (by intro k; rw [hp1]; exact hpack k) (by intro k; rw [hs1]; exact hsend k)
  have heq3 := userauth_loop_exhausted password true (rest.length + 1) t2 t3 b3 rest s2 e2
    hrx2 h3 (by simp [hc2, hc1, hcnt])
  rw [heq1.trans (heq2.trans heq3)]
  simp only [userauth_outcome.rc, userauth_outcome.env, ssh_set_error, print, hc2, hc1, hcnt,
    htx2, htx1, hn2, hn1, hob1, hob2]
  simp [userauth_request, hopt1]

/-- C2, evaluation at the failing input: answered by a banner and then a
failure, `ssh_userauth_password` prints the banner and returns `SSH_OK` at
once; the failure is never read.  The path does not reach the retry prompt, so
the outcome is the same whatever the pointer `retry_password` holds. -/
theorem ssh_userauth_password_banner_falls_through (w : Bool) :
    (ssh_userauth_password session0
        (env_pk [pkt banner_welcome, pkt [SSH_MSG_USERAUTH_FAILURE]]) (bytes "pw") 0 w).rc
        = some SSH_OK
    ∧ (ssh_userauth_password session0
        (env_pk [pkt banner_welcome, pkt [SSH_MSG_USERAUTH_FAILURE]]) (bytes "pw") 0 w).env.packets_rx
        = [pkt [SSH_MSG_USERAUTH_FAILURE]]
    ∧ (ssh_userauth_password session0
        (env_pk [pkt banner_welcome, pkt [SSH_MSG_USERAUTH_FAILURE]]) (bytes "pw") 0 w).env.stdout
        = bytes "Welcome\n" := by
  cases w <;> decide

/-- C3, evaluation at the failing input: the retry counter at 0, the server
answering with three failures and the unassigned pointer `retry_password` not
valid, the call does not return: after the first failure the process is killed
at the retry prompt, having sent one request only, with the counter at 1, no
error recorded and the two other failures unread. -/
theorem ssh_userauth_password_three_failures_killed :
    (ssh_userauth_password session0 (env_pk [failure_pkt, failure_pkt, failure_pkt])
        (bytes "wrong") 0 false).rc = none
    ∧ (ssh_userauth_password session0 (env_pk [failure_pkt, failure_pkt, failure_pkt])
        (bytes "wrong") 0 false).env.packets_tx = [request_wrong]
    ∧ (ssh_userauth_password session0 (env_pk [failure_pkt, failure_pkt, failure_pkt])
        (bytes "wrong") 0 false).env.cnt = 1
    ∧ (ssh_userauth_password session0 (env_pk [failure_pkt, failure_pkt, failure_pkt])
        (bytes "wrong") 0 false).env.error = none
    ∧ (ssh_userauth_password session0 (env_pk [failure_pkt, failure_pkt, failure_pkt])
        (bytes "wrong") 0 false).env.packets_rx = [failure_pkt, failure_pkt]
    ∧ (ssh_userauth_password session0 (env_pk [failure_pkt, failure_pkt, failure_pkt])
        (bytes "wrong") 0 false).env.stdout = bytes "Wrong passwd, tried 1 time(s)\npassword: " := by
  decide

/-- C4, evaluation at the failing input, the pointer `retry_password`
happening to be valid: a call answered by three failures returns `SSH_AGAIN`
and leaves the static counter at 3; the next call, answered by four failures
and a success, sends five requests and returns `SSH_OK`. -/
theorem ssh_userauth_password_static_cnt_persists :
    (ssh_userauth_password session0 (env_pk [failure_pkt, failure_pkt, failure_pkt])
        (bytes "pw") 0 true).rc = some SSH_AGAIN
    ∧ env_after_exhaustion.cnt = 3
    ∧ (ssh_userauth_password session0
        { env_after_exhaustion with
            packets_rx := [failure_pkt, failure_pkt, failure_pkt, failure_pkt, success_pkt],
            packets_tx := [] }
        (bytes "wrong") 0 true).rc = some SSH_OK
    ∧ (ssh_userauth_password session0
        { env_after_exhaustion with
            packets_rx := [failure_pkt, failure_pkt, failure_pkt, failure_pkt, success_pkt],
            packets_tx := [] }
        (bytes "wrong") 0 true).env.packets_tx
        = [request_wrong, request_wrong, request_wrong, request_wrong, request_wrong]
    ∧ (ssh_userauth_password session0
        { env_after_exhaustion with
            packets_rx := [failure_pkt, failure_pkt, failure_pkt, failure_pkt, success_pkt],
            packets_tx := [] }
        (bytes "wrong") 0 true).env.cnt = 7 := by
  decide

/-- C10, evaluation at the failing input: after a failure the user types
`right` at the prompt.  With the pointer `retry_password` valid, the second
request again carries the password `wrong` the call was given; with the
pointer not valid, the process is killed at the prompt and no second request
is sent at all. -/
theorem ssh_userauth_password_retry_sends_original :
    (ssh_get_password { env0 with stdin := bytes "right\n" }).1 = bytes "right"
    ∧ (ssh_userauth_password session0
        { env_pk [failure_pkt, success_pkt] with stdin := bytes "right\n" }
        (bytes "wrong") 0 true).rc = some SSH_OK
    ∧ (ssh_userauth_password session0
        { env_pk [failure_pkt, success_pkt] with stdin := bytes "right\n" }
        (bytes "wrong") 0 true).env.packets_tx = [request_wrong, request_wrong]
    ∧ (ssh_userauth_password session0
        { env_pk [failure_pkt, success_pkt] with stdin := bytes "right\n" }
        (bytes "wrong") 0 true).env.stdin = []
    ∧ (ssh_userauth_password session0
        { env_pk [failure_pkt, success_pkt] with stdin := bytes "right\n" }
        (bytes "wrong") 0 false).rc = none
    ∧ (ssh_userauth_password session0
        { env_pk [failure_pkt, success_pkt] with stdin := bytes "right\n" }
        (bytes "wrong") 0 false).env.packets_tx = [request_wrong] := by
  decide

/-- C11: in every pass of the loop of `ssh_userauth_password`, whatever the
session, the environment and the pointer `retry_password`, a received message
whose type is none of `USERAUTH_BANNER`, `USERAUTH_SUCCESS`,
`USERAUTH_FAILURE`, `USERAUTH_PASSWD_CHANGEREQ` makes the function return
`SSH_ERROR` with the `SSH_FATAL` error recorded and the out-buffer, whatever
it held, emptied; the environment is otherwise the one before the pass less
the packet read, so nothing is packed or sent and the retry counter stays.
When this message is the first answer and the first request is packed and
sent, the call as a whole returns so, having sent that one request: the
out-buffer followed by the byte 50, the user name, `ssh-connection`,
`password`, the byte 0 and the password, each string after its length. -/
theorem ssh_userauth_password_unexpected_message (password : List Nat) (w : Bool)
    (n ty t : Nat) (b : List Nat) (rest : List (Int × List Nat))
    (session : ssh_session_struct) (env : Env)
    (hrx : env.packets_rx = (SSH_OK, t :: b) :: rest)
    (ht : t ≠ SSH_MSG_USERAUTH_BANNER ∧ t ≠ SSH_MSG_USERAUTH_SUCCESS
      ∧ t ≠ SSH_MSG_USERAUTH_FAILURE ∧ t ≠ SSH_MSG_USERAUTH_PASSWD_CHANGEREQ) :
    ssh_userauth_password_loop password w (n + 1) SSH_OK ty session env
      = userauth_outcome.returned
          (SSH_ERROR, { session with in_buffer := b, out_buffer := [] },
            { env with packets_rx := rest,
                       error := some (SSH_FATAL, "Unexpected server behavior!\n") })
    ∧ (env.pack_rc env.n_pack = SSH_OK → env.send_rc env.n_send = SSH_OK →
        ssh_userauth_password session env password ty w
          = userauth_outcome.returned
              (SSH_ERROR, { session with in_buffer := b, out_buffer := [] },
                { env with
                    packets_rx := rest,
                    error := some (SSH_FATAL, "Unexpected server behavior!\n"),
                    n_pack := env.n_pack + 1, n_send := env.n_send + 1,
                    packets_tx := env.packets_tx ++
                      [session.out_buffer ++ [50] ++ u32_bytes session.opts.username.length
                        ++ session.opts.username ++ [0, 0, 0, 14] ++ bytes "ssh-connection"
                        ++ [0, 0, 0, 8] ++ bytes "password" ++ [0]
                        ++ u32_bytes password.length ++ password] })) := by
  refine ⟨?_, ?_⟩
  · rw [userauth_loop_unexpected password w n ty t b rest session env hrx ht]
    rfl
  · intro hpack hsend
    rw [userauth_start session env password ty w hpack hsend]
    have h := userauth_loop_unexpected password w env.packets_rx.length ty t b rest
      { session with out_buffer := [] }
      { env with n_pack := env.n_pack + 1, n_send := env.n_send + 1,
                 packets_tx := env.packets_tx
                   ++ [session.out_buffer ++ pack_bytes (userauth_request session password)] }
      hrx ht
    rw [h, userauth_request_bytes]
    simp [ssh_set_error, SSH_MSG_USERAUTH_REQUEST]

/-- Witness of C11: a message of type 99 as the first answer, the pointer
`retry_password` not valid, and the same message met in a pass of the loop
that starts with bytes left in the out-buffer. -/
theorem ssh_userauth_password_unexpected_message_witness :
    (SSH_OK, [99, 5]) :: [success_pkt] = (SSH_OK, 99 :: [5]) :: [success_pkt]
    ∧ (ssh_userauth_password_loop (bytes "wrong") false 1 SSH_OK 0
          { session0 with out_buffer := [7, 7] } (env_pk [pkt [99, 5], success_pkt])).session
        = some { session0 with in_buffer := [5], out_buffer := [] }
    ∧ (ssh_userauth_password session0 (env_pk [pkt [99, 5], success_pkt])
          (bytes "wrong") 0 false).rc = some SSH_ERROR
    ∧ (ssh_userauth_password session0 (env_pk [pkt [99, 5], success_pkt])
          (bytes "wrong") 0 false).env.packets_tx = [request_wrong] :=
  have h1 := ssh_userauth_password_unexpected_message (bytes "wrong") false 0 0 99 [5]
    [success_pkt] { session0 with out_buffer := [7, 7] } (env_pk [pkt [99, 5], success_pkt])
    rfl (by decide)
  have h2 := ssh_userauth_password_unexpected_message (bytes "wrong") false 0 0 99 [5]
    [success_pkt] session0 (env_pk [pkt [99, 5], success_pkt]) rfl (by decide)
  ⟨rfl, by rw [h1.1]; rfl, by rw [h2.2 rfl rfl]; rfl, by rw [h2.2 rfl rfl]; rfl⟩

/-- Receiving a packet transmits nothing. -/
theorem ssh_packet_receive_packets_tx (session : ssh_session_struct) (env : Env) :
    (ssh_packet_receive session env).2.2.packets_tx = env.packets_tx := by
  unfold ssh_packet_receive
  split
  · rfl
  · split_ifs <;> rfl

/-- What `ssh_request_auth` has transmitted is what its one call of
`ssh_packet_send` has. -/
theorem ssh_request_auth_packets_tx (session : ssh_session_struct) (env : Env) :
    (ssh_request_auth session env).2.2.packets_tx
      = (ssh_packet_send
          (ssh_buffer_pack session env
            [pack_arg.b SSH_MSG_SERVICE_REQUEST, pack_arg.s (bytes "ssh-userauth")]).2.1
          (ssh_buffer_pack session env
            [pack_arg.b SSH_MSG_SERVICE_REQUEST, pack_arg.s (bytes "ssh-userauth")]).2.2).2.2.packets_tx := by
  unfold ssh_request_auth
  simp only []
  generalize ssh_buffer_pack session env
    [pack_arg.b SSH_MSG_SERVICE_REQUEST, pack_arg.s (bytes "ssh-userauth")] = r1
  generalize hr2 : ssh_packet_send r1.2.1 r1.2.2 = r2
  have f3 := ssh_packet_receive_packets_tx r2.2.1 r2.2.2
  generalize ssh_packet_receive r2.2.1 r2.2.2 = r3 at f3
  split_ifs with h1 h2
  · rfl
  · exact f3
  · cases hu : ssh_buffer_unpack_bs r3.2.1.in_buffer with
    | none => exact f3
    | some r =>
      obtain ⟨ty, service, extra⟩ := r
      simp only []
      split_ifs <;> exact f3

/-- C12, counterexample: a `SERVICE_ACCEPT` whose service name is the 16 bytes
`ssh-userauth`, NUL, `xyz` is a reply with a different service name, and
`ssh_request_auth` returns `SSH_OK` on it. -/
theorem ssh_request_auth_nul_name_counterexample :
    (ssh_request_auth session0 (env_pk [service_accept_nul_pkt])).1 = SSH_OK
    ∧ ssh_buffer_unpack_bs service_accept_nul_pkt.2
        = some (SSH_MSG_SERVICE_ACCEPT, bytes "ssh-userauth" ++ [0] ++ bytes "xyz", [])
    ∧ bytes "ssh-userauth" ++ [0] ++ bytes "xyz" ≠ bytes "ssh-userauth" := by
  decide

/-- C12, amended: `ssh_request_auth` returns `SSH_OK` exactly when the packing
and the sending of the `SERVICE_REQUEST` both return `SSH_OK`, a packet is
received with `SSH_OK`, and its payload unpacks (format `bs`) as the type
`SSH_MSG_SERVICE_ACCEPT` and a service name that is `ssh-userauth` up to its
first NUL byte (the name is compared as a C string); on every other reply the
return code is not `SSH_OK`.  When the packing and the sending succeed, one
packet is sent: the out-buffer followed by the byte 5, the length 12 and
`ssh-userauth`; when either fails, the reply is not read. -/
theorem ssh_request_auth_ok_iff (session : ssh_session_struct) (env : Env) :
    ((ssh_request_auth session env).1 = SSH_OK ↔
      (env.pack_rc env.n_pack = SSH_OK ∧ env.send_rc env.n_send = SSH_OK
        ∧ ∃ payload rest service extra,
            env.packets_rx = (SSH_OK, payload) :: rest
            ∧ ssh_buffer_unpack_bs payload = some (SSH_MSG_SERVICE_ACCEPT, service, extra)
            ∧ service.takeWhile (fun c => decide (c ≠ 0)) = bytes "ssh-userauth"))
    ∧ (env.pack_rc env.n_pack = SSH_OK → env.send_rc env.n_send = SSH_OK →
        (ssh_request_auth session env).2.2.packets_tx
          = env.packets_tx ++ [session.out_buffer ++ [5, 0, 0, 0, 12] ++ bytes "ssh-userauth"])
    ∧ (¬ (env.pack_rc env.n_pack = SSH_OK ∧ env.send_rc env.n_send = SSH_OK) →
        (ssh_request_auth session env).2.2.packets_rx = env.packets_rx) := by
  have hne : SSH_ERROR ≠ SSH_OK := by decide
  refine ⟨?_, ?_, ?_⟩
  · unfold ssh_request_auth
    simp only []
    generalize hr1 : ssh_buffer_pack session env
      [pack_arg.b SSH_MSG_SERVICE_REQUEST, pack_arg.s (bytes "ssh-userauth")] = r1
    have f1 := ssh_buffer_pack_fields session env
      [pack_arg.b SSH_MSG_SERVICE_REQUEST, pack_arg.s (bytes "ssh-userauth")]
    rw [hr1] at f1
    generalize hr2 : ssh_packet_send r1.2.1 r1.2.2 = r2
    have f2 := ssh_packet_send_fields r1.2.1 r1.2.2
    rw [hr2, f1.2.1, f1.2.2.1, f1.2.2.2] at f2
    by_cases hl : Int.lor r1.1 r2.1 ≠ SSH_OK
    · rw [if_pos hl]
      constructor
      · intro h; exact absurd h hl
      · rintro ⟨h1, h2, _⟩
        exfalso
        apply hl
        rw [f1.1, f2.1, h1, h2]
        rfl
    · rw [if_neg hl]
      have hl0 : Int.lor r1.1 r2.1 = 0 := by
        by_contra h
        exact hl h
      have hz := (int_lor_eq_zero _ _).mp hl0
      rw [f1.1, f2.1] at hz
      generalize hr3 : ssh_packet_receive r2.2.1 r2.2.2 = r3
      have f3 := ssh_packet_receive_cases r2.2.1 r2.2.2
      rw [hr3, f2.2] at f3
      rcases f3 with ⟨h3, hno⟩ | ⟨p, rest, hrx, h3, hin⟩
      · rw [if_pos h3]
        constructor
        · intro h; exact absurd h h3
        · rintro ⟨_, _, p, rest, _, _, h, _⟩
          exact absurd h (hno p rest)
      · rw [if_neg (by rw [h3]; exact fun h => h rfl), hin]
        cases hu : ssh_buffer_unpack_bs p with
        | none =>
          simp only []
          constructor
          · intro h; exact absurd h hne
          · rintro ⟨_, _, p1, rest1, sv, ex, h, hup, _⟩
            rw [hrx] at h
            simp only [List.cons.injEq, Prod.mk.injEq, true_and] at h
            rw [← h.1, hu] at hup
            exact absurd hup (by simp)
        | some r =>
          obtain ⟨ty, service, extra⟩ := r
          simp only []
          by_cases hc : ty ≠ SSH_MSG_SERVICE_ACCEPT
              ∨ service.takeWhile (fun c => decide (c ≠ 0)) ≠ bytes "ssh-userauth"
          · rw [if_pos hc]
            constructor
            · intro h; exact absurd h hne
            · rintro ⟨_, _, p1, rest1, sv, ex, h, hup, hsv⟩
              rw [hrx] at h
              simp only [List.cons.injEq, Prod.mk.injEq, true_and] at h
              rw [← h.1, hu] at hup
              simp only [Option.some.injEq, Prod.mk.injEq] at hup
              exfalso
              rcases hc with hc | hc
              · exact hc hup.1
              · rw [hup.2.1] at hc
                exact hc hsv
          · rw [if_neg hc]
            push_neg at hc
            constructor
            · intro _
              exact ⟨hz.1, hz.2, p, rest, service, extra, hrx, by rw [hu, hc.1], hc.2⟩
            · intro _; rfl
  · intro hpack hsend
    have hb : pack_bytes [pack_arg.b SSH_MSG_SERVICE_REQUEST, pack_arg.s (bytes "ssh-userauth")]
        = [5, 0, 0, 0, 12] ++ bytes "ssh-userauth" := by decide
    rw [ssh_request_auth_packets_tx]
    simp only [ssh_buffer_pack, ssh_packet_send, hpack, hsend, if_true, hb]
    simp
  · intro hnot
    unfold ssh_request_auth
    simp only [ssh_buffer_pack, ssh_packet_send]
    by_cases hpack : env.pack_rc env.n_pack = SSH_OK
    · have hsend : env.send_rc env.n_send ≠ SSH_OK := fun h => hnot ⟨hpack, h⟩
      have hor : Int.lor SSH_OK (env.send_rc env.n_send) ≠ SSH_OK := by
        intro h
        exact hsend ((int_lor_eq_zero _ _).mp h).2
      simp only [hpack, if_true, if_neg hsend, hor, ne_eq, not_false_eq_true, if_true]
    · have hor : ∀ x, Int.lor (env.pack_rc env.n_pack) x ≠ SSH_OK := by
        intro x h
        exact hpack ((int_lor_eq_zero _ _).mp h).1
      simp only [if_neg hpack]
      split <;> simp [hor]

/-- Witness of C12, amended: on a `SERVICE_ACCEPT` for `ssh-userauth` the
function returns `SSH_OK`, having sent the request. -/
theorem ssh_request_auth_ok_iff_witness :
    (ssh_request_auth session0
        (env_pk [pkt ([6, 0, 0, 0, 12] ++ bytes "ssh-userauth")])).2.2.packets_tx
      = env0.packets_tx ++ [session0.out_buffer ++ [5, 0, 0, 0, 12] ++ bytes "ssh-userauth"] :=
  (ssh_request_auth_ok_iff session0
    (env_pk [pkt ([6, 0, 0, 0, 12] ++ bytes "ssh-userauth")])).2.1 rfl rfl

end MiniSSH
